import Mathlib

/-!
# micro-payment-gateway: payment orchestrator, circuit breakers and ledger

A shallow embedding of `internal/service/service.go`, `internal/service/database/wallet.go`
and `internal/service/gateway/*.go`, followed by theorems about it.

Conventions of the embedding

* Go `int64` values are `Int`; arithmetic that can overflow goes through `wrap64`.
  Go `uint32`/`uint64` counters are `Nat` reduced modulo `2 ^ 32` / `2 ^ 64`.
* Go maps are total functions into `Option`.
* The ledger stores pointers. Every key of the two maps owns its object, so a write through a
  pointer obtained from `GetWallet`/`GetTransaction` is an update of the map at the key the
  pointer was read from (`pokeWallet`, `pokeTransaction`).
* Wall-clock time is a `Nat` (nanoseconds). An entry point receives the time of the call; inside
  a call time advances only while an HTTP exchange with a provider is in flight.
* The network is a function `Net` from the time and content of an HTTP exchange to its outcome
  and duration. The identifier drawn by `uuid.New()` is an argument of the call.
* Logging is not modelled.
-/

namespace MicroPaymentGateway

/-! ## The `model` package (not part of the sources at hand) -/

/-- Sentinel error kinds handed to `model.WrapError`. -/
inductive ErrKind where
  | ErrValidation
  | ErrHttpRequestFailure
  | ErrHttpResponseFailure
  deriving DecidableEq, Repr

/-- A Go `error` value: `plain` is what `errors.New` and `fmt.Errorf` (without `%w`) build,
`wrapped` is what `model.WrapError kind detail` builds. -/
inductive Err where
  | plain (msg : String)
  | wrapped (kind : ErrKind) (detail : String)
  deriving DecidableEq, Repr

/-- Operation type carried by a payment request (`model.Deposit`, `model.Withdraw`). -/
inductive RequestType where
  | Deposit
  | Withdraw
  deriving DecidableEq, Repr

/-- The `model.PaymentRequest` record. -/
structure PaymentRequest where
  UserID : String
  Currency : String
  Amount : Int
  Exponent : Int
  CountryCode : String
  Type_ : RequestType
  TransactionID : String
  deriving DecidableEq, Repr

/-- The `model.PaymentResponse` record. -/
structure PaymentResponse where
  Status : String
  Message : String
  TransactionID : String
  deriving DecidableEq, Repr

/-- The `model.CallbackRequest` record. -/
structure CallbackRequest where
  TransactionID : String
  State : String
  deriving DecidableEq, Repr

/-- The `model.Wallet` record. -/
structure Wallet where
  Balance : Int
  deriving DecidableEq, Repr

/-- The `model.Transaction` record. -/
structure Transaction where
  ID : String
  UserID : String
  Amount : Int
  Currency : String
  Type_ : String
  State : String
  deriving DecidableEq, Repr

/-- The `model.PgRoutingMaster` routing entry. -/
structure PgRoutingMaster where
  Currency : String
  CountryCode : String
  PaymentGateway : String
  Active : Bool
  MaxRetryCount : Int
  Priority : Int
  deriving DecidableEq, Repr

/-- Decoded SOAP envelope body of `pgb.go`: the `return` element of `depositResponse` and of
`withdrawResponse`, each absent (`nil`) or carrying `(status, message)`. -/
structure Envelope where
  DepositResponse : Option (String × String)
  WithdrawResponse : Option (String × String)
  deriving DecidableEq, Repr

/-- Modelled from the spec: the parts of package `model` and of the standard codecs that the
sources under study use but do not define. `SupportedCurrencies` is the configured
supported-currency set (a Go `map[string]bool`, read with the zero value `false` for a missing
key); the three state constants are the transaction states Authorized, Approved and Failed;
`errorText` is the `Error()` text of a `model.WrapError` value; `jsonMarshal`, `jsonUnmarshal`
and `xmlUnmarshal` stand for `encoding/json` and `encoding/xml` on the records involved
(`xmlUnmarshal` returns the decoded envelope or the text of the decoder's error). -/
structure Model where
  SupportedCurrencies : String → Bool
  StateAuthorized : String
  StateApproved : String
  StateFailed : String
  errorText : ErrKind → String → String
  jsonMarshal : PaymentRequest → String
  jsonUnmarshal : String → Option (String × String)
  xmlUnmarshal : String → Except String Envelope

/-- The `Error()` text of an error value. -/
def Err.text (M : Model) : Err → String
  | Err.plain msg => msg
  | Err.wrapped kind detail => M.errorText kind detail

/-- Whether `errors.Is(err, model.ErrValidation)` holds, the test `handler.go` uses to answer
400 instead of 500. -/
def Err.isValidation : Err → Bool
  | Err.wrapped ErrKind.ErrValidation _ => true
  | _ => false

/-! ## Machine arithmetic -/

/-- Two-complement wrap-around of Go `int64` arithmetic. -/
def wrap64 (x : Int) : Int := (x + 2 ^ 63) % 2 ^ 64 - 2 ^ 63

/-- Wrap-around of a Go `uint32`. -/
def wrapU32 (n : Nat) : Nat := n % 2 ^ 32

/-- Wrap-around of a Go `uint64`. -/
def wrapU64 (n : Nat) : Nat := n % 2 ^ 64

/-! ## IEEE-754 binary64, as far as `tripLogic` needs it -/

/-- A `float64` value: a finite value is identified with the rational it denotes. -/
inductive F64 where
  | finite (q : ℚ)
  | posInf
  | negInf
  | nan
  deriving DecidableEq

/-- Nearest integer to `x`, ties to the even neighbour. -/
def roundHalfEven (x : ℚ) : ℤ :=
  if x - ⌊x⌋ < 1 / 2 then ⌊x⌋
  else if 1 / 2 < x - ⌊x⌋ then ⌊x⌋ + 1
  else if ⌊x⌋ % 2 = 0 then ⌊x⌋ else ⌊x⌋ + 1

/-- Spacing of binary64 values around a positive rational `q`: `2 ^ (e - 52)` where
`2 ^ e ≤ q < 2 ^ (e + 1)`, with `e` no smaller than the least normal exponent `-1022`. -/
def ulp64 (q : ℚ) : ℚ := (2 : ℚ) ^ (max (Int.log 2 q) (-1022) - 52)

/-- Round-to-nearest-even of a positive rational to binary64, overflowing to `+Inf`. -/
def roundPos64 (q : ℚ) : F64 :=
  if (2 : ℚ) ^ (1024 : ℕ) ≤ (roundHalfEven (q / ulp64 q) : ℚ) * ulp64 q then F64.posInf
  else F64.finite ((roundHalfEven (q / ulp64 q) : ℚ) * ulp64 q)

/-- Round-to-nearest-even of a rational to binary64. -/
def F64.round (q : ℚ) : F64 :=
  if q = 0 then F64.finite 0
  else if 0 < q then roundPos64 q
  else match roundPos64 (-q) with
    | F64.finite r => F64.finite (-r)
    | _ => F64.negInf

/-- Conversion `float64(n)` of an unsigned 32-bit integer: exact, since `n < 2 ^ 53`. -/
def F64.ofUInt32 (n : Nat) : F64 := F64.finite (n : ℚ)

/-- Division `x / y` of two finite `float64` values: `0 / 0` is NaN, a non-zero value over `0`
is an infinity, otherwise the exact quotient rounded. Operands that are not finite do not
arise (both operands of `tripLogic` come from `F64.ofUInt32`) and are sent to NaN. -/
def F64.div : F64 → F64 → F64
  | F64.finite a, F64.finite b =>
      if b = 0 then (if a = 0 then F64.nan else if 0 < a then F64.posInf else F64.negInf)
      else F64.round (a / b)
  | _, _ => F64.nan

/-- Comparison `x >= y` of `float64` values; every comparison with NaN is false. -/
def F64.ge : F64 → F64 → Bool
  | F64.nan, _ => false
  | _, F64.nan => false
  | F64.posInf, _ => true
  | _, F64.negInf => true
  | F64.negInf, _ => false
  | _, F64.posInf => false
  | F64.finite a, F64.finite b => decide (b ≤ a)

/-- The constant `0.6` converted to `float64`. -/
def F64.c06 : F64 := F64.round (3 / 5)

/-! ## The circuit breaker (`github.com/sony/gobreaker`) -/

/-- Breaker states, `gobreaker.State`. -/
inductive CBState where
  | StateClosed
  | StateHalfOpen
  | StateOpen
  deriving DecidableEq, Repr

/-- Counters of one breaker generation, `gobreaker.Counts` (all `uint32`). -/
structure Counts where
  Requests : Nat
  TotalSuccesses : Nat
  TotalFailures : Nat
  ConsecutiveSuccesses : Nat
  ConsecutiveFailures : Nat
  deriving DecidableEq, Repr

/-- `tripLogic` (service.go:201-205): the `ReadyToTrip` hook installed on every breaker. -/
def tripLogic (counts : Counts) : Bool :=
  let failureRatio := F64.div (F64.ofUInt32 counts.TotalFailures) (F64.ofUInt32 counts.Requests)
  decide (counts.Requests ≥ 3) && F64.ge failureRatio F64.c06

/-- Modelled from the spec: the circuit breaker of section 4.2. The sources build it with
`gobreaker.NewCircuitBreaker` (service.go:77-86) from the external library
`github.com/sony/gobreaker`, which is not among the files at hand. The record holds the
library object's mutable fields; `expiry = none` is the zero `time.Time`. The settings are
those of service.go: `Interval` 500 ms, `Timeout` 2 s, `MaxRequests` unset (the library then
uses 1), `IsSuccessful` unset (success means a nil error), `ReadyToTrip = tripLogic`. -/
structure CircuitBreaker where
  name : String
  state : CBState
  generation : Nat
  counts : Counts
  expiry : Option Nat
  deriving DecidableEq, Repr

/-- Setting `Interval: 500 * time.Millisecond`, in nanoseconds. -/
def cbInterval : Nat := 500 * 1000000

/-- Setting `Timeout: 2 * time.Second`, in nanoseconds. -/
def cbTimeout : Nat := 2 * 1000000000

/-- Library default for an unset `MaxRequests`. -/
def cbMaxRequests : Nat := 1

/-- All counters zero (`Counts.clear`). -/
def Counts.clear : Counts := ⟨0, 0, 0, 0, 0⟩

/-- Counter update of `Counts.onRequest`. -/
def Counts.onRequest (c : Counts) : Counts :=
  { c with Requests := wrapU32 (c.Requests + 1) }

/-- Counter update of `Counts.onSuccess`. -/
def Counts.onSuccess (c : Counts) : Counts :=
  { c with TotalSuccesses := wrapU32 (c.TotalSuccesses + 1),
           ConsecutiveSuccesses := wrapU32 (c.ConsecutiveSuccesses + 1),
           ConsecutiveFailures := 0 }

/-- Counter update of `Counts.onFailure`. -/
def Counts.onFailure (c : Counts) : Counts :=
  { c with TotalFailures := wrapU32 (c.TotalFailures + 1),
           ConsecutiveFailures := wrapU32 (c.ConsecutiveFailures + 1),
           ConsecutiveSuccesses := 0 }

/-- Modelled from the spec: `toNewGeneration` of the breaker library. A new generation clears
the counters; a Closed breaker expires after the evaluation interval, an Open one after the
cooldown, a Half-Open one never. -/
def CircuitBreaker.toNewGeneration (cb : CircuitBreaker) (now : Nat) : CircuitBreaker :=
  { cb with
    generation := wrapU64 (cb.generation + 1),
    counts := Counts.clear,
    expiry := match cb.state with
      | CBState.StateClosed => some (now + cbInterval)
      | CBState.StateOpen => some (now + cbTimeout)
      | CBState.StateHalfOpen => none }

/-- Modelled from the spec: `setState` of the breaker library; a change of state starts a new
generation. -/
def CircuitBreaker.setState (cb : CircuitBreaker) (state : CBState) (now : Nat) :
    CircuitBreaker :=
  if cb.state = state then cb
  else CircuitBreaker.toNewGeneration { cb with state := state } now

/-- Whether `expiry.Before(now)`; the zero time is before every instant. -/
def expiryBefore (expiry : Option Nat) (now : Nat) : Bool :=
  match expiry with
  | none => true
  | some e => decide (e < now)

/-- Modelled from the spec: `currentState` of the breaker library. Reading the state at time
`now` first applies the time-driven transitions: a Closed breaker whose interval has elapsed
starts a new generation (counters reset), an Open breaker whose cooldown has elapsed becomes
Half-Open. -/
def CircuitBreaker.currentState (cb : CircuitBreaker) (now : Nat) : CircuitBreaker :=
  match cb.state with
  | CBState.StateClosed =>
      if cb.expiry.isSome && expiryBefore cb.expiry now then cb.toNewGeneration now else cb
  | CBState.StateOpen =>
      if expiryBefore cb.expiry now then cb.setState CBState.StateHalfOpen now else cb
  | CBState.StateHalfOpen => cb

/-- Modelled from the spec: `gobreaker.NewCircuitBreaker` with the settings of service.go:77-86,
created at time `now`: Closed, first generation, counters zero. -/
def NewCircuitBreaker (name : String) (now : Nat) : CircuitBreaker :=
  CircuitBreaker.toNewGeneration ⟨name, CBState.StateClosed, 0, Counts.clear, none⟩ now

/-- Modelled from the spec: `CircuitBreaker.State()`: the breaker after the time-driven
transitions, whose `state` field is the value returned. -/
def CircuitBreaker.State (cb : CircuitBreaker) (now : Nat) : CircuitBreaker :=
  cb.currentState now

/-- The library error `ErrOpenState`. -/
def ErrOpenState : Err := Err.plain "circuit breaker is open"

/-- The library error `ErrTooManyRequests`. -/
def ErrTooManyRequests : Err := Err.plain "too many requests"

/-- Modelled from the spec: `beforeRequest` of the breaker library: an Open breaker rejects the
call, a Half-Open breaker admits `MaxRequests` trial calls, an admitted call is counted. Returns
the breaker afterwards and the generation the call belongs to, or the rejection. -/
def CircuitBreaker.beforeRequest (cb : CircuitBreaker) (now : Nat) :
    CircuitBreaker × Except Err Nat :=
  let cb1 := cb.currentState now
  if cb1.state = CBState.StateOpen then (cb1, Except.error ErrOpenState)
  else if cb1.state = CBState.StateHalfOpen ∧ cb1.counts.Requests ≥ cbMaxRequests then
    (cb1, Except.error ErrTooManyRequests)
  else ({ cb1 with counts := cb1.counts.onRequest }, Except.ok cb1.generation)

/-- Modelled from the spec: `onSuccess` of the breaker library: a success is counted; in
Half-Open, `MaxRequests` consecutive successes close the breaker. -/
def CircuitBreaker.onSuccess (cb : CircuitBreaker) (now : Nat) : CircuitBreaker :=
  match cb.state with
  | CBState.StateClosed => { cb with counts := cb.counts.onSuccess }
  | CBState.StateHalfOpen =>
      let cb1 := { cb with counts := cb.counts.onSuccess }
      if cb1.counts.ConsecutiveSuccesses ≥ cbMaxRequests then
        cb1.setState CBState.StateClosed now
      else cb1
  | CBState.StateOpen => cb

/-- Modelled from the spec: `onFailure` of the breaker library: in Closed the failure is counted
and `ReadyToTrip` (here `tripLogic`) is consulted on the updated counters; in Half-Open the
failed trial re-opens the breaker. -/
def CircuitBreaker.onFailure (cb : CircuitBreaker) (now : Nat) : CircuitBreaker :=
  match cb.state with
  | CBState.StateClosed =>
      let cb1 := { cb with counts := cb.counts.onFailure }
      if tripLogic cb1.counts then cb1.setState CBState.StateOpen now else cb1
  | CBState.StateHalfOpen => cb.setState CBState.StateOpen now
  | CBState.StateOpen => cb

/-- Modelled from the spec: `afterRequest` of the breaker library: the outcome of a call is
recorded only if the breaker is still in the generation in which the call was admitted. -/
def CircuitBreaker.afterRequest (cb : CircuitBreaker) (before : Nat) (success : Bool)
    (now : Nat) : CircuitBreaker :=
  let cb1 := cb.currentState now
  if cb1.generation ≠ before then cb1
  else if success then cb1.onSuccess now else cb1.onFailure now

/-- Modelled from the spec: `CircuitBreaker.Execute(req)` at time `now`. `req t` is the outcome
of the wrapped operation started at time `t` together with its duration. Returns the breaker
afterwards, the result, the time at return and whether the operation was run at all. -/
def CircuitBreaker.Execute {α : Type} (cb : CircuitBreaker) (now : Nat)
    (req : Nat → Except Err α × Nat) : CircuitBreaker × Except Err α × Nat × Bool :=
  match cb.beforeRequest now with
  | (cb1, Except.error e) => (cb1, Except.error e, now, false)
  | (cb1, Except.ok generation) =>
      let r := req now
      let success := match r.1 with
        | Except.ok _ => true
        | Except.error _ => false
      (cb1.afterRequest generation success (now + r.2), r.1, now + r.2, true)

/-! ## Provider adapters (`gateway.go`, `pga.go`, `pgb.go`) -/

/-- What the HTTP layer does with one POST: `http.NewRequest` fails, `httpClient.Do` fails,
reading the body fails, or a response with a status code and a body arrives. -/
inductive HttpOutcome where
  | requestError (msg : String)
  | doError (msg : String)
  | readError (msg : String)
  | response (statusCode : Int) (body : String)
  deriving DecidableEq, Repr

/-- The network: outcome and duration of the POST issued at a given time to a given target
with a given content type and body. -/
abbrev Net := Nat → String → String → String → HttpOutcome × Nat

/-- `IsSuccessStatus` (gateway.go:75-77). -/
def IsSuccessStatus (statusCode : Int) : Bool :=
  decide (statusCode ≥ 200) && decide (statusCode < 300)

/-- `makeHTTPRequest` (gateway.go:47-72), with the duration of the exchange. -/
def makeHTTPRequest (net : Net) (now : Nat) (url action contentType requestBody : String) :
    Except Err String × Nat :=
  match net now (url ++ "/" ++ action) contentType requestBody with
  | (HttpOutcome.requestError msg, d) =>
      (Except.error (Err.wrapped ErrKind.ErrHttpRequestFailure msg), d)
  | (HttpOutcome.doError msg, d) =>
      (Except.error (Err.wrapped ErrKind.ErrHttpRequestFailure msg), d)
  | (HttpOutcome.readError msg, d) =>
      (Except.error (Err.wrapped ErrKind.ErrHttpResponseFailure msg), d)
  | (HttpOutcome.response statusCode respBody, d) =>
      if !IsSuccessStatus statusCode then
        (Except.error (Err.wrapped ErrKind.ErrHttpResponseFailure respBody), d)
      else (Except.ok respBody, d)

/-- Action constant `gateway.ActionDeposit` (gateway.go:15). -/
def gateway.ActionDeposit : String := "deposit"

/-- Action constant `gateway.ActionWithdraw` (gateway.go:16). -/
def gateway.ActionWithdraw : String := "withdraw"

/-- `PGSA.processPayment` (pga.go:24-45): JSON over HTTP. -/
def PGSA.processPayment (M : Model) (net : Net) (now : Nat) (request : PaymentRequest)
    (action : String) : Except Err PaymentResponse × Nat :=
  match makeHTTPRequest net now "http://pgsa.com" action "application/json"
      (M.jsonMarshal request) with
  | (Except.error err, d) => (Except.error err, d)
  | (Except.ok respBody, d) =>
      match M.jsonUnmarshal respBody with
      | none => (Except.error (Err.wrapped ErrKind.ErrHttpResponseFailure respBody), d)
      | some (status, message) => (Except.ok ⟨status, message, request.TransactionID⟩, d)

/-- The SOAP envelope rendered by `fmt.Sprintf` in `PGSB.ProcessPayment` (pgb.go:63-75). -/
def soapRequest (request : PaymentRequest) : String :=
  "\n\t<soapenv:Envelope xmlns:soapenv=\"http://schemas.xmlsoap.org/soap/envelope/\" xmlns:ws=\"http://pgsb.com/\">"
    ++ "\n\t   <soapenv:Header/>"
    ++ "\n\t   <soapenv:Body>"
    ++ "\n\t      <ws:PaymentRequest>"
    ++ "\n\t         <ws:UserID>" ++ request.UserID ++ "</ws:UserID>"
    ++ "\n\t         <ws:Currency>" ++ request.Currency ++ "</ws:Currency>"
    ++ "\n\t         <ws:Amount>" ++ toString request.Amount ++ "</ws:Amount>"
    ++ "\n\t         <ws:Exponent>" ++ toString request.Exponent ++ "</ws:Exponent>"
    ++ "\n\t         <ws:CountryCode>" ++ request.CountryCode ++ "</ws:CountryCode>"
    ++ "\n\t      </ws:PaymentRequest>"
    ++ "\n\t   </soapenv:Body>"
    ++ "\n\t</soapenv:Envelope>"

/-- `PGSB.parseResponse` (pgb.go:104-135); on success the transaction id is still empty. -/
def PGSB.parseResponse (M : Model) (xmlData : String) (action : String) :
    Except Err PaymentResponse :=
  match M.xmlUnmarshal xmlData with
  | Except.error msg => Except.error (Err.plain ("error parsing XML: " ++ msg))
  | Except.ok envelope =>
      if action = gateway.ActionDeposit then
        match envelope.DepositResponse with
        | some (status, message) => Except.ok ⟨status, message, ""⟩
        | none => Except.error (Err.plain "no valid deposit response found")
      else if action = gateway.ActionWithdraw then
        match envelope.WithdrawResponse with
        | some (status, message) => Except.ok ⟨status, message, ""⟩
        | none => Except.error (Err.plain "no valid withdraw response found")
      else Except.error (Err.plain "invalid action")

/-- `PGSB.ProcessPayment` (pgb.go:59-91): SOAP/XML over HTTP. -/
def PGSB.ProcessPayment (M : Model) (net : Net) (now : Nat) (request : PaymentRequest)
    (action : String) : Except Err PaymentResponse × Nat :=
  match makeHTTPRequest net now "http://pgsb.com/soap" action "text/xml"
      (soapRequest request) with
  | (Except.error err, d) => (Except.error err, d)
  | (Except.ok respBody, d) =>
      match PGSB.parseResponse M respBody action with
      | Except.error _ =>
          (Except.error (Err.wrapped ErrKind.ErrHttpResponseFailure respBody), d)
      | Except.ok r => (Except.ok { r with TransactionID := request.TransactionID }, d)

/-- The implementations of the `PaymentGateway` interface. -/
inductive PaymentGateway where
  | PGSA
  | PGSB
  deriving DecidableEq, Repr

/-- Method `Deposit` of an adapter (pga.go:48-50, pgb.go:94-96). -/
def PaymentGateway.Deposit (M : Model) (net : Net) (pg : PaymentGateway) (now : Nat)
    (request : PaymentRequest) : Except Err PaymentResponse × Nat :=
  match pg with
  | PaymentGateway.PGSA => PGSA.processPayment M net now request "deposit"
  | PaymentGateway.PGSB => PGSB.ProcessPayment M net now request gateway.ActionDeposit

/-- Method `Withdraw` of an adapter (pga.go:53-55, pgb.go:99-101). -/
def PaymentGateway.Withdraw (M : Model) (net : Net) (pg : PaymentGateway) (now : Nat)
    (request : PaymentRequest) : Except Err PaymentResponse × Nat :=
  match pg with
  | PaymentGateway.PGSA => PGSA.processPayment M net now request "withdraw"
  | PaymentGateway.PGSB => PGSB.ProcessPayment M net now request gateway.ActionWithdraw

/-- `GatewayFactory.GetPaymentGatewayInstance` (gateway.go:34-44). -/
def GetPaymentGatewayInstance (provider : String) : Except Err PaymentGateway :=
  if provider = "PGA" then Except.ok PaymentGateway.PGSA
  else if provider = "PGB" then Except.ok PaymentGateway.PGSB
  else Except.error (Err.plain "payment gateway not implemented")

/-! ## The ledger (`database/wallet.go`) -/

/-- `UserWalletRepo`: wallets by user id and transactions by transaction id. The mutex is not
modelled: calls are sequential. -/
structure UserWalletRepo where
  data : String → Option Wallet
  transactions : String → Option Transaction

/-- `NewUserWalletRepo` (wallet.go:22-27): both maps empty. -/
def NewUserWalletRepo : UserWalletRepo := ⟨fun _ => none, fun _ => none⟩

/-- Write through a wallet pointer read at key `userID`: the stored object changes. -/
def pokeWallet (r : UserWalletRepo) (userID : String) (w : Wallet) : UserWalletRepo :=
  { r with data := fun k => if k = userID then some w else r.data k }

/-- Write through a transaction pointer read at key `txnID`: the stored object changes. -/
def pokeTransaction (r : UserWalletRepo) (txnID : String) (t : Transaction) : UserWalletRepo :=
  { r with transactions := fun k => if k = txnID then some t else r.transactions k }

/-- `UserWalletRepo.GetWallet` (wallet.go:31-42): the stored wallet, or a zero wallet that is
stored first. The Go error result is nil on every path. -/
def UserWalletRepo.GetWallet (r : UserWalletRepo) (userID : String) : UserWalletRepo × Wallet :=
  match r.data userID with
  | some wallet => (r, wallet)
  | none => ({ r with data := fun k => if k = userID then some ⟨0⟩ else r.data k }, ⟨0⟩)

/-- `UserWalletRepo.UpdateWallet` (wallet.go:46-56). The Go error result is always nil. -/
def UserWalletRepo.UpdateWallet (r : UserWalletRepo) (userID : String) (wallet : Wallet) :
    UserWalletRepo :=
  { r with data := fun k => if k = userID then some wallet else r.data k }

/-- `UserWalletRepo.GetTransaction` (wallet.go:60-70). -/
def UserWalletRepo.GetTransaction (r : UserWalletRepo) (txnID : String) :
    Except Err Transaction :=
  match r.transactions txnID with
  | some txn => Except.ok txn
  | none => Except.error (Err.plain "transaction not found")

/-- `UserWalletRepo.UpdateTransaction` (wallet.go:74-84): stored under the transaction's own
id. The Go error result is always nil. -/
def UserWalletRepo.UpdateTransaction (r : UserWalletRepo) (txn : Transaction) :
    UserWalletRepo :=
  { r with transactions := fun k => if k = txn.ID then some txn else r.transactions k }

/-! ## The orchestrator (`service.go`) -/

/-- Action constant `ActionDeposit` of package `service` (service.go:19). -/
def ActionDeposit : String := "Deposit"

/-- Action constant `ActionWithdraw` of package `service` (service.go:20). -/
def ActionWithdraw : String := "Withdraw"

/-- The `PaymentProcessor` record (service.go:29-34); its factory is `GatewayFactory`. -/
structure PaymentProcessor where
  WalletRepo : UserWalletRepo
  CircuitBreakers : String → Option CircuitBreaker
  PgRoutingMasters : List PgRoutingMaster

/-- `NewPaymentProcessor` (service.go:36-43): empty ledger, no breaker registered. -/
def NewPaymentProcessor (pgmasters : List PgRoutingMaster) : PaymentProcessor :=
  ⟨NewUserWalletRepo, fun _ => none, pgmasters⟩

/-- `validateAccount` (service.go:222-224). -/
def validateAccount (userID : String) : Bool := userID != ""

/-- `validateCurrency` (service.go:227-229). -/
def validateCurrency (M : Model) (currency : String) : Bool := M.SupportedCurrencies currency

/-- `validateAmount` (service.go:232-234); the exponent is not looked at. -/
def validateAmount (amount : Int) (_exponent : Int) : Bool := decide (amount > 0)

/-- `validateRequest` (service.go:208-219); `none` is the nil error. -/
def validateRequest (M : Model) (request : PaymentRequest) : Option Err :=
  if !validateAccount request.UserID then
    some (Err.wrapped ErrKind.ErrValidation "invalid account ID")
  else if !validateCurrency M request.Currency then
    some (Err.wrapped ErrKind.ErrValidation "invalid currency")
  else if !validateAmount request.Amount request.Exponent then
    some (Err.wrapped ErrKind.ErrValidation "invalid amount")
  else none

/-- How the loop of `processPayment` left one routing entry: `skipped` is the `continue` of
service.go:93 (breaker Open), `unresolved` the factory error of service.go:98-101, `rejected`
an error of `cb.Execute` raised before the operation was run, `failed` and `succeeded` the two
results of an operation that was run. -/
inductive Disposition where
  | skipped
  | unresolved (err : Err)
  | rejected (err : Err)
  | failed (err : Err)
  | succeeded (resp : PaymentResponse)
  deriving DecidableEq, Repr

/-- Record of one loop iteration: the routing identifier, the time the iteration started, and
how it ended. -/
structure Attempt where
  provider : String
  time : Nat
  disposition : Disposition
  deriving DecidableEq, Repr

/-- Whether the iteration ran the provider adapter (and so reached the network). -/
def Attempt.ran (a : Attempt) : Bool :=
  match a.disposition with
  | Disposition.failed _ => true
  | Disposition.succeeded _ => true
  | _ => false

/-- Whether the iteration ended with a provider response. -/
def Attempt.isSuccess (a : Attempt) : Bool :=
  match a.disposition with
  | Disposition.succeeded _ => true
  | _ => false

/-- The error an iteration assigns to `lastError`, if any. -/
def Attempt.cause (a : Attempt) : Option Err :=
  match a.disposition with
  | Disposition.unresolved err => some err
  | Disposition.rejected err => some err
  | Disposition.failed err => some err
  | _ => none

/-- The value of `lastError` after the given iterations, starting from `init`. -/
def lastCause (init : Option Err) : List Attempt → Option Err
  | [] => init
  | a :: rest => lastCause (match a.cause with | some e => some e | none => init) rest

/-- What a call of `Deposit`, `Withdraw` or `processPayment` leaves behind: the processor
afterwards, the request afterwards (the caller's record, on which the transaction id is
stamped), the returned pair as an `Except`, the record of the loop iterations in order, and
the time at return. The record of iterations is bookkeeping of the embedding; nothing reads
it. -/
structure Outcome where
  processor : PaymentProcessor
  request : PaymentRequest
  result : Except Err PaymentResponse
  attempts : List Attempt
  now : Nat

/-- Routing identifiers of the providers whose adapter was run, in order. -/
def Outcome.invoked (o : Outcome) : List String :=
  (o.attempts.filter Attempt.ran).map Attempt.provider

/-- Registers `cb` under `name` in the breaker map, or records the mutation of the breaker
already registered there. -/
def PaymentProcessor.setBreaker (p : PaymentProcessor) (name : String) (cb : CircuitBreaker) :
    PaymentProcessor :=
  { p with CircuitBreakers := fun k => if k = name then some cb else p.CircuitBreakers k }

/-- The closure `operation` of service.go:104-109, run at time `t`. -/
def operation (M : Model) (net : Net) (pg : PaymentGateway) (action : String)
    (request : PaymentRequest) (t : Nat) : Except Err PaymentResponse × Nat :=
  if action = ActionDeposit then pg.Deposit M net t request else pg.Withdraw M net t request

/-- The loop of `processPayment` over the routing entries still to be tried
(service.go:67-130), threading the processor, the clock, `lastError` and the record of
iterations. -/
def attemptLoop (M : Model) (net : Net) (action : String) (request : PaymentRequest)
    (txn : Transaction) :
    List PgRoutingMaster → PaymentProcessor → Nat → Option Err → List Attempt → Outcome
  | [], p, now, lastError, done =>
      match lastError with
      | some e =>
          ⟨p, request, Except.error (Err.plain (action ++ " operation failed: " ++ e.text M)),
            done, now⟩
      | none =>
          ⟨p, request, Except.error (Err.plain (action ++ " operation failed")), done, now⟩
  | pgm :: rest, p, now, lastError, done =>
      let cb0 := match p.CircuitBreakers pgm.PaymentGateway with
        | some cb => cb
        | none => NewCircuitBreaker pgm.PaymentGateway now
      let cb := cb0.State now
      if cb.state = CBState.StateOpen then
        attemptLoop M net action request txn rest (p.setBreaker pgm.PaymentGateway cb) now
          lastError (done ++ [⟨pgm.PaymentGateway, now, Disposition.skipped⟩])
      else
        match GetPaymentGatewayInstance pgm.PaymentGateway with
        | Except.error err =>
            attemptLoop M net action request txn rest (p.setBreaker pgm.PaymentGateway cb) now
              (some err) (done ++ [⟨pgm.PaymentGateway, now, Disposition.unresolved err⟩])
        | Except.ok pg =>
            match cb.Execute now (operation M net pg action request) with
            | (cb1, Except.error err, now1, ran) =>
                attemptLoop M net action request txn rest
                  (p.setBreaker pgm.PaymentGateway cb1) now1 (some err)
                  (done ++ [⟨pgm.PaymentGateway, now,
                    if ran then Disposition.failed err else Disposition.rejected err⟩])
            | (cb1, Except.ok result, now1, _) =>
                ⟨{ p.setBreaker pgm.PaymentGateway cb1 with
                    WalletRepo := p.WalletRepo.UpdateTransaction txn },
                  request, Except.ok result,
                  done ++ [⟨pgm.PaymentGateway, now, Disposition.succeeded result⟩], now1⟩

/-- `PaymentProcessor.processPayment` (service.go:46-131), called at time `now`; `id` is the
string drawn by `uuid.New()`. -/
def PaymentProcessor.processPayment (M : Model) (net : Net) (p : PaymentProcessor) (now : Nat)
    (id : String) (request : PaymentRequest) (action : String) : Outcome :=
  match validateRequest M request with
  | some err => ⟨p, request, Except.error err, [], now⟩
  | none =>
      attemptLoop M net action { request with TransactionID := id }
        ⟨id, request.UserID, request.Amount, request.Currency, action, M.StateAuthorized⟩
        p.PgRoutingMasters p now none []

/-- `PaymentProcessor.Deposit` (service.go:134-141). -/
def PaymentProcessor.Deposit (M : Model) (net : Net) (p : PaymentProcessor) (now : Nat)
    (id : String) (request : PaymentRequest) : Outcome :=
  p.processPayment M net now id request ActionDeposit

/-- `PaymentProcessor.Withdraw` (service.go:144-159). -/
def PaymentProcessor.Withdraw (M : Model) (net : Net) (p : PaymentProcessor) (now : Nat)
    (id : String) (request : PaymentRequest) : Outcome :=
  let (repo, wallet) := p.WalletRepo.GetWallet request.UserID
  if wallet.Balance < request.Amount then
    ⟨{ p with WalletRepo := repo }, request,
      Except.error (Err.wrapped ErrKind.ErrValidation "validation error: insufficient funds"),
      [], now⟩
  else
    PaymentProcessor.processPayment M net { p with WalletRepo := repo } now id request
      gateway.ActionWithdraw

/-- `PaymentProcessor.HandleCallback` (service.go:162-198); `none` is the nil error. The
assignments to `txn.State` and `wallet.Balance` go through pointers into the ledger and are
therefore visible in it at once. -/
def PaymentProcessor.HandleCallback (M : Model) (p : PaymentProcessor)
    (callback : CallbackRequest) : PaymentProcessor × Option Err :=
  match p.WalletRepo.GetTransaction callback.TransactionID with
  | Except.error err => (p, some err)
  | Except.ok txn0 =>
      if callback.State = M.StateApproved then
        let txn : Transaction := { txn0 with State := M.StateApproved }
        let r1 := pokeTransaction p.WalletRepo callback.TransactionID txn
        let gw := r1.GetWallet txn.UserID
        if txn.Type_ = ActionDeposit then
          let wallet : Wallet := ⟨wrap64 (gw.2.Balance + txn.Amount)⟩
          ({ p with WalletRepo :=
              ((pokeWallet gw.1 txn.UserID wallet).UpdateWallet txn.UserID
                wallet).UpdateTransaction txn }, none)
        else if txn.Type_ = ActionWithdraw then
          if gw.2.Balance < txn.Amount then
            ({ p with WalletRepo := gw.1 }, some (Err.plain "insufficient funds"))
          else
            let wallet : Wallet := ⟨wrap64 (gw.2.Balance - txn.Amount)⟩
            ({ p with WalletRepo :=
                ((pokeWallet gw.1 txn.UserID wallet).UpdateWallet txn.UserID
                  wallet).UpdateTransaction txn }, none)
        else
          ({ p with WalletRepo := (gw.1.UpdateWallet txn.UserID gw.2).UpdateTransaction txn },
            none)
      else if callback.State = M.StateFailed then
        let txn : Transaction := { txn0 with State := M.StateFailed }
        ({ p with WalletRepo :=
            (pokeTransaction p.WalletRepo callback.TransactionID txn).UpdateTransaction txn },
          none)
      else
        ({ p with WalletRepo := p.WalletRepo.UpdateTransaction txn0 }, none)

/-- The error returned when the loop ends without a success (service.go:127-130). -/
def operationFailed (M : Model) (action : String) (lastError : Option Err) : Err :=
  match lastError with
  | some e => Err.plain (action ++ " operation failed: " ++ e.text M)
  | none => Err.plain (action ++ " operation failed")

/-- The body of one loop iteration (service.go:72-116) read as a function: the breaker of the
entry afterwards, the time afterwards, and how the iteration ended. `attemptLoop_cons` shows
that `attemptLoop` does exactly this on each entry. -/
def attemptEntry (M : Model) (net : Net) (action : String) (request : PaymentRequest)
    (pgm : PgRoutingMaster) (p : PaymentProcessor) (now : Nat) :
    CircuitBreaker × Nat × Disposition :=
  let cb0 := match p.CircuitBreakers pgm.PaymentGateway with
    | some cb => cb
    | none => NewCircuitBreaker pgm.PaymentGateway now
  let cb := cb0.State now
  if cb.state = CBState.StateOpen then (cb, now, Disposition.skipped)
  else
    match GetPaymentGatewayInstance pgm.PaymentGateway with
    | Except.error err => (cb, now, Disposition.unresolved err)
    | Except.ok pg =>
        match cb.Execute now (operation M net pg action request) with
        | (cb1, Except.error err, now1, ran) =>
            (cb1, now1, if ran then Disposition.failed err else Disposition.rejected err)
        | (cb1, Except.ok result, now1, _) => (cb1, now1, Disposition.succeeded result)

/-- The value of `lastError` after an iteration that ended as `d`. -/
def nextError (lastError : Option Err) (d : Disposition) : Option Err :=
  match d with
  | Disposition.unresolved err => some err
  | Disposition.rejected err => some err
  | Disposition.failed err => some err
  | _ => lastError

/-! ## Concrete instances used to exercise the definitions -/

/-- A `model` instance: USD and EUR supported, upper-case state names, error text
`kind: detail`, codecs that accept exactly the body `ok`. -/
def demoModel : Model where
  SupportedCurrencies := fun c => c == "USD" || c == "EUR"
  StateAuthorized := "AUTHORIZED"
  StateApproved := "APPROVED"
  StateFailed := "FAILED"
  errorText := fun k d =>
    match k with
    | ErrKind.ErrValidation => "validation error: " ++ d
    | ErrKind.ErrHttpRequestFailure => "http request failure: " ++ d
    | ErrKind.ErrHttpResponseFailure => "http response failure: " ++ d
  jsonMarshal := fun r => r.UserID
  jsonUnmarshal := fun b => if b = "ok" then some ("success", "done") else none
  xmlUnmarshal := fun b =>
    if b = "ok" then Except.ok ⟨some ("success", "done"), some ("success", "done")⟩
    else Except.error "EOF"

/-- A network on which every exchange is answered 200 `ok` after one millisecond. -/
def netUp : Net := fun _ _ _ _ => (HttpOutcome.response 200 "ok", 1000000)

/-- A network on which every exchange is answered 500 after one millisecond. -/
def netDown : Net := fun _ _ _ _ => (HttpOutcome.response 500 "Internal Server Error", 1000000)

/-- A network on which provider A answers 500 and every other target answers 200 `ok`. -/
def netAdown : Net := fun _ target _ _ =>
  if target = "http://pgsa.com/deposit" ∨ target = "http://pgsa.com/withdraw" then
    (HttpOutcome.response 500 "Internal Server Error", 1000000)
  else (HttpOutcome.response 200 "ok", 1000000)

/-- The processor of the tests in `service_test.go`: the given routing list and a ledger in
which user 123 holds 200. -/
def demoFunded (pgmasters : List PgRoutingMaster) : PaymentProcessor :=
  ⟨NewUserWalletRepo.UpdateWallet "123" ⟨200⟩, fun _ => none, pgmasters⟩

/-- Balance of a user as `GetWallet` reports it: the stored balance, 0 without a wallet. -/
def balanceOf (p : PaymentProcessor) (userID : String) : Int :=
  (p.WalletRepo.GetWallet userID).2.Balance

/-- The fresh processor of `handler_test.go` after the deposit of 100 by user 123 succeeded
with transaction id `t1`, and after one Approved callback on `t1`. -/
def demoApprovedOnce : PaymentProcessor :=
  (((NewPaymentProcessor [⟨"USD", "US", "PGA", true, 3, 0⟩, ⟨"USD", "US", "PGB", true, 3, 1⟩]).Deposit
      demoModel netUp 0 "t1"
      ⟨"123", "USD", 100, 0, "US", RequestType.Deposit, ""⟩).processor.HandleCallback demoModel
    ⟨"t1", "APPROVED"⟩).1

/-- A network on which every exchange started before the 2 ms mark is answered 500 and every
later one 200 `ok`, each after one millisecond. -/
def netFlaky : Net := fun t _ _ _ =>
  if t < 2000000 then (HttpOutcome.response 500 "Internal Server Error", 1000000)
  else (HttpOutcome.response 200 "ok", 1000000)

/-- The processor of `TestPaymentProcessor_Resilience_CircuitBreakerAndFallback`: provider A is
the only routing entry. -/
def demoSingle : PaymentProcessor := NewPaymentProcessor [⟨"USD", "US", "PGA", true, 3, 0⟩]

/-- Deposit number `n + 1` of a run of deposits of 100 by user 123 on `demoSingle` over the
network `net`, one every millisecond starting at time 0, with transaction ids `t1`, `t2`, ... -/
def demoRun (net : Net) : Nat → Outcome
  | 0 => demoSingle.Deposit demoModel net 0 "t1"
      ⟨"123", "USD", 100, 0, "US", RequestType.Deposit, ""⟩
  | n + 1 => (demoRun net n).processor.Deposit demoModel net ((n + 1) * 1000000)
      ("t" ++ toString (n + 2)) ⟨"123", "USD", 100, 0, "US", RequestType.Deposit, ""⟩

/-- The processor of `TestPaymentProcessor_Resilience_CircuitBreakerAndFallback` once the
breaker of provider A has opened after the failures at 0, 1 and 2 ms: Open, second generation,
cooldown until 2003 ms. -/
def demoOpen : PaymentProcessor :=
  ⟨NewUserWalletRepo,
    fun k => if k = "PGA" then
      some ⟨"PGA", CBState.StateOpen, 2, Counts.clear, some 2003000000⟩ else none,
    [⟨"USD", "US", "PGA", true, 3, 0⟩]⟩

/-- Routing list with the provider identifiers of `demoRouting` in the same order and every
other field changed: other currency and country, inactive, priorities descending. -/
def demoRoutingOther : List PgRoutingMaster :=
  [⟨"EUR", "DE", "PGA", false, 0, 9⟩, ⟨"JPY", "JP", "PGB", false, 7, 1⟩]

/-! ## Sequences of calls -/

/-- One call of an entry point of the orchestrator, with what the environment supplies to it:
the network, the time of the call and the identifier `uuid.New()` will draw. -/
inductive Call where
  | deposit (net : Net) (now : Nat) (id : String) (request : PaymentRequest)
  | withdraw (net : Net) (now : Nat) (id : String) (request : PaymentRequest)
  | callback (callback : CallbackRequest)

/-- The processor after one call. -/
def PaymentProcessor.call (M : Model) (p : PaymentProcessor) : Call → PaymentProcessor
  | Call.deposit net now id request => (p.Deposit M net now id request).processor
  | Call.withdraw net now id request => (p.Withdraw M net now id request).processor
  | Call.callback callback => (p.HandleCallback M callback).1

/-- The processor after a finite sequence of calls. -/
def PaymentProcessor.run (M : Model) : PaymentProcessor → List Call → PaymentProcessor
  | p, [] => p
  | p, c :: rest => PaymentProcessor.run M (p.call M c) rest

/-- The call does not overflow `int64`: if it is an Approved callback on a stored transaction
of type `Deposit`, the owner's balance plus the amount is at most the largest `int64`. -/
def Call.noOverflow (M : Model) (p : PaymentProcessor) : Call → Prop
  | Call.callback cb =>
      ∀ txn, p.WalletRepo.transactions cb.TransactionID = some txn →
        cb.State = M.StateApproved → txn.Type_ = ActionDeposit →
        balanceOf p txn.UserID + txn.Amount < 2 ^ 63
  | _ => True

/-- No call of the sequence overflows `int64`, each judged in the state it is made in. -/
def runNoOverflow (M : Model) : PaymentProcessor → List Call → Prop
  | _, [] => True
  | p, c :: rest => c.noOverflow M p ∧ runNoOverflow M (p.call M c) rest

/-- Ledger invariant: every balance is a non-negative `int64` and every stored transaction has
a non-negative amount. -/
def LedgerOK (r : UserWalletRepo) : Prop :=
  (∀ u w, r.data u = some w → 0 ≤ w.Balance ∧ w.Balance < 2 ^ 63) ∧
    (∀ k t, r.transactions k = some t → 0 ≤ t.Amount)

/-- The largest `int64`. -/
def maxInt64 : Int := 9223372036854775807

/-- Two deposits by user 123 on a fresh processor, each settled by an Approved callback: first
the largest `int64`, then 1. -/
def demoOverflow : List Call :=
  [Call.deposit netUp 0 "t1" ⟨"123", "USD", maxInt64, 0, "US", RequestType.Deposit, ""⟩,
    Call.callback ⟨"t1", "APPROVED"⟩,
    Call.deposit netUp 1000000 "t2" ⟨"123", "USD", 1, 0, "US", RequestType.Deposit, ""⟩,
    Call.callback ⟨"t2", "APPROVED"⟩]

/-! ## Further concrete instances -/

/-- A ledger in which user 123 holds 50 and a transaction `t1` of type `"Withdraw"` for 100 is
Authorized. -/
def demoUnderfunded : PaymentProcessor :=
  ⟨(NewUserWalletRepo.UpdateWallet "123" ⟨50⟩).UpdateTransaction
      ⟨"t1", "123", 100, "USD", "Withdraw", "AUTHORIZED"⟩,
    fun _ => none, [⟨"USD", "US", "PGA", true, 3, 0⟩, ⟨"USD", "US", "PGB", true, 3, 1⟩]⟩

/-- A network on which the response headers arrive but reading the body fails (the connection
is cut mid-body), after one millisecond. -/
def netReset : Net := fun _ _ _ _ => (HttpOutcome.readError "unexpected EOF", 1000000)

/-- Ledger invariant: no stored transaction has the type `"Withdraw"` that the subtraction
branch of `HandleCallback` tests for (service.go:181). A ledger without transactions has it,
whatever its wallets. -/
def NoWithdrawType (r : UserWalletRepo) : Prop :=
  ∀ k t, r.transactions k = some t → t.Type_ ≠ ActionWithdraw

/-- The request of the tests: user 123, 100 minor units of USD. -/
def demoRequest : PaymentRequest := ⟨"123", "USD", 100, 0, "US", RequestType.Deposit, ""⟩

/-- Routing list of `TestPaymentProcessor_Resilience_FallbackToPGB`. -/
def demoRouting : List PgRoutingMaster :=
  [⟨"USD", "US", "PGA", true, 3, 0⟩, ⟨"USD", "US", "PGB", true, 3, 1⟩]

/-- Routing list in which provider A is listed four times ahead of provider B. -/
def demoRoutingRepeated : List PgRoutingMaster :=
  [⟨"USD", "US", "PGA", true, 3, 0⟩, ⟨"USD", "US", "PGA", true, 3, 1⟩,
    ⟨"USD", "US", "PGA", true, 3, 2⟩, ⟨"USD", "US", "PGA", true, 3, 3⟩,
    ⟨"USD", "US", "PGB", true, 3, 4⟩]

/-! ## Validation and the pre-flight check of `Withdraw` -/

theorem validateRequest_eq_none_iff (M : Model) (r : PaymentRequest) :
    validateRequest M r = none ↔
      r.UserID ≠ "" ∧ M.SupportedCurrencies r.Currency = true ∧ 0 < r.Amount := by
  unfold validateRequest validateAccount validateCurrency validateAmount
  by_cases h1 : r.UserID = ""
  · simp [h1]
  · by_cases h2 : M.SupportedCurrencies r.Currency = true
    · by_cases h3 : 0 < r.Amount
      · simp [h1, h2, h3]
      · simp [h1, h2, h3]
    · simp [h1, h2]

theorem validateRequest_validation (M : Model) (r : PaymentRequest) (e : Err)
    (h : validateRequest M r = some e) : ∃ d, e = Err.wrapped ErrKind.ErrValidation d := by
  unfold validateRequest at h
  split_ifs at h <;> exact ⟨_, (Option.some.inj h).symm⟩

theorem processPayment_invalid (M : Model) (net : Net) (p : PaymentProcessor) (now : Nat)
    (id : String) (r : PaymentRequest) (action : String) (e : Err)
    (h : validateRequest M r = some e) :
    p.processPayment M net now id r action = ⟨p, r, Except.error e, [], now⟩ := by
  unfold PaymentProcessor.processPayment
  rw [h]

/-- C1: a `Withdraw` whose user has a wallet balance (as `GetWallet` reports it) strictly below
the requested amount returns the Validation error `insufficient funds`; the provider loop is
not entered, so no adapter is resolved or run and no breaker is read or registered; and the
transaction map is what it was. -/
theorem Withdraw_insufficient_funds (M : Model) (net : Net) (p : PaymentProcessor) (now : Nat)
    (id : String) (request : PaymentRequest)
    (h : (p.WalletRepo.GetWallet request.UserID).2.Balance < request.Amount) :
    (p.Withdraw M net now id request).result
        = Except.error
            (Err.wrapped ErrKind.ErrValidation "validation error: insufficient funds") ∧
      (p.Withdraw M net now id request).attempts = [] ∧
      (p.Withdraw M net now id request).invoked = [] ∧
      (p.Withdraw M net now id request).processor.CircuitBreakers = p.CircuitBreakers ∧
      (p.Withdraw M net now id request).processor.WalletRepo.transactions
        = p.WalletRepo.transactions := by
  have hw : p.Withdraw M net now id request
      = ⟨{ p with WalletRepo := (p.WalletRepo.GetWallet request.UserID).1 }, request,
          Except.error
            (Err.wrapped ErrKind.ErrValidation "validation error: insufficient funds"),
          [], now⟩ := by
    unfold PaymentProcessor.Withdraw
    simp only [h, if_true]
  rw [hw]
  refine ⟨rfl, rfl, rfl, rfl, ?_⟩
  show (p.WalletRepo.GetWallet request.UserID).1.transactions = p.WalletRepo.transactions
  unfold UserWalletRepo.GetWallet
  cases p.WalletRepo.data request.UserID <;> rfl

/-- C1 at the scenario of `TestHandler_Withdraw_Failure`: a withdrawal of 20000 by a user
without wallet. -/
theorem Withdraw_insufficient_funds_witness :
    ((NewPaymentProcessor demoRouting).WalletRepo.GetWallet "123").2.Balance < 20000 ∧
      ((NewPaymentProcessor demoRouting).Withdraw demoModel netUp 0 "t1"
          { demoRequest with Amount := 20000 }).result
        = Except.error
            (Err.wrapped ErrKind.ErrValidation "validation error: insufficient funds") ∧
      ((NewPaymentProcessor demoRouting).Withdraw demoModel netUp 0 "t1"
          { demoRequest with Amount := 20000 }).invoked = [] :=
  have h := Withdraw_insufficient_funds demoModel netUp (NewPaymentProcessor demoRouting) 0
    "t1" { demoRequest with Amount := 20000 } (by decide)
  ⟨by decide, h.1, h.2.2.1⟩

theorem validateRequest_invalid (M : Model) (r : PaymentRequest)
    (h : r.UserID = "" ∨ M.SupportedCurrencies r.Currency = false ∨ r.Amount ≤ 0) :
    ∃ d, validateRequest M r = some (Err.wrapped ErrKind.ErrValidation d) := by
  cases hv : validateRequest M r with
  | none =>
      rw [validateRequest_eq_none_iff] at hv
      rcases h with h | h | h
      · exact absurd h hv.1
      · rw [hv.2.1] at h
        exact absurd h (by simp)
      · exact absurd hv.2.2 (not_lt.mpr h)
  | some e =>
      obtain ⟨d, hd⟩ := validateRequest_validation M r e hv
      exact ⟨d, by rw [hd]⟩

theorem Withdraw_invalid (M : Model) (net : Net) (p : PaymentProcessor) (now : Nat)
    (id : String) (r : PaymentRequest) (d : String)
    (h : validateRequest M r = some (Err.wrapped ErrKind.ErrValidation d)) :
    (∃ d1, (p.Withdraw M net now id r).result
        = Except.error (Err.wrapped ErrKind.ErrValidation d1)) ∧
      (p.Withdraw M net now id r).attempts = [] ∧
      (p.Withdraw M net now id r).processor.CircuitBreakers = p.CircuitBreakers ∧
      (p.Withdraw M net now id r).processor.WalletRepo.transactions
        = p.WalletRepo.transactions := by
  have ht : (p.WalletRepo.GetWallet r.UserID).1.transactions = p.WalletRepo.transactions := by
    unfold UserWalletRepo.GetWallet
    cases p.WalletRepo.data r.UserID <;> rfl
  by_cases hb : (p.WalletRepo.GetWallet r.UserID).2.Balance < r.Amount
  · have hw : p.Withdraw M net now id r
        = ⟨{ p with WalletRepo := (p.WalletRepo.GetWallet r.UserID).1 }, r,
            Except.error
              (Err.wrapped ErrKind.ErrValidation "validation error: insufficient funds"),
            [], now⟩ := by
      unfold PaymentProcessor.Withdraw
      simp only [hb, if_true]
    rw [hw]
    exact ⟨⟨_, rfl⟩, rfl, rfl, ht⟩
  · have hw : p.Withdraw M net now id r
        = PaymentProcessor.processPayment M net
            { p with WalletRepo := (p.WalletRepo.GetWallet r.UserID).1 } now id r
            gateway.ActionWithdraw := by
      unfold PaymentProcessor.Withdraw
      simp only [hb, if_false]
    rw [hw, processPayment_invalid M net _ now id r _ _ h]
    exact ⟨⟨_, rfl⟩, rfl, rfl, ht⟩

/-- C2: a request with an empty user id, an unsupported currency or an amount `≤ 0` makes both
`Deposit` and `Withdraw` return a Validation error without entering the provider loop (no
iteration is recorded, so no provider is contacted, and the breaker map and the transactions
are untouched); and `validateRequest` returns nil exactly for a non-empty user id, a supported
currency and a positive amount, whatever the exponent. -/
theorem invalid_request_rejected (M : Model) (net : Net) (p : PaymentProcessor) (now : Nat)
    (id : String) (request : PaymentRequest)
    (h : request.UserID = "" ∨ M.SupportedCurrencies request.Currency = false
      ∨ request.Amount ≤ 0) :
    ((∃ d, (p.Deposit M net now id request).result
          = Except.error (Err.wrapped ErrKind.ErrValidation d)) ∧
        (p.Deposit M net now id request).attempts = [] ∧
        (p.Deposit M net now id request).invoked = [] ∧
        (p.Deposit M net now id request).processor.CircuitBreakers = p.CircuitBreakers ∧
        (p.Deposit M net now id request).processor.WalletRepo.transactions
          = p.WalletRepo.transactions) ∧
      ((∃ d, (p.Withdraw M net now id request).result
          = Except.error (Err.wrapped ErrKind.ErrValidation d)) ∧
        (p.Withdraw M net now id request).attempts = [] ∧
        (p.Withdraw M net now id request).invoked = [] ∧
        (p.Withdraw M net now id request).processor.CircuitBreakers = p.CircuitBreakers ∧
        (p.Withdraw M net now id request).processor.WalletRepo.transactions
          = p.WalletRepo.transactions) ∧
      (∀ r : PaymentRequest, validateRequest M r = none ↔
        r.UserID ≠ "" ∧ M.SupportedCurrencies r.Currency = true ∧ 0 < r.Amount) ∧
      (∀ (r : PaymentRequest) (e : Int),
        validateRequest M { r with Exponent := e } = validateRequest M r) := by
  obtain ⟨d, hd⟩ := validateRequest_invalid M request h
  refine ⟨?_, ?_, validateRequest_eq_none_iff M, fun r e => rfl⟩
  · have hp : p.Deposit M net now id request
        = ⟨p, request, Except.error (Err.wrapped ErrKind.ErrValidation d), [], now⟩ :=
      processPayment_invalid M net p now id request ActionDeposit _ hd
    rw [hp]
    exact ⟨⟨d, rfl⟩, rfl, rfl, rfl, rfl⟩
  · obtain ⟨h1, h2, h3, h4⟩ := Withdraw_invalid M net p now id request d hd
    refine ⟨h1, h2, ?_, h3, h4⟩
    unfold Outcome.invoked
    rw [h2]
    rfl

/-- C2 at the scenario of `TestHandler_Deposit_UnsupportedCurrency`: currency `XYZ`. -/
theorem invalid_request_rejected_witness :
    ((∃ d, ((NewPaymentProcessor demoRouting).Deposit demoModel netUp 0 "t1"
          { demoRequest with Currency := "XYZ" }).result
        = Except.error (Err.wrapped ErrKind.ErrValidation d)) ∧
      ((NewPaymentProcessor demoRouting).Deposit demoModel netUp 0 "t1"
          { demoRequest with Currency := "XYZ" }).invoked = []) ∧
      validateRequest demoModel demoRequest = none :=
  have h := invalid_request_rejected demoModel netUp (NewPaymentProcessor demoRouting) 0 "t1"
    { demoRequest with Currency := "XYZ" } (Or.inr (Or.inl (by decide)))
  ⟨⟨h.1.1, h.1.2.2.1⟩, by decide⟩

/-! ## The provider loop -/

theorem attemptLoop_nil (M : Model) (net : Net) (action : String) (request : PaymentRequest)
    (txn : Transaction) (p : PaymentProcessor) (now : Nat) (lastError : Option Err)
    (done : List Attempt) :
    attemptLoop M net action request txn [] p now lastError done
      = ⟨p, request, Except.error (operationFailed M action lastError), done, now⟩ := by
  cases lastError <;> rfl

theorem attemptLoop_cons (M : Model) (net : Net) (action : String) (request : PaymentRequest)
    (txn : Transaction) (pgm : PgRoutingMaster) (rest : List PgRoutingMaster)
    (p : PaymentProcessor) (now : Nat) (lastError : Option Err) (done : List Attempt) :
    attemptLoop M net action request txn (pgm :: rest) p now lastError done
      = match (attemptEntry M net action request pgm p now).2.2 with
        | Disposition.succeeded result =>
            ⟨{ p.setBreaker pgm.PaymentGateway (attemptEntry M net action request pgm p now).1
                with WalletRepo := p.WalletRepo.UpdateTransaction txn },
              request, Except.ok result,
              done ++ [⟨pgm.PaymentGateway, now, Disposition.succeeded result⟩],
              (attemptEntry M net action request pgm p now).2.1⟩
        | d =>
            attemptLoop M net action request txn rest
              (p.setBreaker pgm.PaymentGateway (attemptEntry M net action request pgm p now).1)
              (attemptEntry M net action request pgm p now).2.1 (nextError lastError d)
              (done ++ [⟨pgm.PaymentGateway, now, d⟩]) := by
  rw [attemptLoop]
  unfold attemptEntry
  simp only []
  split_ifs with hopen
  · rfl
  · cases hg : GetPaymentGatewayInstance pgm.PaymentGateway with
    | error err => rfl
    | ok pg =>
        simp only []
        rcases hx : CircuitBreaker.Execute
            (CircuitBreaker.State (match p.CircuitBreakers pgm.PaymentGateway with
              | some cb => cb
              | none => NewCircuitBreaker pgm.PaymentGateway now) now) now
            (operation M net pg action request) with ⟨cb1, r, now1, ran⟩
        cases r with
        | error err => cases ran <;> rfl
        | ok result => rfl

theorem makeHTTPRequest_fst_cases (net : Net) (now : Nat) (url action ct body : String) :
    (∃ k msg, (makeHTTPRequest net now url action ct body).1 = Except.error (Err.wrapped k msg))
      ∨ ∃ b, (makeHTTPRequest net now url action ct body).1 = Except.ok b := by
  unfold makeHTTPRequest
  rcases net now (url ++ "/" ++ action) ct body with ⟨o, d⟩
  cases o with
  | requestError msg => exact Or.inl ⟨_, _, rfl⟩
  | doError msg => exact Or.inl ⟨_, _, rfl⟩
  | readError msg => exact Or.inl ⟨_, _, rfl⟩
  | response c b =>
      by_cases hc : IsSuccessStatus c = true
      · right
        exact ⟨b, by simp [hc]⟩
      · left
        exact ⟨ErrKind.ErrHttpResponseFailure, b, by simp [hc]⟩

theorem PGSA_stamp (M : Model) (net : Net) (now : Nat) (request : PaymentRequest)
    (action : String) (resp : PaymentResponse)
    (h : (PGSA.processPayment M net now request action).1 = Except.ok resp) :
    resp.TransactionID = request.TransactionID := by
  unfold PGSA.processPayment at h
  rcases hm : makeHTTPRequest net now "http://pgsa.com" action "application/json"
    (M.jsonMarshal request) with ⟨r, d⟩
  rw [hm] at h
  cases r with
  | error e => simp at h
  | ok b =>
      simp only [] at h
      cases hj : M.jsonUnmarshal b with
      | none => rw [hj] at h; simp at h
      | some sm =>
          rw [hj] at h
          obtain ⟨st, ms⟩ := sm
          simp only [Except.ok.injEq] at h
          rw [← h]

theorem PGSB_stamp (M : Model) (net : Net) (now : Nat) (request : PaymentRequest)
    (action : String) (resp : PaymentResponse)
    (h : (PGSB.ProcessPayment M net now request action).1 = Except.ok resp) :
    resp.TransactionID = request.TransactionID := by
  unfold PGSB.ProcessPayment at h
  rcases hm : makeHTTPRequest net now "http://pgsb.com/soap" action "text/xml"
    (soapRequest request) with ⟨r, d⟩
  rw [hm] at h
  cases r with
  | error e => simp at h
  | ok b =>
      simp only [] at h
      cases hj : PGSB.parseResponse M b action with
      | error e => rw [hj] at h; simp at h
      | ok r0 =>
          rw [hj] at h
          simp only [Except.ok.injEq] at h
          rw [← h]

theorem operation_stamp (M : Model) (net : Net) (pg : PaymentGateway) (action : String)
    (request : PaymentRequest) (t : Nat) (resp : PaymentResponse)
    (h : (operation M net pg action request t).1 = Except.ok resp) :
    resp.TransactionID = request.TransactionID := by
  unfold operation at h
  split_ifs at h
  · cases pg
    · exact PGSA_stamp M net t request _ resp h
    · exact PGSB_stamp M net t request _ resp h
  · cases pg
    · exact PGSA_stamp M net t request _ resp h
    · exact PGSB_stamp M net t request _ resp h

theorem Execute_ok {α : Type} (cb : CircuitBreaker) (now : Nat)
    (req : Nat → Except Err α × Nat) (a : α)
    (h : (cb.Execute now req).2.1 = Except.ok a) : (req now).1 = Except.ok a := by
  unfold CircuitBreaker.Execute at h
  rcases hb : cb.beforeRequest now with ⟨cb1, g⟩
  rw [hb] at h
  cases g with
  | error e => simp at h
  | ok g => exact h

theorem attemptEntry_stamp (M : Model) (net : Net) (action : String) (request : PaymentRequest)
    (pgm : PgRoutingMaster) (p : PaymentProcessor) (now : Nat) (resp : PaymentResponse)
    (h : (attemptEntry M net action request pgm p now).2.2 = Disposition.succeeded resp) :
    resp.TransactionID = request.TransactionID := by
  unfold attemptEntry at h
  simp only [] at h
  split_ifs at h with hopen
  cases hg : GetPaymentGatewayInstance pgm.PaymentGateway with
  | error err => rw [hg] at h; simp at h
  | ok pg =>
      rw [hg] at h
      simp only [] at h
      rcases hx : CircuitBreaker.Execute
          (CircuitBreaker.State (match p.CircuitBreakers pgm.PaymentGateway with
            | some cb => cb
            | none => NewCircuitBreaker pgm.PaymentGateway now) now) now
          (operation M net pg action request) with ⟨cb1, r, now1, ran⟩
      rw [hx] at h
      cases r with
      | error err => cases ran <;> simp at h
      | ok result =>
          simp only [Disposition.succeeded.injEq] at h
          subst h
          have := Execute_ok _ now (operation M net pg action request) result (by rw [hx])
          exact operation_stamp M net pg action request now result this

theorem lastCause_cons (init : Option Err) (prov : String) (t : Nat) (d : Disposition)
    (rest : List Attempt) :
    lastCause init (⟨prov, t, d⟩ :: rest) = lastCause (nextError init d) rest := by
  cases d <;> rfl

theorem lastCause_append (init : Option Err) (xs ys : List Attempt) :
    lastCause init (xs ++ ys) = lastCause (lastCause init xs) ys := by
  induction xs generalizing init with
  | nil => rfl
  | cons a xs ih =>
      show lastCause _ (xs ++ ys) = lastCause (lastCause _ xs) ys
      exact ih _

/-- Contract of the loop. The iterations it adds to the record follow the routing list entry
by entry; either the last one succeeded, none before it did, the response carries the
request's transaction id and the transaction was stored; or the whole list was walked without
a success, the result is the aggregate error built from the last cause, and the ledger is
untouched. -/
theorem attemptLoop_spec (M : Model) (net : Net) (action : String) (request : PaymentRequest)
    (txn : Transaction) (l : List PgRoutingMaster) :
    ∀ (p : PaymentProcessor) (now : Nat) (lastError : Option Err) (done : List Attempt),
      ∃ new : List Attempt,
        (attemptLoop M net action request txn l p now lastError done).attempts = done ++ new ∧
        (attemptLoop M net action request txn l p now lastError done).request = request ∧
        (attemptLoop M net action request txn l p now lastError done).processor.PgRoutingMasters
          = p.PgRoutingMasters ∧
        new.map Attempt.provider
          = (l.take new.length).map PgRoutingMaster.PaymentGateway ∧
        ((∃ (resp : PaymentResponse) (pre : List Attempt) (prov : String) (t : Nat),
            new = pre ++ [⟨prov, t, Disposition.succeeded resp⟩] ∧
            (∀ x ∈ pre, x.isSuccess = false) ∧
            (attemptLoop M net action request txn l p now lastError done).result
              = Except.ok resp ∧
            resp.TransactionID = request.TransactionID ∧
            (attemptLoop M net action request txn l p now lastError done).processor.WalletRepo
              = p.WalletRepo.UpdateTransaction txn)
          ∨ ((∀ x ∈ new, x.isSuccess = false) ∧ new.length = l.length ∧
            (attemptLoop M net action request txn l p now lastError done).result
              = Except.error (operationFailed M action (lastCause lastError new)) ∧
            (attemptLoop M net action request txn l p now lastError done).processor.WalletRepo
              = p.WalletRepo)) := by
  induction l with
  | nil =>
      intro p now lastError done
      refine ⟨[], ?_⟩
      rw [attemptLoop_nil]
      refine ⟨by simp, rfl, rfl, rfl, Or.inr ⟨by simp, rfl, rfl, rfl⟩⟩
  | cons pgm rest ih =>
      intro p now lastError done
      rw [attemptLoop_cons]
      have hstamp := attemptEntry_stamp M net action request pgm p now
      have key : ∀ d : Disposition, (∀ r, d ≠ Disposition.succeeded r) →
          (attemptEntry M net action request pgm p now).2.2 = d →
          ∃ new : List Attempt,
            (attemptLoop M net action request txn rest
                (p.setBreaker pgm.PaymentGateway
                  (attemptEntry M net action request pgm p now).1)
                (attemptEntry M net action request pgm p now).2.1 (nextError lastError d)
                (done ++ [⟨pgm.PaymentGateway, now, d⟩])).attempts = done ++ new ∧
            (attemptLoop M net action request txn rest
                (p.setBreaker pgm.PaymentGateway
                  (attemptEntry M net action request pgm p now).1)
                (attemptEntry M net action request pgm p now).2.1 (nextError lastError d)
                (done ++ [⟨pgm.PaymentGateway, now, d⟩])).request = request ∧
            (attemptLoop M net action request txn rest
                (p.setBreaker pgm.PaymentGateway
                  (attemptEntry M net action request pgm p now).1)
                (attemptEntry M net action request pgm p now).2.1 (nextError lastError d)
                (done ++ [⟨pgm.PaymentGateway, now, d⟩])).processor.PgRoutingMasters
              = p.PgRoutingMasters ∧
            new.map Attempt.provider
              = ((pgm :: rest).take new.length).map PgRoutingMaster.PaymentGateway ∧
            ((∃ (resp : PaymentResponse) (pre : List Attempt) (prov : String) (t : Nat),
                new = pre ++ [⟨prov, t, Disposition.succeeded resp⟩] ∧
                (∀ x ∈ pre, x.isSuccess = false) ∧
                (attemptLoop M net action request txn rest
                    (p.setBreaker pgm.PaymentGateway
                      (attemptEntry M net action request pgm p now).1)
                    (attemptEntry M net action request pgm p now).2.1 (nextError lastError d)
                    (done ++ [⟨pgm.PaymentGateway, now, d⟩])).result = Except.ok resp ∧
                resp.TransactionID = request.TransactionID ∧
                (attemptLoop M net action request txn rest
                    (p.setBreaker pgm.PaymentGateway
                      (attemptEntry M net action request pgm p now).1)
                    (attemptEntry M net action request pgm p now).2.1 (nextError lastError d)
                    (done ++ [⟨pgm.PaymentGateway, now, d⟩])).processor.WalletRepo
                  = p.WalletRepo.UpdateTransaction txn)
              ∨ ((∀ x ∈ new, x.isSuccess = false) ∧ new.length = (pgm :: rest).length ∧
                (attemptLoop M net action request txn rest
                    (p.setBreaker pgm.PaymentGateway
                      (attemptEntry M net action request pgm p now).1)
                    (attemptEntry M net action request pgm p now).2.1 (nextError lastError d)
                    (done ++ [⟨pgm.PaymentGateway, now, d⟩])).result
                  = Except.error (operationFailed M action (lastCause lastError new)) ∧
                (attemptLoop M net action request txn rest
                    (p.setBreaker pgm.PaymentGateway
                      (attemptEntry M net action request pgm p now).1)
                    (attemptEntry M net action request pgm p now).2.1 (nextError lastError d)
                    (done ++ [⟨pgm.PaymentGateway, now, d⟩])).processor.WalletRepo
                  = p.WalletRepo)) := by
        intro d hd _
        obtain ⟨new, h1, h2, h3, h4, h5⟩ := ih
          (p.setBreaker pgm.PaymentGateway (attemptEntry M net action request pgm p now).1)
          (attemptEntry M net action request pgm p now).2.1 (nextError lastError d)
          (done ++ [⟨pgm.PaymentGateway, now, d⟩])
        have hns : (⟨pgm.PaymentGateway, now, d⟩ : Attempt).isSuccess = false := by
          cases d with
          | succeeded r => exact absurd rfl (hd r)
          | _ => rfl
        refine ⟨⟨pgm.PaymentGateway, now, d⟩ :: new, ?_, h2, h3, ?_, ?_⟩
        · rw [h1]; simp
        · simp [h4]
        · rcases h5 with ⟨resp, pre, prov, t, e1, e2, e3, e4, e5⟩ | ⟨e1, e2, e3, e4⟩
          · left
            refine ⟨resp, ⟨pgm.PaymentGateway, now, d⟩ :: pre, prov, t, ?_, ?_, e3, e4, e5⟩
            · rw [e1]; rfl
            · intro x hx
              rcases List.mem_cons.mp hx with hx | hx
              · rw [hx]; exact hns
              · exact e2 x hx
          · right
            refine ⟨?_, ?_, ?_, e4⟩
            · intro x hx
              rcases List.mem_cons.mp hx with hx | hx
              · rw [hx]; exact hns
              · exact e1 x hx
            · simp [e2]
            · rw [e3, lastCause_cons]
      cases hd : (attemptEntry M net action request pgm p now).2.2 with
      | succeeded resp =>
          refine ⟨[⟨pgm.PaymentGateway, now, Disposition.succeeded resp⟩], rfl, rfl, rfl,
            by simp, Or.inl ⟨resp, [], pgm.PaymentGateway, now, rfl, by simp, rfl,
              hstamp resp hd, rfl⟩⟩
      | skipped => exact key _ (fun r h => by cases h) hd
      | unresolved err => exact key _ (fun r h => by cases h) hd
      | rejected err => exact key _ (fun r h => by cases h) hd
      | failed err => exact key _ (fun r h => by cases h) hd

/-! ## `processPayment`, `Deposit`, `Withdraw` -/

theorem processPayment_valid (M : Model) (net : Net) (p : PaymentProcessor) (now : Nat)
    (id : String) (r : PaymentRequest) (action : String) (h : validateRequest M r = none) :
    p.processPayment M net now id r action
      = attemptLoop M net action { r with TransactionID := id }
          ⟨id, r.UserID, r.Amount, r.Currency, action, M.StateAuthorized⟩
          p.PgRoutingMasters p now none [] := by
  unfold PaymentProcessor.processPayment
  rw [h]

theorem processPayment_ok (M : Model) (net : Net) (p : PaymentProcessor) (now : Nat)
    (id : String) (r : PaymentRequest) (action : String) (resp : PaymentResponse)
    (h : (p.processPayment M net now id r action).result = Except.ok resp) :
    validateRequest M r = none ∧
      (p.processPayment M net now id r action).request = { r with TransactionID := id } ∧
      resp.TransactionID = id ∧
      (p.processPayment M net now id r action).processor.WalletRepo
        = p.WalletRepo.UpdateTransaction
            ⟨id, r.UserID, r.Amount, r.Currency, action, M.StateAuthorized⟩ := by
  cases hv : validateRequest M r with
  | some e =>
      rw [processPayment_invalid M net p now id r action e hv] at h
      simp at h
  | none =>
      rw [processPayment_valid M net p now id r action hv] at h ⊢
      obtain ⟨new, -, h2, -, -, h5⟩ := attemptLoop_spec M net action
        { r with TransactionID := id }
        ⟨id, r.UserID, r.Amount, r.Currency, action, M.StateAuthorized⟩
        p.PgRoutingMasters p now none []
      rcases h5 with ⟨resp1, pre, prov, t, -, -, e3, e4, e5⟩ | ⟨-, -, e3, -⟩
      · rw [e3] at h
        simp only [Except.ok.injEq] at h
        subst h
        exact ⟨rfl, h2, e4, e5⟩
      · rw [e3] at h
        simp at h

theorem GetWallet_transactions (r : UserWalletRepo) (u : String) :
    (r.GetWallet u).1.transactions = r.transactions := by
  unfold UserWalletRepo.GetWallet
  cases r.data u <;> rfl

theorem GetWallet_fst_of_ne_zero (r : UserWalletRepo) (u : String)
    (h : (r.GetWallet u).2.Balance ≠ 0) : (r.GetWallet u).1 = r := by
  unfold UserWalletRepo.GetWallet at h ⊢
  cases hd : r.data u with
  | none => rw [hd] at h; exact absurd rfl h
  | some w => rfl

theorem Withdraw_funded (M : Model) (net : Net) (p : PaymentProcessor) (now : Nat)
    (id : String) (r : PaymentRequest)
    (hb : ¬ (p.WalletRepo.GetWallet r.UserID).2.Balance < r.Amount) :
    p.Withdraw M net now id r
      = PaymentProcessor.processPayment M net
          { p with WalletRepo := (p.WalletRepo.GetWallet r.UserID).1 } now id r
          gateway.ActionWithdraw := by
  unfold PaymentProcessor.Withdraw
  simp only [hb, if_false]

theorem Withdraw_unfunded (M : Model) (net : Net) (p : PaymentProcessor) (now : Nat)
    (id : String) (r : PaymentRequest)
    (hb : (p.WalletRepo.GetWallet r.UserID).2.Balance < r.Amount) :
    p.Withdraw M net now id r
      = ⟨{ p with WalletRepo := (p.WalletRepo.GetWallet r.UserID).1 }, r,
          Except.error
            (Err.wrapped ErrKind.ErrValidation "validation error: insufficient funds"),
          [], now⟩ := by
  unfold PaymentProcessor.Withdraw
  simp only [hb, if_true]

theorem Withdraw_ok (M : Model) (net : Net) (p : PaymentProcessor) (now : Nat)
    (id : String) (r : PaymentRequest) (resp : PaymentResponse)
    (h : (p.Withdraw M net now id r).result = Except.ok resp) :
    validateRequest M r = none ∧
      ¬ (p.WalletRepo.GetWallet r.UserID).2.Balance < r.Amount ∧
      (p.WalletRepo.GetWallet r.UserID).1 = p.WalletRepo ∧
      (p.Withdraw M net now id r).request = { r with TransactionID := id } ∧
      resp.TransactionID = id ∧
      (p.Withdraw M net now id r).processor.WalletRepo
        = p.WalletRepo.UpdateTransaction
            ⟨id, r.UserID, r.Amount, r.Currency, gateway.ActionWithdraw, M.StateAuthorized⟩ := by
  by_cases hb : (p.WalletRepo.GetWallet r.UserID).2.Balance < r.Amount
  · rw [Withdraw_unfunded M net p now id r hb] at h
    simp at h
  · rw [Withdraw_funded M net p now id r hb] at h ⊢
    obtain ⟨h1, h2, h3, h4⟩ := processPayment_ok M net _ now id r _ resp h
    have hpos : 0 < r.Amount := ((validateRequest_eq_none_iff M r).mp h1).2.2
    have hg : (p.WalletRepo.GetWallet r.UserID).1 = p.WalletRepo :=
      GetWallet_fst_of_ne_zero _ _ (by omega)
    refine ⟨h1, hb, hg, h2, h3, ?_⟩
    rw [h4]
    show (p.WalletRepo.GetWallet r.UserID).1.UpdateTransaction _ = _
    rw [hg]

/-- C4: when `Deposit` or `Withdraw` returns a response, the id drawn for the attempt is
stamped on the request and carried by the response, and the ledger afterwards is the ledger
before with one transaction stored under that id: user id, amount and currency are the
request's, the state is Authorized, every other transaction and every wallet is unchanged.
For an id not yet in the ledger (`hfresh`, the uniqueness of `uuid.New()`) this is exactly one
new transaction, and every transaction present before is still there unchanged. -/
theorem success_stores_transaction (M : Model) (net : Net) (p : PaymentProcessor) (now : Nat)
    (id : String) (request : PaymentRequest) (resp : PaymentResponse)
    (hfresh : p.WalletRepo.transactions id = none) :
    ((p.Deposit M net now id request).result = Except.ok resp →
        (p.Deposit M net now id request).request.TransactionID = id ∧
        resp.TransactionID = id ∧
        (p.Deposit M net now id request).processor.WalletRepo.transactions id
          = some ⟨id, request.UserID, request.Amount, request.Currency, ActionDeposit,
              M.StateAuthorized⟩ ∧
        (∀ k, k ≠ id → (p.Deposit M net now id request).processor.WalletRepo.transactions k
          = p.WalletRepo.transactions k) ∧
        (∀ k t, p.WalletRepo.transactions k = some t →
          (p.Deposit M net now id request).processor.WalletRepo.transactions k = some t) ∧
        (p.Deposit M net now id request).processor.WalletRepo.data = p.WalletRepo.data) ∧
      ((p.Withdraw M net now id request).result = Except.ok resp →
        (p.Withdraw M net now id request).request.TransactionID = id ∧
        resp.TransactionID = id ∧
        (p.Withdraw M net now id request).processor.WalletRepo.transactions id
          = some ⟨id, request.UserID, request.Amount, request.Currency, gateway.ActionWithdraw,
              M.StateAuthorized⟩ ∧
        (∀ k, k ≠ id → (p.Withdraw M net now id request).processor.WalletRepo.transactions k
          = p.WalletRepo.transactions k) ∧
        (∀ k t, p.WalletRepo.transactions k = some t →
          (p.Withdraw M net now id request).processor.WalletRepo.transactions k = some t) ∧
        (p.Withdraw M net now id request).processor.WalletRepo.data = p.WalletRepo.data) := by
  have frame : ∀ (repo : UserWalletRepo) (txn : Transaction), txn.ID = id →
      repo = p.WalletRepo.UpdateTransaction txn →
      repo.transactions id = some txn ∧
      (∀ k, k ≠ id → repo.transactions k = p.WalletRepo.transactions k) ∧
      (∀ k t, p.WalletRepo.transactions k = some t → repo.transactions k = some t) ∧
      repo.data = p.WalletRepo.data := by
    intro repo txn hid hrepo
    subst hrepo
    refine ⟨?_, ?_, ?_, rfl⟩
    · simp [UserWalletRepo.UpdateTransaction, hid]
    · intro k hk
      simp [UserWalletRepo.UpdateTransaction, hid, hk]
    · intro k t hkt
      have hk : k ≠ id := by
        intro hk
        rw [hk, hfresh] at hkt
        cases hkt
      simp [UserWalletRepo.UpdateTransaction, hid, hk, hkt]
  constructor
  · intro h
    obtain ⟨-, h2, h3, h4⟩ := processPayment_ok M net p now id request ActionDeposit resp h
    obtain ⟨f1, f2, f3, f4⟩ := frame _ _ rfl h4
    exact ⟨by rw [PaymentProcessor.Deposit, h2], h3, f1, f2, f3, f4⟩
  · intro h
    obtain ⟨-, -, -, h2, h3, h4⟩ := Withdraw_ok M net p now id request resp h
    obtain ⟨f1, f2, f3, f4⟩ := frame _ _ rfl h4
    exact ⟨by rw [h2], h3, f1, f2, f3, f4⟩

/-- C4 on a fresh processor with both providers answering 200: the deposit of the tests
succeeds and its transaction is in the ledger. -/
theorem success_stores_transaction_witness :
    (NewPaymentProcessor demoRouting).WalletRepo.transactions "t1" = none ∧
      ((NewPaymentProcessor demoRouting).Deposit demoModel netUp 0 "t1" demoRequest).result
        = Except.ok ⟨"success", "done", "t1"⟩ ∧
      ((NewPaymentProcessor demoRouting).Deposit demoModel netUp 0 "t1"
          demoRequest).processor.WalletRepo.transactions "t1"
        = some ⟨"t1", "123", 100, "USD", "Deposit", "AUTHORIZED"⟩ :=
  ⟨rfl, rfl,
    ((success_stores_transaction demoModel netUp (NewPaymentProcessor demoRouting) 0 "t1"
      demoRequest ⟨"success", "done", "t1"⟩ rfl).1 rfl).2.2.1⟩

/-! ## Settlement callbacks -/

theorem wrap64_of_range (x : Int) (hlo : -2 ^ 63 ≤ x) (hhi : x < 2 ^ 63) : wrap64 x = x := by
  unfold wrap64
  rw [Int.emod_eq_of_lt (by omega) (by omega)]
  omega

theorem balanceOf_eq (p : PaymentProcessor) (u : String) :
    balanceOf p u = match p.WalletRepo.data u with
      | some w => w.Balance
      | none => 0 := by
  unfold balanceOf UserWalletRepo.GetWallet
  cases p.WalletRepo.data u <;> rfl

/-- An Approved callback on a stored transaction of type `Deposit` succeeds, whatever the
stored state: the owner's balance grows by the amount (in `int64` arithmetic), every other
wallet is untouched, and the transaction is stored as Approved. -/
theorem HandleCallback_approved_deposit (M : Model) (p : PaymentProcessor) (k : String)
    (txn0 : Transaction) (hk : p.WalletRepo.transactions k = some txn0)
    (ht : txn0.Type_ = ActionDeposit) :
    (p.HandleCallback M ⟨k, M.StateApproved⟩).2 = none ∧
      balanceOf (p.HandleCallback M ⟨k, M.StateApproved⟩).1 txn0.UserID
        = wrap64 (balanceOf p txn0.UserID + txn0.Amount) ∧
      (∀ u, u ≠ txn0.UserID →
        (p.HandleCallback M ⟨k, M.StateApproved⟩).1.WalletRepo.data u = p.WalletRepo.data u) ∧
      (p.HandleCallback M ⟨k, M.StateApproved⟩).1.WalletRepo.transactions k
        = some { txn0 with State := M.StateApproved } ∧
      (∀ j, j ≠ k → j ≠ txn0.ID →
        (p.HandleCallback M ⟨k, M.StateApproved⟩).1.WalletRepo.transactions j
          = p.WalletRepo.transactions j) ∧
      (p.HandleCallback M ⟨k, M.StateApproved⟩).1.CircuitBreakers = p.CircuitBreakers ∧
      (p.HandleCallback M ⟨k, M.StateApproved⟩).1.PgRoutingMasters = p.PgRoutingMasters := by
  have hc : p.HandleCallback M ⟨k, M.StateApproved⟩
      = ({ p with WalletRepo :=
            ((pokeWallet
                ((pokeTransaction p.WalletRepo k
                  { txn0 with State := M.StateApproved }).GetWallet txn0.UserID).1
                txn0.UserID
                ⟨wrap64 ((((pokeTransaction p.WalletRepo k
                  { txn0 with State := M.StateApproved }).GetWallet txn0.UserID).2).Balance
                  + txn0.Amount)⟩).UpdateWallet txn0.UserID
                ⟨wrap64 ((((pokeTransaction p.WalletRepo k
                  { txn0 with State := M.StateApproved }).GetWallet txn0.UserID).2).Balance
                  + txn0.Amount)⟩).UpdateTransaction
                    { txn0 with State := M.StateApproved } }, none) := by
    unfold PaymentProcessor.HandleCallback UserWalletRepo.GetTransaction
    simp only [hk, if_true, ht]
  have hb : ((pokeTransaction p.WalletRepo k
      { txn0 with State := M.StateApproved }).GetWallet txn0.UserID).2.Balance
        = balanceOf p txn0.UserID := by
    unfold balanceOf UserWalletRepo.GetWallet pokeTransaction
    cases p.WalletRepo.data txn0.UserID <;> rfl
  rw [hc, hb]
  refine ⟨rfl, ?_, ?_, ?_, ?_, rfl, rfl⟩
  · simp [balanceOf, UserWalletRepo.GetWallet, UserWalletRepo.UpdateTransaction,
      UserWalletRepo.UpdateWallet]
  · intro u hu
    simp only [UserWalletRepo.UpdateTransaction, UserWalletRepo.UpdateWallet, pokeWallet,
      if_neg hu]
    unfold UserWalletRepo.GetWallet pokeTransaction
    cases p.WalletRepo.data txn0.UserID <;> simp [hu]
  · simp only [UserWalletRepo.UpdateTransaction, UserWalletRepo.UpdateWallet, pokeWallet]
    by_cases hid : k = txn0.ID
    · simp [hid]
    · simp only [if_neg hid]
      unfold UserWalletRepo.GetWallet pokeTransaction
      cases p.WalletRepo.data txn0.UserID <;> simp
  · intro j hj hj2
    simp only [UserWalletRepo.UpdateTransaction, UserWalletRepo.UpdateWallet, pokeWallet,
      if_neg hj2]
    unfold UserWalletRepo.GetWallet pokeTransaction
    cases p.WalletRepo.data txn0.UserID <;> simp [hj]

theorem balanceOf_congr (p q : PaymentProcessor) (u : String)
    (h : q.WalletRepo.data u = p.WalletRepo.data u) : balanceOf q u = balanceOf p u := by
  rw [balanceOf_eq, balanceOf_eq, h]

/-- C5: after a `Deposit` of amount `A` that returned a response, the callback with state
Approved on the returned transaction id succeeds; the depositor's balance, `B` before the
deposit, is exactly `B + A` afterwards (for `B + A` in the `int64` range), and the wallet of
every other user is what it was before the deposit. -/
theorem deposit_then_approved (M : Model) (net : Net) (p : PaymentProcessor) (now : Nat)
    (id : String) (request : PaymentRequest) (resp : PaymentResponse)
    (hres : (p.Deposit M net now id request).result = Except.ok resp)
    (hlo : -2 ^ 63 ≤ balanceOf p request.UserID + request.Amount)
    (hhi : balanceOf p request.UserID + request.Amount < 2 ^ 63) :
    0 < request.Amount ∧
      ((p.Deposit M net now id request).processor.HandleCallback M
          ⟨resp.TransactionID, M.StateApproved⟩).2 = none ∧
      balanceOf ((p.Deposit M net now id request).processor.HandleCallback M
          ⟨resp.TransactionID, M.StateApproved⟩).1 request.UserID
        = balanceOf p request.UserID + request.Amount ∧
      (∀ u, u ≠ request.UserID →
        ((p.Deposit M net now id request).processor.HandleCallback M
          ⟨resp.TransactionID, M.StateApproved⟩).1.WalletRepo.data u = p.WalletRepo.data u) := by
  obtain ⟨hv, -, hid, hrepo⟩ := processPayment_ok M net p now id request ActionDeposit resp hres
  have hq : (p.Deposit M net now id request).processor.WalletRepo
      = p.WalletRepo.UpdateTransaction
          ⟨id, request.UserID, request.Amount, request.Currency, ActionDeposit,
            M.StateAuthorized⟩ := hrepo
  have hk : (p.Deposit M net now id request).processor.WalletRepo.transactions id
      = some ⟨id, request.UserID, request.Amount, request.Currency, ActionDeposit,
          M.StateAuthorized⟩ := by
    rw [hq]
    simp [UserWalletRepo.UpdateTransaction]
  have hdata : (p.Deposit M net now id request).processor.WalletRepo.data = p.WalletRepo.data := by
    rw [hq]
    rfl
  obtain ⟨c1, c2, c3, -⟩ := HandleCallback_approved_deposit M
    (p.Deposit M net now id request).processor id _ hk rfl
  rw [hid]
  refine ⟨((validateRequest_eq_none_iff M request).mp hv).2.2, c1, ?_, ?_⟩
  · have hbal : balanceOf (p.Deposit M net now id request).processor request.UserID
        = balanceOf p request.UserID := balanceOf_congr _ _ _ (by rw [hdata])
    have c2' := c2
    simp only [] at c2'
    rw [c2', hbal, wrap64_of_range _ hlo hhi]
  · intro u hu
    rw [c3 u hu, hdata]

/-- C5 on the scenario of `TestHandler_Deposit`: a deposit of 100 on a fresh processor, then
the Approved callback; the balance goes from 0 to 100. -/
theorem deposit_then_approved_witness :
    balanceOf (NewPaymentProcessor demoRouting) "123" = 0 ∧
      balanceOf (((NewPaymentProcessor demoRouting).Deposit demoModel netUp 0 "t1"
          demoRequest).processor.HandleCallback demoModel ⟨"t1", "APPROVED"⟩).1 "123"
        = 0 + 100 :=
  ⟨rfl, (deposit_then_approved demoModel netUp (NewPaymentProcessor demoRouting) 0 "t1"
    demoRequest ⟨"success", "done", "t1"⟩ rfl (by decide) (by decide)).2.2.1⟩

/-- A callback whose state is not Approved, on a stored transaction: it succeeds, the wallet
map is not touched, and the stored state becomes Failed for a Failed callback and stays what
it was for any other state value. -/
theorem HandleCallback_not_approved (M : Model) (p : PaymentProcessor) (k : String)
    (txn0 : Transaction) (st : String) (hk : p.WalletRepo.transactions k = some txn0)
    (hst : st ≠ M.StateApproved) :
    (p.HandleCallback M ⟨k, st⟩).2 = none ∧
      (p.HandleCallback M ⟨k, st⟩).1.WalletRepo.data = p.WalletRepo.data ∧
      (p.HandleCallback M ⟨k, st⟩).1.WalletRepo.transactions k
        = some { txn0 with State := if st = M.StateFailed then M.StateFailed else txn0.State } ∧
      (∀ j, j ≠ k → j ≠ txn0.ID →
        (p.HandleCallback M ⟨k, st⟩).1.WalletRepo.transactions j
          = p.WalletRepo.transactions j) := by
  unfold PaymentProcessor.HandleCallback UserWalletRepo.GetTransaction
  simp only [hk, if_neg hst]
  by_cases hf : st = M.StateFailed
  · simp only [if_pos hf]
    refine ⟨?_, ?_, ?_, ?_⟩
    · trivial
    · trivial
    · simp only [UserWalletRepo.UpdateTransaction, pokeTransaction]
      by_cases hid : k = txn0.ID
      · simp [hid]
      · simp [hid]
    · intro j hj hj2
      simp [UserWalletRepo.UpdateTransaction, pokeTransaction, hj, hj2]
  · simp only [if_neg hf]
    refine ⟨?_, ?_, ?_, ?_⟩
    · trivial
    · trivial
    · simp only [UserWalletRepo.UpdateTransaction]
      by_cases hid : k = txn0.ID
      · simp [hid]
      · simp [hid, hk]
    · intro j hj hj2
      simp [UserWalletRepo.UpdateTransaction, hj2]

/-- An Approved callback on a stored transaction whose type is neither `"Deposit"` nor
`"Withdraw"` succeeds and changes no balance. -/
theorem HandleCallback_approved_other (M : Model) (p : PaymentProcessor) (k : String)
    (txn0 : Transaction) (hk : p.WalletRepo.transactions k = some txn0)
    (hd : txn0.Type_ ≠ ActionDeposit) (hw : txn0.Type_ ≠ ActionWithdraw) :
    (p.HandleCallback M ⟨k, M.StateApproved⟩).2 = none ∧
      (∀ u, balanceOf (p.HandleCallback M ⟨k, M.StateApproved⟩).1 u = balanceOf p u) ∧
      (p.HandleCallback M ⟨k, M.StateApproved⟩).1.WalletRepo.transactions k
        = some { txn0 with State := M.StateApproved } := by
  unfold PaymentProcessor.HandleCallback UserWalletRepo.GetTransaction
  simp only [hk, if_true, if_neg hd, if_neg hw]
  refine ⟨?_, ?_, ?_⟩
  · trivial
  · intro u
    rw [balanceOf_eq, balanceOf_eq]
    simp only [UserWalletRepo.UpdateTransaction, UserWalletRepo.UpdateWallet,
      UserWalletRepo.GetWallet, pokeTransaction]
    by_cases hu : u = txn0.UserID
    · subst hu
      cases hdata : p.WalletRepo.data txn0.UserID <;> simp
    · cases hdata : p.WalletRepo.data txn0.UserID <;> simp [hu]
  · simp only [UserWalletRepo.UpdateTransaction, UserWalletRepo.UpdateWallet,
      UserWalletRepo.GetWallet, pokeTransaction]
    by_cases hid : k = txn0.ID
    · simp [hid]
    · cases hdata : p.WalletRepo.data txn0.UserID <;> simp [hid]

/-- C6, the code at a failing input: user 123 holds 200 and withdraws 100 with both providers
answering 200. `Withdraw` succeeds and stores a transaction of type `"withdraw"`
(gateway.go:16); the Approved callback succeeds, but its test `txn.Type == ActionWithdraw`
compares with `"Withdraw"` (service.go:20), so nothing is subtracted: the balance is still 200,
not 100. -/
theorem withdraw_then_approved_keeps_balance :
    balanceOf (demoFunded demoRouting) "123" = 200 ∧
      ((demoFunded demoRouting).Withdraw demoModel netUp 0 "t1" demoRequest).result
        = Except.ok ⟨"success", "done", "t1"⟩ ∧
      ((demoFunded demoRouting).Withdraw demoModel netUp 0 "t1"
          demoRequest).processor.WalletRepo.transactions "t1"
        = some ⟨"t1", "123", 100, "USD", "withdraw", "AUTHORIZED"⟩ ∧
      (((demoFunded demoRouting).Withdraw demoModel netUp 0 "t1"
          demoRequest).processor.HandleCallback demoModel ⟨"t1", "APPROVED"⟩).2 = none ∧
      balanceOf (((demoFunded demoRouting).Withdraw demoModel netUp 0 "t1"
          demoRequest).processor.HandleCallback demoModel ⟨"t1", "APPROVED"⟩).1 "123" = 200 ∧
      (200 : Int) ≠ 200 - 100 :=
  ⟨rfl, rfl, rfl, rfl, rfl, by decide⟩

/-- C7 fails on the code: the transaction `t1` (a deposit of 100) is already Approved and the
balance is 100; a second Approved callback succeeds and raises the balance to 200. -/
theorem second_approved_callback_applies_again :
    (demoApprovedOnce.WalletRepo.transactions "t1").map Transaction.State = some "APPROVED" ∧
      balanceOf demoApprovedOnce "123" = 100 ∧
      (demoApprovedOnce.HandleCallback demoModel ⟨"t1", "APPROVED"⟩).2 = none ∧
      balanceOf (demoApprovedOnce.HandleCallback demoModel ⟨"t1", "APPROVED"⟩).1 "123" = 200 ∧
      balanceOf (demoApprovedOnce.HandleCallback demoModel ⟨"t1", "APPROVED"⟩).1 "123"
        ≠ balanceOf demoApprovedOnce "123" :=
  ⟨rfl, rfl, rfl, rfl, by decide⟩

theorem pokeTransaction_pokeTransaction (r : UserWalletRepo) (k : String)
    (t1 t2 : Transaction) :
    pokeTransaction (pokeTransaction r k t1) k t2 = pokeTransaction r k t2 := by
  unfold pokeTransaction
  simp only [UserWalletRepo.mk.injEq, true_and]
  funext j
  by_cases hj : j = k <;> simp [hj]

/-- The stored state of the transaction is not an input of `HandleCallback`: with the state of
the transaction stored under `k` replaced by any `s`, the callback returns the same error and
leaves the same wallets, and, when its state is Approved or Failed, the same processor. -/
theorem HandleCallback_state_irrelevant (M : Model) (q : PaymentProcessor) (k : String)
    (txn0 : Transaction) (s st : String) (hk : q.WalletRepo.transactions k = some txn0) :
    (PaymentProcessor.HandleCallback M
        ⟨pokeTransaction q.WalletRepo k { txn0 with State := s }, q.CircuitBreakers,
          q.PgRoutingMasters⟩ ⟨k, st⟩).2 = (q.HandleCallback M ⟨k, st⟩).2 ∧
      (PaymentProcessor.HandleCallback M
        ⟨pokeTransaction q.WalletRepo k { txn0 with State := s }, q.CircuitBreakers,
          q.PgRoutingMasters⟩ ⟨k, st⟩).1.WalletRepo.data
        = (q.HandleCallback M ⟨k, st⟩).1.WalletRepo.data ∧
      (st = M.StateApproved ∨ st = M.StateFailed →
        PaymentProcessor.HandleCallback M
          ⟨pokeTransaction q.WalletRepo k { txn0 with State := s }, q.CircuitBreakers,
            q.PgRoutingMasters⟩ ⟨k, st⟩ = q.HandleCallback M ⟨k, st⟩) := by
  have hk2 : (pokeTransaction q.WalletRepo k { txn0 with State := s }).transactions k
      = some { txn0 with State := s } := by
    simp [pokeTransaction]
  unfold PaymentProcessor.HandleCallback UserWalletRepo.GetTransaction
  simp only [hk, hk2, pokeTransaction_pokeTransaction]
  by_cases hApp : st = M.StateApproved
  · simp only [if_pos hApp]
    exact ⟨trivial, trivial, fun _ => trivial⟩
  · simp only [if_neg hApp]
    by_cases hf : st = M.StateFailed
    · simp only [if_pos hf]
      exact ⟨trivial, trivial, fun _ => trivial⟩
    · simp only [if_neg hf]
      refine ⟨trivial, rfl, fun h => ?_⟩
      rcases h with h | h
      · exact absurd h hApp
      · exact absurd h hf

/-- C7 as amended: nothing in `HandleCallback` depends on the stored state of the transaction,
so a second Approved callback is applied like the first. After a `Deposit` of `A` that returned
a response, two Approved callbacks on the returned id both succeed, the transaction is Approved
after each, and the balance, `B` before, is `B + 2 * A` (within `int64`) after the second. A
callback whose state is not Approved, on any stored transaction whatever its state, succeeds,
does not touch the wallet map, and sets the stored state to Failed if the callback says Failed
and leaves it unchanged otherwise. On any ledger, replacing the stored state of the
transaction by any other value changes neither the error returned nor the wallets left, nor,
for an Approved or Failed callback, anything else of the processor left. An Approved callback
on a stored transaction of type `Deposit`, whatever its state, succeeds, adds the amount to the
owner's balance in `int64` arithmetic and leaves the transaction Approved. -/
theorem callbacks_ignore_stored_state (M : Model) (net : Net) (p : PaymentProcessor)
    (now : Nat) (id : String) (request : PaymentRequest) (resp : PaymentResponse)
    (hres : (p.Deposit M net now id request).result = Except.ok resp)
    (hlo : -2 ^ 63 ≤ balanceOf p request.UserID + request.Amount)
    (hhi : balanceOf p request.UserID + 2 * request.Amount < 2 ^ 63) :
    (((p.Deposit M net now id request).processor.HandleCallback M
          ⟨resp.TransactionID, M.StateApproved⟩).2 = none ∧
        ((((p.Deposit M net now id request).processor.HandleCallback M
          ⟨resp.TransactionID, M.StateApproved⟩).1.WalletRepo.transactions
            resp.TransactionID).map Transaction.State = some M.StateApproved) ∧
        (((p.Deposit M net now id request).processor.HandleCallback M
          ⟨resp.TransactionID, M.StateApproved⟩).1.HandleCallback M
            ⟨resp.TransactionID, M.StateApproved⟩).2 = none ∧
        balanceOf (((p.Deposit M net now id request).processor.HandleCallback M
          ⟨resp.TransactionID, M.StateApproved⟩).1.HandleCallback M
            ⟨resp.TransactionID, M.StateApproved⟩).1 request.UserID
          = balanceOf p request.UserID + 2 * request.Amount ∧
        ((((p.Deposit M net now id request).processor.HandleCallback M
          ⟨resp.TransactionID, M.StateApproved⟩).1.HandleCallback M
            ⟨resp.TransactionID, M.StateApproved⟩).1.WalletRepo.transactions
              resp.TransactionID).map Transaction.State = some M.StateApproved) ∧
      (∀ (q : PaymentProcessor) (k : String) (txn0 : Transaction) (st : String),
        q.WalletRepo.transactions k = some txn0 → st ≠ M.StateApproved →
          (q.HandleCallback M ⟨k, st⟩).2 = none ∧
          (q.HandleCallback M ⟨k, st⟩).1.WalletRepo.data = q.WalletRepo.data ∧
          ((q.HandleCallback M ⟨k, st⟩).1.WalletRepo.transactions k).map Transaction.State
            = some (if st = M.StateFailed then M.StateFailed else txn0.State)) ∧
      (∀ (q : PaymentProcessor) (k : String) (txn0 : Transaction) (s st : String),
        q.WalletRepo.transactions k = some txn0 →
          (PaymentProcessor.HandleCallback M
              ⟨pokeTransaction q.WalletRepo k { txn0 with State := s }, q.CircuitBreakers,
                q.PgRoutingMasters⟩ ⟨k, st⟩).2 = (q.HandleCallback M ⟨k, st⟩).2 ∧
            (PaymentProcessor.HandleCallback M
              ⟨pokeTransaction q.WalletRepo k { txn0 with State := s }, q.CircuitBreakers,
                q.PgRoutingMasters⟩ ⟨k, st⟩).1.WalletRepo.data
              = (q.HandleCallback M ⟨k, st⟩).1.WalletRepo.data ∧
            (st = M.StateApproved ∨ st = M.StateFailed →
              PaymentProcessor.HandleCallback M
                ⟨pokeTransaction q.WalletRepo k { txn0 with State := s }, q.CircuitBreakers,
                  q.PgRoutingMasters⟩ ⟨k, st⟩ = q.HandleCallback M ⟨k, st⟩)) ∧
      (∀ (q : PaymentProcessor) (k : String) (txn0 : Transaction),
        q.WalletRepo.transactions k = some txn0 → txn0.Type_ = ActionDeposit →
          (q.HandleCallback M ⟨k, M.StateApproved⟩).2 = none ∧
            balanceOf (q.HandleCallback M ⟨k, M.StateApproved⟩).1 txn0.UserID
              = wrap64 (balanceOf q txn0.UserID + txn0.Amount) ∧
            (q.HandleCallback M ⟨k, M.StateApproved⟩).1.WalletRepo.transactions k
              = some { txn0 with State := M.StateApproved }) := by
  refine ⟨?_, ?_, ?_, ?_⟩
  · obtain ⟨hv, -, hid, hrepo⟩ :=
      processPayment_ok M net p now id request ActionDeposit resp hres
    have hpos : 0 < request.Amount := ((validateRequest_eq_none_iff M request).mp hv).2.2
    have hq : (p.Deposit M net now id request).processor.WalletRepo
        = p.WalletRepo.UpdateTransaction
            ⟨id, request.UserID, request.Amount, request.Currency, ActionDeposit,
              M.StateAuthorized⟩ := hrepo
    have hk : (p.Deposit M net now id request).processor.WalletRepo.transactions id
        = some ⟨id, request.UserID, request.Amount, request.Currency, ActionDeposit,
            M.StateAuthorized⟩ := by
      rw [hq]
      simp [UserWalletRepo.UpdateTransaction]
    have hbal : balanceOf (p.Deposit M net now id request).processor request.UserID
        = balanceOf p request.UserID := balanceOf_congr _ _ _ (by rw [hq]; rfl)
    obtain ⟨c1, c2, -, c4, -⟩ := HandleCallback_approved_deposit M
      (p.Deposit M net now id request).processor id _ hk rfl
    obtain ⟨d1, d2, -, d4, -⟩ := HandleCallback_approved_deposit M
      ((p.Deposit M net now id request).processor.HandleCallback M ⟨id, M.StateApproved⟩).1
      id _ c4 rfl
    simp only [] at c2 d2
    rw [hid]
    refine ⟨c1, by rw [c4]; rfl, d1, ?_, by rw [d4]; rfl⟩
    rw [d2, c2, hbal, wrap64_of_range _ hlo (by omega), wrap64_of_range _ (by omega) (by omega)]
    ring
  · intro q k txn0 st hk hst
    obtain ⟨e1, e2, e3, -⟩ := HandleCallback_not_approved M q k txn0 st hk hst
    exact ⟨e1, e2, by rw [e3]; rfl⟩
  · intro q k txn0 s st hk
    exact HandleCallback_state_irrelevant M q k txn0 s st hk
  · intro q k txn0 hk ht
    obtain ⟨e1, e2, -, e4, -⟩ := HandleCallback_approved_deposit M q k txn0 hk ht
    exact ⟨e1, e2, e4⟩

/-- C7 as amended, on the deposit of 100 of `handler_test.go`: two Approved callbacks leave
200 in a wallet that was empty. -/
theorem callbacks_ignore_stored_state_witness :
    balanceOf ((((NewPaymentProcessor demoRouting).Deposit demoModel netUp 0 "t1"
        demoRequest).processor.HandleCallback demoModel ⟨"t1", "APPROVED"⟩).1.HandleCallback
          demoModel ⟨"t1", "APPROVED"⟩).1 "123"
      = 0 + 2 * 100 :=
  (callbacks_ignore_stored_state demoModel netUp (NewPaymentProcessor demoRouting) 0 "t1"
    demoRequest ⟨"success", "done", "t1"⟩ rfl (by decide) (by decide)).1.2.2.2.1

/-! ## Exhausted attempts -/

/-- A valid request whose loop iterations contain no success: every routing entry was walked,
the result is the aggregate error built from the last cause, the ledger is untouched. -/
theorem processPayment_exhausted (M : Model) (net : Net) (p : PaymentProcessor) (now : Nat)
    (id : String) (r : PaymentRequest) (action : String) (hv : validateRequest M r = none)
    (hnone : ∀ a ∈ (p.processPayment M net now id r action).attempts, a.isSuccess = false) :
    (p.processPayment M net now id r action).result
        = Except.error (operationFailed M action
            (lastCause none (p.processPayment M net now id r action).attempts)) ∧
      (p.processPayment M net now id r action).attempts.map Attempt.provider
        = p.PgRoutingMasters.map PgRoutingMaster.PaymentGateway ∧
      (p.processPayment M net now id r action).processor.WalletRepo = p.WalletRepo := by
  rw [processPayment_valid M net p now id r action hv] at hnone ⊢
  obtain ⟨new, h1, -, -, h4, h5⟩ := attemptLoop_spec M net action
    { r with TransactionID := id }
    ⟨id, r.UserID, r.Amount, r.Currency, action, M.StateAuthorized⟩
    p.PgRoutingMasters p now none []
  rw [List.nil_append] at h1
  rw [h1] at hnone ⊢
  rcases h5 with ⟨resp, pre, prov, t, e1, -, -, -, -⟩ | ⟨-, e2, e3, e4⟩
  · have := hnone ⟨prov, t, Disposition.succeeded resp⟩ (by rw [e1]; simp)
    simp [Attempt.isSuccess] at this
  · refine ⟨e3, ?_, e4⟩
    rw [h4, e2, List.take_length]

/-- C8: for a valid `Deposit`, and for a valid `Withdraw` that passes the funds check, in
which no routing entry ends in success (each is skipped, unresolved, rejected or fails; the
empty routing list included), the call returns an error: the aggregate
`<action> operation failed[: <last cause>]` built from the last error recorded in the loop;
every routing entry was walked; and the ledger (wallets and transactions) is exactly the
ledger before the call. -/
theorem exhausted_attempt_leaves_no_trace (M : Model) (net : Net) (p : PaymentProcessor)
    (now : Nat) (id : String) (request : PaymentRequest)
    (hv : validateRequest M request = none) :
    ((∀ a ∈ (p.Deposit M net now id request).attempts, a.isSuccess = false) →
        (p.Deposit M net now id request).result
          = Except.error (operationFailed M ActionDeposit
              (lastCause none (p.Deposit M net now id request).attempts)) ∧
        (p.Deposit M net now id request).attempts.map Attempt.provider
          = p.PgRoutingMasters.map PgRoutingMaster.PaymentGateway ∧
        (p.Deposit M net now id request).processor.WalletRepo = p.WalletRepo) ∧
      (¬ balanceOf p request.UserID < request.Amount →
        (∀ a ∈ (p.Withdraw M net now id request).attempts, a.isSuccess = false) →
        (p.Withdraw M net now id request).result
          = Except.error (operationFailed M gateway.ActionWithdraw
              (lastCause none (p.Withdraw M net now id request).attempts)) ∧
        (p.Withdraw M net now id request).attempts.map Attempt.provider
          = p.PgRoutingMasters.map PgRoutingMaster.PaymentGateway ∧
        (p.Withdraw M net now id request).processor.WalletRepo = p.WalletRepo) := by
  constructor
  · intro hnone
    exact processPayment_exhausted M net p now id request ActionDeposit hv hnone
  · intro hb hnone
    have hpos : 0 < request.Amount := ((validateRequest_eq_none_iff M request).mp hv).2.2
    have hb1 : ¬ (p.WalletRepo.GetWallet request.UserID).2.Balance < request.Amount := hb
    have hg : (p.WalletRepo.GetWallet request.UserID).1 = p.WalletRepo :=
      GetWallet_fst_of_ne_zero _ _ (by omega)
    rw [Withdraw_funded M net p now id request hb1] at hnone ⊢
    have hp : ({ p with WalletRepo := (p.WalletRepo.GetWallet request.UserID).1 }
        : PaymentProcessor) = p := by
      rw [hg]
    rw [hp] at hnone ⊢
    exact processPayment_exhausted M net p now id request gateway.ActionWithdraw hv hnone

/-- C8 with both providers answering 500 on a fresh processor: the deposit fails with the
aggregate error carrying the cause recorded for the last entry, and the ledger is the empty
ledger it was. -/
theorem exhausted_attempt_leaves_no_trace_witness :
    validateRequest demoModel demoRequest = none ∧
      ((NewPaymentProcessor demoRouting).Deposit demoModel netDown 0 "t1" demoRequest).result
        = Except.error (Err.plain
            "Deposit operation failed: http response failure: Internal Server Error") ∧
      ((NewPaymentProcessor demoRouting).Deposit demoModel netDown 0 "t1"
          demoRequest).processor.WalletRepo = (NewPaymentProcessor demoRouting).WalletRepo :=
  have h := (exhausted_attempt_leaves_no_trace demoModel netDown
    (NewPaymentProcessor demoRouting) 0 "t1" demoRequest (by decide)).1 (by decide)
  ⟨by decide, rfl, h.2.2⟩

/-! ## Closed breakers: fallback along the routing list -/

theorem toNewGeneration_state (cb : CircuitBreaker) (now : Nat) :
    (cb.toNewGeneration now).state = cb.state := rfl

theorem currentState_closed (cb : CircuitBreaker) (now : Nat)
    (h : cb.state = CBState.StateClosed) : (cb.currentState now).state = CBState.StateClosed := by
  unfold CircuitBreaker.currentState
  rw [h]
  simp only []
  split_ifs
  · rw [toNewGeneration_state, h]
  · exact h

theorem NewCircuitBreaker_state (name : String) (now : Nat) :
    (NewCircuitBreaker name now).state = CBState.StateClosed := rfl

/-- Through a Closed breaker `Execute` runs the operation and hands back its result. -/
theorem Execute_closed {α : Type} (cb : CircuitBreaker) (now : Nat)
    (req : Nat → Except Err α × Nat) (h : cb.state = CBState.StateClosed) :
    (cb.Execute now req).2.1 = (req now).1 ∧ (cb.Execute now req).2.2.1 = now + (req now).2 ∧
      (cb.Execute now req).2.2.2 = true := by
  have hs := currentState_closed cb now h
  unfold CircuitBreaker.Execute CircuitBreaker.beforeRequest
  simp only [hs]
  simp

/-- The breaker an iteration works with: the registered one or a new one, after `State()`. -/
theorem attemptEntry_of_closed (M : Model) (net : Net) (action : String)
    (request : PaymentRequest) (pgm : PgRoutingMaster) (p : PaymentProcessor) (now : Nat)
    (pg : PaymentGateway)
    (hc : ∀ cb, p.CircuitBreakers pgm.PaymentGateway = some cb → cb.state = CBState.StateClosed)
    (hg : GetPaymentGatewayInstance pgm.PaymentGateway = Except.ok pg) :
    (attemptEntry M net action request pgm p now).2.2
      = match (operation M net pg action request now).1 with
        | Except.ok resp => Disposition.succeeded resp
        | Except.error err => Disposition.failed err := by
  have h0 : (match p.CircuitBreakers pgm.PaymentGateway with
      | some cb => cb
      | none => NewCircuitBreaker pgm.PaymentGateway now).state = CBState.StateClosed := by
    cases hb : p.CircuitBreakers pgm.PaymentGateway with
    | none => rfl
    | some cb => exact hc cb hb
  have h1 := currentState_closed _ now h0
  obtain ⟨e1, -, e3⟩ := Execute_closed
    (CircuitBreaker.State (match p.CircuitBreakers pgm.PaymentGateway with
      | some cb => cb
      | none => NewCircuitBreaker pgm.PaymentGateway now) now) now
    (operation M net pg action request) h1
  unfold attemptEntry
  simp only []
  have hno : ¬ (CircuitBreaker.State (match p.CircuitBreakers pgm.PaymentGateway with
      | some cb => cb
      | none => NewCircuitBreaker pgm.PaymentGateway now) now).state = CBState.StateOpen := by
    unfold CircuitBreaker.State
    rw [h1]
    simp
  rw [if_neg hno, hg]
  simp only []
  rcases hx : CircuitBreaker.Execute
      (CircuitBreaker.State (match p.CircuitBreakers pgm.PaymentGateway with
        | some cb => cb
        | none => NewCircuitBreaker pgm.PaymentGateway now) now) now
      (operation M net pg action request) with ⟨cb1, r, now1, ran⟩
  rw [hx] at e1 e3
  simp only [] at e1 e3
  rw [← e1]
  cases r with
  | error err => simp [e3]
  | ok resp => rfl

/-- Entries whose provider fails, one after the other through Closed breakers, followed by an
entry whose provider succeeds: the loop runs exactly these adapters, each once, in order, and
returns the response of the last. -/
theorem attemptLoop_fallback (M : Model) (net : Net) (action : String)
    (request : PaymentRequest) (txn : Transaction) (e : PgRoutingMaster)
    (post : List PgRoutingMaster) (pgE : PaymentGateway)
    (hgE : GetPaymentGatewayInstance e.PaymentGateway = Except.ok pgE)
    (hsucc : ∀ t, ∃ resp, (operation M net pgE action request t).1 = Except.ok resp) :
    ∀ (pre : List PgRoutingMaster) (p : PaymentProcessor) (now : Nat) (lastError : Option Err)
      (done : List Attempt),
      (∀ x ∈ pre, ∃ pg, GetPaymentGatewayInstance x.PaymentGateway = Except.ok pg ∧
        ∀ t, ∃ err, (operation M net pg action request t).1 = Except.error err) →
      (∀ x ∈ pre ++ [e], ∀ cb, p.CircuitBreakers x.PaymentGateway = some cb →
        cb.state = CBState.StateClosed) →
      ((pre ++ [e]).map PgRoutingMaster.PaymentGateway).Nodup →
      ∃ (resp : PaymentResponse) (news : List Attempt),
        (attemptLoop M net action request txn (pre ++ e :: post) p now lastError done).result
          = Except.ok resp ∧
        (attemptLoop M net action request txn (pre ++ e :: post) p now lastError done).attempts
          = done ++ news ∧
        news.map Attempt.provider = (pre ++ [e]).map PgRoutingMaster.PaymentGateway ∧
        (∀ a ∈ news, a.ran = true) := by
  intro pre
  induction pre with
  | nil =>
      intro p now lastError done _ hclosed _
      have hd := attemptEntry_of_closed M net action request e p now pgE
        (hclosed e (by simp)) hgE
      obtain ⟨resp, hresp⟩ := hsucc now
      rw [hresp] at hd
      simp only [] at hd
      rw [List.nil_append, attemptLoop_cons, hd]
      refine ⟨resp, [⟨e.PaymentGateway, now, Disposition.succeeded resp⟩], rfl, rfl, rfl, ?_⟩
      intro a ha
      rw [List.mem_singleton.mp ha]
      rfl
  | cons x pre ih =>
      intro p now lastError done hfail hclosed hnodup
      obtain ⟨pg, hg, hf⟩ := hfail x (by simp)
      have hd := attemptEntry_of_closed M net action request x p now pg
        (hclosed x (by simp)) hg
      obtain ⟨err, herr⟩ := hf now
      rw [herr] at hd
      simp only [] at hd
      rw [List.cons_append, attemptLoop_cons, hd]
      simp only []
      have hnd : x.PaymentGateway ∉ (pre ++ [e]).map PgRoutingMaster.PaymentGateway ∧
          ((pre ++ [e]).map PgRoutingMaster.PaymentGateway).Nodup := by
        have := hnodup
        rw [List.cons_append, List.map_cons, List.nodup_cons] at this
        exact this
      obtain ⟨resp, news, h1, h2, h3, h4⟩ := ih
        (p.setBreaker x.PaymentGateway (attemptEntry M net action request x p now).1)
        (attemptEntry M net action request x p now).2.1
        (nextError lastError (Disposition.failed err))
        (done ++ [⟨x.PaymentGateway, now, Disposition.failed err⟩])
        (fun y hy => hfail y (List.mem_cons_of_mem _ hy))
        (by
          intro y hy cb hcb
          have hne : y.PaymentGateway ≠ x.PaymentGateway := by
            intro heq
            exact hnd.1 (heq ▸ List.mem_map_of_mem _ hy)
          have hcb2 : p.CircuitBreakers y.PaymentGateway = some cb := by
            simpa [PaymentProcessor.setBreaker, hne] using hcb
          exact hclosed y (by rw [List.cons_append]; exact List.mem_cons_of_mem _ hy) cb hcb2)
        hnd.2
      refine ⟨resp, ⟨x.PaymentGateway, now, Disposition.failed err⟩ :: news, h1, ?_, ?_, ?_⟩
      · rw [h2]; simp
      · simp [h3]
      · intro a ha
        rcases List.mem_cons.mp ha with ha | ha
        · rw [ha]; rfl
        · exact h4 a ha

theorem operation_deposit (M : Model) (net : Net) (pg : PaymentGateway) (r : PaymentRequest)
    (t : Nat) : operation M net pg ActionDeposit r t = pg.Deposit M net t r := by
  simp [operation]

/-- A successful `Deposit`, on any processor and any routing list: the loop iterations are the
routing entries from the first up to the one that succeeded, in order, one iteration each;
none before the last succeeded; the providers run are a sublist of these entries; the response
carries the drawn id and the transaction is stored under it. -/
theorem Deposit_ok_walk (M : Model) (net : Net) (q : PaymentProcessor) (now : Nat)
    (id : String) (r : PaymentRequest) (resp : PaymentResponse)
    (hres : (q.Deposit M net now id r).result = Except.ok resp) :
    ∃ (before : List Attempt) (prov : String) (t : Nat),
      (q.Deposit M net now id r).attempts
        = before ++ [⟨prov, t, Disposition.succeeded resp⟩] ∧
      (∀ x ∈ before, x.isSuccess = false) ∧
      (q.Deposit M net now id r).attempts.map Attempt.provider
        = (q.PgRoutingMasters.take (before.length + 1)).map PgRoutingMaster.PaymentGateway ∧
      (q.Deposit M net now id r).invoked.Sublist
        ((q.PgRoutingMasters.take (before.length + 1)).map PgRoutingMaster.PaymentGateway) ∧
      resp.TransactionID = id ∧
      (q.Deposit M net now id r).processor.WalletRepo.transactions resp.TransactionID
        = some ⟨id, r.UserID, r.Amount, r.Currency, ActionDeposit, M.StateAuthorized⟩ := by
  obtain ⟨hv, -, hid, hrepo⟩ := processPayment_ok M net q now id r ActionDeposit resp hres
  have hD : q.Deposit M net now id r
      = attemptLoop M net ActionDeposit { r with TransactionID := id }
          ⟨id, r.UserID, r.Amount, r.Currency, ActionDeposit, M.StateAuthorized⟩
          q.PgRoutingMasters q now none [] :=
    processPayment_valid M net q now id r ActionDeposit hv
  obtain ⟨new, h1, -, -, h4, h5⟩ := attemptLoop_spec M net ActionDeposit
    { r with TransactionID := id }
    ⟨id, r.UserID, r.Amount, r.Currency, ActionDeposit, M.StateAuthorized⟩
    q.PgRoutingMasters q now none []
  rw [← hD, List.nil_append] at h1
  rw [← hD] at h5
  have hrepo2 : (q.Deposit M net now id r).processor.WalletRepo
      = q.WalletRepo.UpdateTransaction
          ⟨id, r.UserID, r.Amount, r.Currency, ActionDeposit, M.StateAuthorized⟩ := hrepo
  rcases h5 with ⟨resp1, before, prov, t, e1, e2, e3, -, -⟩ | ⟨-, -, e3, -⟩
  · rw [hres] at e3
    have hr : resp = resp1 := by
      injection e3
    subst hr
    have hlen : new.length = before.length + 1 := by
      rw [e1]
      simp
    have hprov : (q.Deposit M net now id r).attempts.map Attempt.provider
        = (q.PgRoutingMasters.take (before.length + 1)).map PgRoutingMaster.PaymentGateway := by
      rw [h1, h4, hlen]
    refine ⟨before, prov, t, by rw [h1, e1], e2, hprov, ?_, hid, ?_⟩
    · rw [← hprov]
      unfold Outcome.invoked
      exact (List.filter_sublist _).map _
    · rw [hrepo2, hid]
      simp [UserWalletRepo.UpdateTransaction]
  · rw [hres] at e3
    cases e3

/-- C3 as amended. Let the routing list be `pre ++ e :: post` with pairwise distinct provider
identifiers in `pre ++ [e]`, every breaker registered for them Closed (none is registered on a
fresh processor), the `Deposit` call of every provider of `pre` always failing and that of `e`
always succeeding. Then every valid `Deposit` returns a response carrying the drawn
transaction id; the adapters run are exactly those of `pre ++ [e]`, in that order, one loop
iteration each, and nothing of `post` is touched; and the transaction is in the ledger under
the returned id. For `pre = [P1]`, `e = P2`, `post = []` this is the scenario of
`TestPaymentProcessor_Resilience_FallbackToPGB`. More generally, for every processor and every
routing list, a `Deposit` that succeeds has walked exactly the routing entries from the first
up to and including the first success, one iteration each in order, and no entry after it; the
providers run are a sublist of these entries (an entry whose breaker is Open is passed over
without running its provider); the response carries the drawn id and the transaction is in the
ledger under it. -/
theorem fallback_to_first_success (M : Model) (net : Net) (p : PaymentProcessor) (now : Nat)
    (id : String) (request : PaymentRequest) (pre : List PgRoutingMaster)
    (e : PgRoutingMaster) (post : List PgRoutingMaster)
    (hv : validateRequest M request = none)
    (hroute : p.PgRoutingMasters = pre ++ e :: post)
    (hclosed : ∀ x ∈ pre ++ [e], ∀ cb, p.CircuitBreakers x.PaymentGateway = some cb →
      cb.state = CBState.StateClosed)
    (hnodup : ((pre ++ [e]).map PgRoutingMaster.PaymentGateway).Nodup)
    (hfail : ∀ x ∈ pre, ∃ pg, GetPaymentGatewayInstance x.PaymentGateway = Except.ok pg ∧
      ∀ r t, ∃ err, (pg.Deposit M net t r).1 = Except.error err)
    (hsucc : ∃ pg, GetPaymentGatewayInstance e.PaymentGateway = Except.ok pg ∧
      ∀ r t, ∃ resp, (pg.Deposit M net t r).1 = Except.ok resp) :
    (∃ resp : PaymentResponse,
      (p.Deposit M net now id request).result = Except.ok resp ∧
      resp.TransactionID = id ∧
      (p.Deposit M net now id request).invoked
        = (pre ++ [e]).map PgRoutingMaster.PaymentGateway ∧
      (p.Deposit M net now id request).attempts.length = pre.length + 1 ∧
      (p.Deposit M net now id request).processor.WalletRepo.transactions resp.TransactionID
        = some ⟨id, request.UserID, request.Amount, request.Currency, ActionDeposit,
            M.StateAuthorized⟩) ∧
      (∀ (q : PaymentProcessor) (now1 : Nat) (id1 : String) (r1 : PaymentRequest)
          (resp1 : PaymentResponse),
        (q.Deposit M net now1 id1 r1).result = Except.ok resp1 →
          ∃ (before : List Attempt) (prov : String) (t : Nat),
            (q.Deposit M net now1 id1 r1).attempts
              = before ++ [⟨prov, t, Disposition.succeeded resp1⟩] ∧
            (∀ x ∈ before, x.isSuccess = false) ∧
            (q.Deposit M net now1 id1 r1).attempts.map Attempt.provider
              = (q.PgRoutingMasters.take (before.length + 1)).map
                  PgRoutingMaster.PaymentGateway ∧
            (q.Deposit M net now1 id1 r1).invoked.Sublist
              ((q.PgRoutingMasters.take (before.length + 1)).map
                PgRoutingMaster.PaymentGateway) ∧
            resp1.TransactionID = id1 ∧
            (q.Deposit M net now1 id1 r1).processor.WalletRepo.transactions
                resp1.TransactionID
              = some ⟨id1, r1.UserID, r1.Amount, r1.Currency, ActionDeposit,
                  M.StateAuthorized⟩) := by
  refine ⟨?_, fun q now1 id1 r1 resp1 h => Deposit_ok_walk M net q now1 id1 r1 resp1 h⟩
  obtain ⟨pgE, hgE, hsE⟩ := hsucc
  obtain ⟨resp, news, h1, h2, h3, h4⟩ := attemptLoop_fallback M net ActionDeposit
    { request with TransactionID := id }
    ⟨id, request.UserID, request.Amount, request.Currency, ActionDeposit, M.StateAuthorized⟩
    e post pgE hgE
    (fun t => by
      obtain ⟨resp, hr⟩ := hsE { request with TransactionID := id } t
      exact ⟨resp, by rw [operation_deposit, hr]⟩)
    pre p now none []
    (fun x hx => by
      obtain ⟨pg, hg, hf⟩ := hfail x hx
      refine ⟨pg, hg, fun t => ?_⟩
      obtain ⟨err, hr⟩ := hf { request with TransactionID := id } t
      exact ⟨err, by rw [operation_deposit, hr]⟩)
    hclosed hnodup
  have hD : p.Deposit M net now id request
      = attemptLoop M net ActionDeposit { request with TransactionID := id }
          ⟨id, request.UserID, request.Amount, request.Currency, ActionDeposit,
            M.StateAuthorized⟩ (pre ++ e :: post) p now none [] := by
    rw [← hroute]
    exact processPayment_valid M net p now id request ActionDeposit hv
  have hres : (p.Deposit M net now id request).result = Except.ok resp := by rw [hD, h1]
  obtain ⟨-, -, hid, hrepo⟩ := processPayment_ok M net p now id request ActionDeposit resp hres
  have hatt : (p.Deposit M net now id request).attempts = news := by
    rw [hD, h2, List.nil_append]
  refine ⟨resp, hres, hid, ?_, ?_, ?_⟩
  · unfold Outcome.invoked
    rw [hatt, List.filter_eq_self.mpr h4, h3]
  · rw [hatt]
    have := congrArg List.length h3
    simpa using this
  · have hrepo2 : (p.Deposit M net now id request).processor.WalletRepo
        = p.WalletRepo.UpdateTransaction
            ⟨id, request.UserID, request.Amount, request.Currency, ActionDeposit,
              M.StateAuthorized⟩ := hrepo
    rw [hrepo2, hid]
    simp [UserWalletRepo.UpdateTransaction]

/-- C3 as amended, on the routing list `[PGA, PGB]` of
`TestPaymentProcessor_Resilience_FallbackToPGB` with provider A answering 500 and provider B
answering 200: the deposit succeeds, A and B are each run once in that order, and the returned
id is in the ledger. -/
theorem fallback_to_first_success_witness :
    ∃ resp : PaymentResponse,
      ((NewPaymentProcessor demoRouting).Deposit demoModel netAdown 0 "t1" demoRequest).result
        = Except.ok resp ∧
      resp.TransactionID = "t1" ∧
      ((NewPaymentProcessor demoRouting).Deposit demoModel netAdown 0 "t1" demoRequest).invoked
        = ["PGA", "PGB"] ∧
      ((NewPaymentProcessor demoRouting).Deposit demoModel netAdown 0 "t1"
        demoRequest).attempts.length = 2 ∧
      ((NewPaymentProcessor demoRouting).Deposit demoModel netAdown 0 "t1"
          demoRequest).processor.WalletRepo.transactions resp.TransactionID
        = some ⟨"t1", "123", 100, "USD", "Deposit", "AUTHORIZED"⟩ :=
  (fallback_to_first_success demoModel netAdown (NewPaymentProcessor demoRouting) 0 "t1"
    demoRequest [⟨"USD", "US", "PGA", true, 3, 0⟩] ⟨"USD", "US", "PGB", true, 3, 1⟩ []
    (by decide) rfl
    (fun x _ cb hcb => by cases hcb)
    (by decide)
    (fun x hx => by
      rw [List.mem_singleton.mp hx]
      exact ⟨PaymentGateway.PGSA, rfl, fun r t => ⟨_, rfl⟩⟩)
    ⟨PaymentGateway.PGSB, rfl, fun r t => ⟨_, rfl⟩⟩).1

/-! ## The trip condition: `float64` against exact arithmetic -/

theorem roundHalfEven_ge_floor (x : ℚ) : ⌊x⌋ ≤ roundHalfEven x := by
  unfold roundHalfEven
  split_ifs <;> omega

theorem roundHalfEven_le_floor_succ (x : ℚ) : roundHalfEven x ≤ ⌊x⌋ + 1 := by
  unfold roundHalfEven
  split_ifs <;> omega

theorem log2_eq_of_bounds (q : ℚ) (e : ℤ) (hlo : (2 : ℚ) ^ e ≤ q) (hhi : q < (2 : ℚ) ^ (e + 1)) :
    Int.log 2 q = e := by
  have hq : 0 < q := lt_of_lt_of_le (by positivity) hlo
  have h1 : e ≤ Int.log 2 q := by
    rw [← Int.zpow_le_iff_le_log (by norm_num) hq]
    simpa using hlo
  have h2 : Int.log 2 q < e + 1 := by
    rw [← Int.lt_zpow_iff_log_lt (by norm_num) hq]
    simpa using hhi
  omega

theorem log2_le_of_lt (q : ℚ) (e : ℤ) (hq : 0 < q) (hhi : q < (2 : ℚ) ^ (e + 1)) :
    Int.log 2 q ≤ e := by
  have h2 : Int.log 2 q < e + 1 := by
    rw [← Int.lt_zpow_iff_log_lt (by norm_num) hq]
    simpa using hhi
  omega

/-- In the binade `[1/2, 1)` the spacing is `2 ^ (-53)`. -/
theorem ulp64_half_one (q : ℚ) (hlo : 1 / 2 ≤ q) (hhi : q < 1) :
    ulp64 q = 1 / 9007199254740992 := by
  have hl : Int.log 2 q = -1 := log2_eq_of_bounds q (-1) (by norm_num; linarith) (by simpa using hhi)
  unfold ulp64
  rw [hl]
  norm_num

theorem roundPos64_half_one (q : ℚ) (hlo : 1 / 2 ≤ q) (hhi : q < 1) :
    roundPos64 q = F64.finite ((roundHalfEven (q * 9007199254740992) : ℚ) / 9007199254740992) := by
  unfold roundPos64
  rw [ulp64_half_one q hlo hhi]
  have hx : q / (1 / 9007199254740992) = q * 9007199254740992 := by ring
  rw [hx]
  have hle := roundHalfEven_le_floor_succ (q * 9007199254740992)
  have hfl : (⌊q * 9007199254740992⌋ : ℚ) ≤ q * 9007199254740992 := Int.floor_le _
  have hr : (roundHalfEven (q * 9007199254740992) : ℚ) ≤ q * 9007199254740992 + 1 := by
    have : (roundHalfEven (q * 9007199254740992) : ℚ) ≤ (⌊q * 9007199254740992⌋ : ℚ) + 1 := by
      exact_mod_cast hle
    linarith
  have hnot : ¬ ((2 : ℚ) ^ (1024 : ℕ) ≤ (roundHalfEven (q * 9007199254740992) : ℚ) * (1 / 9007199254740992)) := by
    rw [not_le]
    have h2 : (1 : ℚ) + 1 ≤ 2 ^ (1024 : ℕ) := by
      have : (2 : ℚ) ^ (1 : ℕ) ≤ 2 ^ (1024 : ℕ) := pow_le_pow_right₀ (by norm_num) (by norm_num)
      linarith
    nlinarith
  rw [if_neg hnot]
  congr 1
  ring

theorem c06_eq : F64.c06 = F64.finite (5404319552844595 / 9007199254740992) := by
  unfold F64.c06 F64.round
  rw [if_neg (by norm_num), if_pos (by norm_num),
    roundPos64_half_one (3 / 5) (by norm_num) (by norm_num)]
  have hf : ⌊(3 / 5 : ℚ) * 9007199254740992⌋ = 5404319552844595 := by
    rw [Int.floor_eq_iff]
    norm_num
  have hr : roundHalfEven ((3 / 5 : ℚ) * 9007199254740992) = 5404319552844595 := by
    unfold roundHalfEven
    rw [hf, if_pos (by norm_num)]
  rw [hr]
  norm_num

/-- Below `1/2` a rounded quotient stays below the constant `0.6`. -/
theorem roundPos64_small (q : ℚ) (hq : 0 < q) (hhi : q < 1 / 2) :
    F64.ge (roundPos64 q) F64.c06 = false := by
  have hl : Int.log 2 q ≤ -2 := log2_le_of_lt q (-2) hq (by norm_num; linarith)
  have hu0 : 0 < ulp64 q := by unfold ulp64; positivity
  have hu : ulp64 q ≤ 1 / 18014398509481984 := by
    unfold ulp64
    have : (2 : ℚ) ^ (max (Int.log 2 q) (-1022) - 52) ≤ (2 : ℚ) ^ (-54 : ℤ) :=
      zpow_le_zpow_right₀ (by norm_num) (by omega)
    refine le_trans this ?_
    norm_num
  have hle := roundHalfEven_le_floor_succ (q / ulp64 q)
  have hfl : (⌊q / ulp64 q⌋ : ℚ) ≤ q / ulp64 q := Int.floor_le _
  have hr : (roundHalfEven (q / ulp64 q) : ℚ) ≤ q / ulp64 q + 1 := by
    have : (roundHalfEven (q / ulp64 q) : ℚ) ≤ (⌊q / ulp64 q⌋ : ℚ) + 1 := by
      exact_mod_cast hle
    linarith
  have hv : (roundHalfEven (q / ulp64 q) : ℚ) * ulp64 q ≤ q + ulp64 q := by
    have := mul_le_mul_of_nonneg_right hr hu0.le
    have h2 : (q / ulp64 q + 1) * ulp64 q = q + ulp64 q := by
      field_simp
    linarith
  unfold roundPos64
  have hnot : ¬ ((2 : ℚ) ^ (1024 : ℕ) ≤ (roundHalfEven (q / ulp64 q) : ℚ) * ulp64 q) := by
    rw [not_le]
    have h2 : (1 : ℚ) + 1 ≤ 2 ^ (1024 : ℕ) := by
      have : (2 : ℚ) ^ (1 : ℕ) ≤ 2 ^ (1024 : ℕ) := pow_le_pow_right₀ (by norm_num) (by norm_num)
      linarith
    linarith
  rw [if_neg hnot, c06_eq]
  simp only [F64.ge, decide_eq_false_iff_not, not_le]
  have : (1 : ℚ) / 2 + 1 / 18014398509481984 < 5404319552844595 / 9007199254740992 := by
    norm_num
  linarith

theorem roundPos64_one : roundPos64 1 = F64.finite 1 := by
  have hl : Int.log 2 (1 : ℚ) = 0 := Int.log_one_right 2
  have hu : ulp64 1 = 1 / 4503599627370496 := by
    unfold ulp64
    rw [hl]
    norm_num
  have hr : roundHalfEven ((1 : ℚ) / (1 / 4503599627370496)) = 4503599627370496 := by
    have hx : (1 : ℚ) / (1 / 4503599627370496) = ((4503599627370496 : ℤ) : ℚ) := by norm_num
    unfold roundHalfEven
    rw [hx, Int.floor_intCast, if_pos (by norm_num)]
  unfold roundPos64
  rw [hu, hr]
  norm_num

/-- Quotients in `[1/2, 1)`: the rounded quotient is compared with `0.6` as the integers
`roundHalfEven (q * 2 ^ 53)` and `5404319552844595` are. -/
theorem ge_c06_half_one (q : ℚ) (hlo : 1 / 2 ≤ q) (hhi : q < 1) :
    F64.ge (roundPos64 q) F64.c06
      = decide (5404319552844595 ≤ roundHalfEven (q * 9007199254740992)) := by
  rw [roundPos64_half_one q hlo hhi, c06_eq]
  simp only [F64.ge]
  rw [decide_eq_decide, div_le_div_iff_of_pos_right (by norm_num)]
  constructor <;> intro h <;> exact_mod_cast h

theorem tripLogic_iff (c : Counts) (hle : c.TotalFailures ≤ c.Requests)
    (hR : c.Requests < 2 ^ 32) :
    tripLogic c = true ↔ 3 ≤ c.Requests ∧ 3 * c.Requests ≤ 5 * c.TotalFailures := by
  unfold tripLogic F64.div F64.ofUInt32
  simp only [Bool.and_eq_true, decide_eq_true_eq, ge_iff_le]
  refine and_congr_right fun h3 => ?_
  have hRpos : (0 : ℚ) < (c.Requests : ℚ) := by exact_mod_cast (by omega : 0 < c.Requests)
  have hRlt : (c.Requests : ℚ) < 4294967296 := by exact_mod_cast hR
  rw [if_neg (ne_of_gt hRpos)]
  unfold F64.round
  by_cases hF : c.TotalFailures = 0
  · rw [hF]
    simp only [Nat.cast_zero, zero_div, if_true, c06_eq, F64.ge]
    constructor
    · intro h
      norm_num at h
    · intro h
      omega
  · have hFpos : (0 : ℚ) < (c.TotalFailures : ℚ) := by
      exact_mod_cast Nat.pos_of_ne_zero hF
    have hq : (0 : ℚ) < (c.TotalFailures : ℚ) / c.Requests := div_pos hFpos hRpos
    rw [if_neg (ne_of_gt hq), if_pos hq]
    by_cases hFR : c.TotalFailures = c.Requests
    · rw [hFR, div_self (ne_of_gt hRpos), roundPos64_one, c06_eq]
      simp only [F64.ge]
      constructor
      · intro _
        omega
      · intro _
        norm_num
    · have hlt : c.TotalFailures < c.Requests := lt_of_le_of_ne hle hFR
      have hq1 : (c.TotalFailures : ℚ) / c.Requests < 1 := by
        rw [div_lt_one hRpos]
        exact_mod_cast hlt
      by_cases hhalf : 2 * c.TotalFailures < c.Requests
      · have hq2 : (c.TotalFailures : ℚ) / c.Requests < 1 / 2 := by
          rw [div_lt_iff₀ hRpos]
          have : (2 : ℚ) * c.TotalFailures < c.Requests := by exact_mod_cast hhalf
          linarith
        rw [roundPos64_small _ hq hq2]
        constructor
        · intro h
          cases h
        · intro h
          omega
      · have hq2 : 1 / 2 ≤ (c.TotalFailures : ℚ) / c.Requests := by
          rw [le_div_iff₀ hRpos]
          have : (c.Requests : ℚ) ≤ 2 * c.TotalFailures := by exact_mod_cast (by omega)
          linarith
        rw [ge_c06_half_one _ hq2 hq1, decide_eq_true_eq]
        constructor
        · intro h
          by_contra hcon
          have h5 : 5 * c.TotalFailures + 1 ≤ 3 * c.Requests := by omega
          have h5q : (5 : ℚ) * c.TotalFailures + 1 ≤ 3 * c.Requests := by exact_mod_cast h5
          have hx : (c.TotalFailures : ℚ) / c.Requests * 9007199254740992 + 1
              < 5404319552844595 := by
            have e1 : (c.TotalFailures : ℚ) / c.Requests
                ≤ 3 / 5 - 1 / (5 * c.Requests) := by
              rw [div_le_iff₀ hRpos]
              have : ((3 : ℚ) / 5 - 1 / (5 * c.Requests)) * c.Requests
                  = 3 / 5 * c.Requests - 1 / 5 := by
                field_simp
                ring
              rw [this]
              linarith
            have e2 : (1 : ℚ) / (5 * 4294967296) < 1 / (5 * c.Requests) := by
              apply one_div_lt_one_div_of_lt (by positivity)
              linarith
            nlinarith
          have hup := roundHalfEven_le_floor_succ
            ((c.TotalFailures : ℚ) / c.Requests * 9007199254740992)
          have hfl : (⌊(c.TotalFailures : ℚ) / c.Requests * 9007199254740992⌋ : ℚ)
              ≤ (c.TotalFailures : ℚ) / c.Requests * 9007199254740992 := Int.floor_le _
          have hup2 : (roundHalfEven ((c.TotalFailures : ℚ) / c.Requests * 9007199254740992) : ℚ)
              ≤ (⌊(c.TotalFailures : ℚ) / c.Requests * 9007199254740992⌋ : ℚ) + 1 := by
            exact_mod_cast hup
          have hN : ((5404319552844595 : ℤ) : ℚ)
              ≤ (roundHalfEven ((c.TotalFailures : ℚ) / c.Requests * 9007199254740992) : ℚ) := by
            exact_mod_cast h
          have : ((5404319552844595 : ℤ) : ℚ) = 5404319552844595 := by norm_num
          linarith
        · intro h
          have h5q : (3 : ℚ) * c.Requests ≤ 5 * c.TotalFailures := by exact_mod_cast h
          have e1 : (3 : ℚ) / 5 ≤ (c.TotalFailures : ℚ) / c.Requests := by
            rw [le_div_iff₀ hRpos]
            linarith
          have hfl : (5404319552844595 : ℤ)
              ≤ ⌊(c.TotalFailures : ℚ) / c.Requests * 9007199254740992⌋ := by
            rw [Int.le_floor]
            have : ((5404319552844595 : ℤ) : ℚ) = 5404319552844595 := by norm_num
            rw [this]
            linarith
          exact le_trans hfl (roundHalfEven_ge_floor _)

/-- C10: for counters with `TotalFailures ≤ Requests < 2 ^ 32`, `tripLogic` returns true
exactly when `Requests ≥ 3` and `5 * TotalFailures ≥ 3 * Requests`, that is when the exact
ratio `TotalFailures / Requests` is at least `3/5`: the `float64` quotient, rounded to nearest,
compared with the `float64` constant `0.6` never decides otherwise. With `Requests = 0` the
quotient is NaN (no division error arises in floating point) and the result is false. -/
theorem trip_condition_exact (c : Counts) (hle : c.TotalFailures ≤ c.Requests)
    (hR : c.Requests < 2 ^ 32) :
    (tripLogic c = true ↔ 3 ≤ c.Requests ∧ 3 * c.Requests ≤ 5 * c.TotalFailures) ∧
      (tripLogic c = true ↔
        3 ≤ c.Requests ∧ (3 / 5 : ℚ) ≤ (c.TotalFailures : ℚ) / (c.Requests : ℚ)) ∧
      (c.Requests = 0 →
        F64.div (F64.ofUInt32 c.TotalFailures) (F64.ofUInt32 c.Requests) = F64.nan ∧
        tripLogic c = false) := by
  have h := tripLogic_iff c hle hR
  refine ⟨h, ?_, ?_⟩
  · rw [h]
    refine and_congr_right fun h3 => ?_
    have hRpos : (0 : ℚ) < (c.Requests : ℚ) := by exact_mod_cast (by omega : 0 < c.Requests)
    rw [le_div_iff₀ hRpos]
    constructor
    · intro h5
      have : (3 : ℚ) * c.Requests ≤ 5 * c.TotalFailures := by exact_mod_cast h5
      linarith
    · intro h5
      have : (3 : ℚ) * c.Requests ≤ 5 * c.TotalFailures := by linarith
      exact_mod_cast this
  · intro h0
    have hF : c.TotalFailures = 0 := by omega
    constructor
    · rw [h0, hF]
      simp [F64.div, F64.ofUInt32]
    · cases ht : tripLogic c with
      | false => rfl
      | true =>
          have := (h.mp ht).1
          omega

/-- C10 at three failures out of three requests (the counters of the test when the breaker
trips) and at two failures out of four. -/
theorem trip_condition_exact_witness :
    tripLogic ⟨3, 0, 3, 0, 3⟩ = true ∧ tripLogic ⟨4, 2, 2, 0, 0⟩ = false :=
  ⟨(trip_condition_exact ⟨3, 0, 3, 0, 3⟩ (by decide) (by decide)).1.mpr (by decide),
    by
      have h := (trip_condition_exact ⟨4, 2, 2, 0, 0⟩ (by decide) (by decide)).1
      cases ht : tripLogic ⟨4, 2, 2, 0, 0⟩ with
      | false => rfl
      | true => exact absurd (h.mp ht).2 (by decide)⟩

/-! ## Tripping the breaker -/

theorem currentState_closed_fresh (cb : CircuitBreaker) (now e : Nat)
    (hs : cb.state = CBState.StateClosed) (he : cb.expiry = some e) (hn : now ≤ e) :
    cb.currentState now = cb := by
  unfold CircuitBreaker.currentState
  rw [hs]
  simp only [he, expiryBefore]
  have : ¬ e < now := by omega
  simp [this]

theorem currentState_open_cooling (cb : CircuitBreaker) (now e : Nat)
    (hs : cb.state = CBState.StateOpen) (he : cb.expiry = some e) (hn : now ≤ e) :
    cb.currentState now = cb := by
  unfold CircuitBreaker.currentState
  rw [hs]
  simp only [he, expiryBefore]
  have : ¬ e < now := by omega
  simp [this]

/-- A failing call through a Closed breaker whose evaluation window covers the whole call:
the request and the failure are counted, then the trip condition is consulted. -/
theorem Execute_closed_fail {α : Type} (cb : CircuitBreaker) (now e d : Nat)
    (req : Nat → Except Err α × Nat) (err : Err)
    (hs : cb.state = CBState.StateClosed) (he : cb.expiry = some e)
    (hr : req now = (Except.error err, d)) (hn : now + d ≤ e) :
    cb.Execute now req
      = (CircuitBreaker.onFailure { cb with counts := cb.counts.onRequest } (now + d),
          Except.error err, now + d, true) := by
  obtain ⟨name, state, gen, counts, expiry⟩ := cb
  simp only at hs he
  subst hs he
  have h1 := currentState_closed_fresh ⟨name, CBState.StateClosed, gen, counts, some e⟩ now e
    rfl rfl (by omega)
  have h2 := currentState_closed_fresh
    ⟨name, CBState.StateClosed, gen, counts.onRequest, some e⟩ (now + d) e rfl rfl hn
  unfold CircuitBreaker.Execute CircuitBreaker.beforeRequest
  simp only [h1, hr]
  simp [CircuitBreaker.afterRequest, h2]

/-- A successful call through a Closed breaker whose evaluation window covers the whole call:
the request and the success are counted and the breaker stays Closed. -/
theorem Execute_closed_success {α : Type} (cb : CircuitBreaker) (now e d : Nat)
    (req : Nat → Except Err α × Nat) (a : α)
    (hs : cb.state = CBState.StateClosed) (he : cb.expiry = some e)
    (hr : req now = (Except.ok a, d)) (hn : now + d ≤ e) :
    cb.Execute now req
      = ({ cb with counts := cb.counts.onRequest.onSuccess }, Except.ok a, now + d, true) := by
  obtain ⟨name, state, gen, counts, expiry⟩ := cb
  simp only at hs he
  subst hs he
  have h1 := currentState_closed_fresh ⟨name, CBState.StateClosed, gen, counts, some e⟩ now e
    rfl rfl (by omega)
  have h2 := currentState_closed_fresh
    ⟨name, CBState.StateClosed, gen, counts.onRequest, some e⟩ (now + d) e rfl rfl hn
  unfold CircuitBreaker.Execute CircuitBreaker.beforeRequest
  simp only [h1, hr]
  simp [CircuitBreaker.afterRequest, h2, CircuitBreaker.onSuccess]

/-- Recording a failure in Closed: the breaker opens, with the cooldown starting at the time
of the failure, exactly when the updated counters satisfy the trip condition. -/
theorem onFailure_closed (cb : CircuitBreaker) (t : Nat) (hs : cb.state = CBState.StateClosed) :
    cb.onFailure t
      = if tripLogic cb.counts.onFailure then
          ⟨cb.name, CBState.StateOpen, wrapU64 (cb.generation + 1), Counts.clear,
            some (t + cbTimeout)⟩
        else { cb with counts := cb.counts.onFailure } := by
  unfold CircuitBreaker.onFailure
  rw [hs]
  simp only []
  split_ifs
  · simp [CircuitBreaker.setState, hs, CircuitBreaker.toNewGeneration]
  · rfl

/-- An iteration on an entry whose breaker is Open and still cooling down: `State()` changes
nothing, the entry is skipped, the adapter is not run, the clock does not move. -/
theorem attemptEntry_open (M : Model) (net : Net) (action : String) (request : PaymentRequest)
    (pgm : PgRoutingMaster) (p : PaymentProcessor) (now e : Nat) (cb : CircuitBreaker)
    (hb : p.CircuitBreakers pgm.PaymentGateway = some cb)
    (hs : cb.state = CBState.StateOpen) (he : cb.expiry = some e) (hn : now ≤ e) :
    attemptEntry M net action request pgm p now = (cb, now, Disposition.skipped) := by
  have h1 := currentState_open_cooling cb now e hs he hn
  unfold attemptEntry
  simp only [hb, CircuitBreaker.State, h1, hs, if_true]

/-- An iteration whose provider call fails, through a Closed breaker whose evaluation window
covers the call. -/
theorem attemptEntry_fail (M : Model) (net : Net) (action : String) (request : PaymentRequest)
    (pgm : PgRoutingMaster) (p : PaymentProcessor) (now e d : Nat) (cb0 : CircuitBreaker)
    (pg : PaymentGateway) (err : Err)
    (hb : p.CircuitBreakers pgm.PaymentGateway = some cb0 ∨
      (p.CircuitBreakers pgm.PaymentGateway = none ∧
        cb0 = NewCircuitBreaker pgm.PaymentGateway now))
    (hs : cb0.state = CBState.StateClosed) (he : cb0.expiry = some e)
    (hg : GetPaymentGatewayInstance pgm.PaymentGateway = Except.ok pg)
    (hr : operation M net pg action request now = (Except.error err, d))
    (hn : now + d ≤ e) :
    attemptEntry M net action request pgm p now
      = (CircuitBreaker.onFailure { cb0 with counts := cb0.counts.onRequest } (now + d),
          now + d, Disposition.failed err) := by
  have h1 := currentState_closed_fresh cb0 now e hs he (by omega)
  have hx := Execute_closed_fail cb0 now e d (operation M net pg action request) err hs he hr hn
  unfold attemptEntry
  rcases hb with hb | ⟨hb, hnew⟩
  · simp only [hb, CircuitBreaker.State, h1, hs, hg, hx]
    simp
  · rw [← hnew]
    simp only [hb, CircuitBreaker.State, h1, hs, hg, hx]
    simp

theorem processPayment_single (M : Model) (net : Net) (p : PaymentProcessor) (now : Nat)
    (id : String) (r : PaymentRequest) (action : String) (pgm : PgRoutingMaster)
    (hroute : p.PgRoutingMasters = [pgm]) (hv : validateRequest M r = none)
    (cb : CircuitBreaker) (now1 : Nat) (d : Disposition)
    (hd : attemptEntry M net action { r with TransactionID := id } pgm p now = (cb, now1, d))
    (hns : ∀ resp, d ≠ Disposition.succeeded resp) :
    p.processPayment M net now id r action
      = ⟨p.setBreaker pgm.PaymentGateway cb, { r with TransactionID := id },
          Except.error (operationFailed M action (nextError none d)),
          [⟨pgm.PaymentGateway, now, d⟩], now1⟩ := by
  rw [processPayment_valid M net p now id r action hv, hroute, attemptLoop_cons, hd]
  cases d with
  | succeeded resp => exact absurd rfl (hns resp)
  | skipped => simp only []; rw [attemptLoop_nil]; rfl
  | unresolved err => simp only []; rw [attemptLoop_nil]; rfl
  | rejected err => simp only []; rw [attemptLoop_nil]; rfl
  | failed err => simp only []; rw [attemptLoop_nil]; rfl

theorem tripLogic_after_failures :
    tripLogic ⟨1, 0, 1, 0, 1⟩ = false ∧ tripLogic ⟨2, 0, 2, 0, 2⟩ = false ∧
      tripLogic ⟨3, 0, 3, 0, 3⟩ = true := by
  refine ⟨?_, ?_, ?_⟩
  · cases ht : tripLogic ⟨1, 0, 1, 0, 1⟩ with
    | false => rfl
    | true => exact absurd ((tripLogic_iff _ (by decide) (by decide)).mp ht).1 (by decide)
  · cases ht : tripLogic ⟨2, 0, 2, 0, 2⟩ with
    | false => rfl
    | true => exact absurd ((tripLogic_iff _ (by decide) (by decide)).mp ht).1 (by decide)
  · exact (tripLogic_iff _ (by decide) (by decide)).mpr (by decide)

/-- A failed `Deposit` on a single-entry routing list, through a Closed breaker whose
evaluation window covers the call. -/
theorem Deposit_single_fail (M : Model) (net : Net) (p : PaymentProcessor) (now : Nat)
    (id : String) (r : PaymentRequest) (pgm : PgRoutingMaster) (e d : Nat)
    (cb0 : CircuitBreaker) (pg : PaymentGateway) (err : Err)
    (hroute : p.PgRoutingMasters = [pgm]) (hv : validateRequest M r = none)
    (hb : p.CircuitBreakers pgm.PaymentGateway = some cb0 ∨
      (p.CircuitBreakers pgm.PaymentGateway = none ∧
        cb0 = NewCircuitBreaker pgm.PaymentGateway now))
    (hs : cb0.state = CBState.StateClosed) (he : cb0.expiry = some e)
    (hg : GetPaymentGatewayInstance pgm.PaymentGateway = Except.ok pg)
    (hr : pg.Deposit M net now { r with TransactionID := id } = (Except.error err, d))
    (hn : now + d ≤ e) :
    p.Deposit M net now id r
      = ⟨p.setBreaker pgm.PaymentGateway
            (CircuitBreaker.onFailure { cb0 with counts := cb0.counts.onRequest } (now + d)),
          { r with TransactionID := id },
          Except.error (Err.plain (ActionDeposit ++ " operation failed: " ++ err.text M)),
          [⟨pgm.PaymentGateway, now, Disposition.failed err⟩], now + d⟩ := by
  have hd := attemptEntry_fail M net ActionDeposit { r with TransactionID := id } pgm p now e d
    cb0 pg err hb hs he hg (by rw [operation_deposit, hr]) hn
  exact processPayment_single M net p now id r ActionDeposit pgm hroute hv _ _ _ hd
    (fun resp h => by cases h)

theorem setBreaker_same (p : PaymentProcessor) (name : String) (cb : CircuitBreaker)
    (h : p.CircuitBreakers name = some cb) :
    (p.setBreaker name cb).CircuitBreakers = p.CircuitBreakers := by
  funext k
  unfold PaymentProcessor.setBreaker
  by_cases hk : k = name
  · simp [hk, h]
  · simp [hk]

theorem setBreaker_get (p : PaymentProcessor) (name : String) (cb : CircuitBreaker) :
    (p.setBreaker name cb).CircuitBreakers name = some cb := by
  simp [PaymentProcessor.setBreaker]

/-- Three failed deposits inside one evaluation window, on a single resolvable provider with no
breaker registered yet, open its breaker; a fourth deposit inside the cooldown is answered
without running the adapter. -/
theorem three_failures_then_skip (M : Model) (net : Net) (p : PaymentProcessor)
    (e : PgRoutingMaster) (pg : PaymentGateway) (t1 t2 t3 t4 L : Nat)
    (id1 id2 id3 id4 : String) (r1 r2 r3 r4 : PaymentRequest) (o1 o2 o3 o4 : Outcome)
    (hroute : p.PgRoutingMasters = [e])
    (hfresh : p.CircuitBreakers e.PaymentGateway = none)
    (hg : GetPaymentGatewayInstance e.PaymentGateway = Except.ok pg)
    (hv1 : validateRequest M r1 = none) (hv2 : validateRequest M r2 = none)
    (hv3 : validateRequest M r3 = none) (hv4 : validateRequest M r4 = none)
    (hfail : ∀ r t, ∃ err, (pg.Deposit M net t r).1 = Except.error err)
    (hL : ∀ r t, (pg.Deposit M net t r).2 ≤ L)
    (ho1 : o1 = p.Deposit M net t1 id1 r1)
    (ho2 : o2 = o1.processor.Deposit M net t2 id2 r2)
    (ho3 : o3 = o2.processor.Deposit M net t3 id3 r3)
    (ho4 : o4 = o3.processor.Deposit M net t4 id4 r4)
    (h12 : t1 ≤ t2) (h23 : t2 ≤ t3) (hwin : t3 + L ≤ t1 + cbInterval)
    (hcool : t4 ≤ o3.now + cbTimeout) :
    o1.invoked = [e.PaymentGateway] ∧ o2.invoked = [e.PaymentGateway] ∧
      o3.invoked = [e.PaymentGateway] ∧
      (∃ e1 e2 e3, o1.result = Except.error e1 ∧ o2.result = Except.error e2 ∧
        o3.result = Except.error e3) ∧
      (∃ cb, o3.processor.CircuitBreakers e.PaymentGateway = some cb ∧
        cb.state = CBState.StateOpen ∧ cb.expiry = some (o3.now + cbTimeout)) ∧
      o4.result = Except.error (Err.plain "Deposit operation failed") ∧
      o4.attempts = [⟨e.PaymentGateway, t4, Disposition.skipped⟩] ∧
      o4.invoked = [] ∧
      o4.processor.CircuitBreakers = o3.processor.CircuitBreakers ∧
      o4.processor.WalletRepo = p.WalletRepo := by
  obtain ⟨ht1, ht2, ht3⟩ := tripLogic_after_failures
  -- first deposit
  rcases hx1 : pg.Deposit M net t1 { r1 with TransactionID := id1 } with ⟨x1, d1⟩
  obtain ⟨err1, hf1⟩ := hfail { r1 with TransactionID := id1 } t1
  have hd1 := hL { r1 with TransactionID := id1 } t1
  rw [hx1] at hf1 hd1
  simp only at hf1 hd1
  subst hf1
  have e1 := Deposit_single_fail M net p t1 id1 r1 e (t1 + cbInterval) d1
    (NewCircuitBreaker e.PaymentGateway t1) pg err1 hroute hv1 (Or.inr ⟨hfresh, rfl⟩) rfl rfl hg
    hx1 (by omega)
  rw [onFailure_closed _ _ rfl] at e1
  have c1 : (Counts.onFailure (Counts.onRequest (NewCircuitBreaker e.PaymentGateway t1).counts))
      = ⟨1, 0, 1, 0, 1⟩ := by rfl
  simp only [c1, ht1] at e1
  rw [← ho1] at e1
  -- second deposit
  rcases hx2 : pg.Deposit M net t2 { r2 with TransactionID := id2 } with ⟨x2, d2⟩
  obtain ⟨err2, hf2⟩ := hfail { r2 with TransactionID := id2 } t2
  have hd2 := hL { r2 with TransactionID := id2 } t2
  rw [hx2] at hf2 hd2
  simp only at hf2 hd2
  subst hf2
  have e2 := Deposit_single_fail M net o1.processor t2 id2 r2 e (t1 + cbInterval) d2
    ⟨e.PaymentGateway, CBState.StateClosed, 1, ⟨1, 0, 1, 0, 1⟩, some (t1 + cbInterval)⟩
    pg err2 (by rw [e1]; exact hroute) hv2
    (Or.inl (by rw [e1]; exact setBreaker_get _ _ _)) rfl rfl hg hx2 (by omega)
  rw [onFailure_closed _ _ rfl] at e2
  have c2 : (Counts.onFailure (Counts.onRequest (⟨1, 0, 1, 0, 1⟩ : Counts)))
      = ⟨2, 0, 2, 0, 2⟩ := by decide
  simp only [c2, ht2] at e2
  rw [← ho2] at e2
  -- third deposit
  rcases hx3 : pg.Deposit M net t3 { r3 with TransactionID := id3 } with ⟨x3, d3⟩
  obtain ⟨err3, hf3⟩ := hfail { r3 with TransactionID := id3 } t3
  have hd3 := hL { r3 with TransactionID := id3 } t3
  rw [hx3] at hf3 hd3
  simp only at hf3 hd3
  subst hf3
  have e3 := Deposit_single_fail M net o2.processor t3 id3 r3 e (t1 + cbInterval) d3
    ⟨e.PaymentGateway, CBState.StateClosed, 1, ⟨2, 0, 2, 0, 2⟩, some (t1 + cbInterval)⟩
    pg err3 (by rw [e2]; exact (by rw [e1]; exact hroute)) hv3
    (Or.inl (by rw [e2]; exact setBreaker_get _ _ _)) rfl rfl hg hx3 (by omega)
  rw [onFailure_closed _ _ rfl] at e3
  have c3 : (Counts.onFailure (Counts.onRequest (⟨2, 0, 2, 0, 2⟩ : Counts)))
      = ⟨3, 0, 3, 0, 3⟩ := by decide
  simp only [c3, ht3, if_true] at e3
  rw [← ho3] at e3
  -- fourth deposit
  have hnow3 : o3.now = t3 + d3 := by rw [e3]
  have hb3 : o3.processor.CircuitBreakers e.PaymentGateway
      = some ⟨e.PaymentGateway, CBState.StateOpen, wrapU64 (1 + 1), Counts.clear,
          some (t3 + d3 + cbTimeout)⟩ := by
    rw [e3]
    exact setBreaker_get _ _ _
  have hroute3 : o3.processor.PgRoutingMasters = [e] := by
    rw [e3]
    show o2.processor.PgRoutingMasters = [e]
    rw [e2]
    show o1.processor.PgRoutingMasters = [e]
    rw [e1]
    exact hroute
  have hd4 := attemptEntry_open M net ActionDeposit { r4 with TransactionID := id4 } e
    o3.processor t4 (t3 + d3 + cbTimeout) _ hb3 rfl rfl (by omega)
  have e4 := processPayment_single M net o3.processor t4 id4 r4 ActionDeposit e hroute3 hv4
    _ _ _ hd4 (fun resp h => by cases h)
  have e4' : o4 = _ := ho4.trans e4
  have hrepo : o3.processor.WalletRepo = p.WalletRepo := by
    rw [e3]
    show o2.processor.WalletRepo = p.WalletRepo
    rw [e2]
    show o1.processor.WalletRepo = p.WalletRepo
    rw [e1]
    rfl
  refine ⟨by rw [e1]; rfl, by rw [e2]; rfl, by rw [e3]; rfl,
    ⟨_, _, _, by rw [e1], by rw [e2], by rw [e3]⟩,
    ⟨_, hb3, rfl, by rw [hnow3]⟩, ?_, by rw [e4'], by rw [e4']; rfl, ?_, ?_⟩
  · rw [e4']
    rfl
  · rw [e4']
    exact setBreaker_same _ _ _ hb3
  · rw [e4']
    exact hrepo

/-- C9 fails on the code for a run that ends in a success. Provider A is the only routing
entry; deposits at 0, 1 and 2 ms fail, fail and succeed, all well inside the 500 ms window.
The breaker has then seen 3 requests and 2 failures (ratio 2/3, and `5 * 2 ≥ 3 * 3`), yet it
is still Closed, because the trip condition is consulted only when a call fails; the deposit
at 3 ms runs the adapter of provider A instead of skipping it. -/
theorem ratio_reached_by_success_does_not_trip :
    (demoRun netFlaky 0).invoked = ["PGA"] ∧ (demoRun netFlaky 1).invoked = ["PGA"] ∧
      (demoRun netFlaky 2).invoked = ["PGA"] ∧
      (demoRun netFlaky 2).now = 3000000 ∧
      ((demoRun netFlaky 2).processor.CircuitBreakers "PGA").map
          (fun cb => (cb.state, cb.counts.Requests, cb.counts.TotalFailures))
        = some (CBState.StateClosed, 3, 2) ∧
      3 * 3 ≤ 5 * 2 ∧
      (demoRun netFlaky 3).invoked = ["PGA"] ∧
      (demoRun netFlaky 3).invoked ≠ [] :=
  ⟨rfl, rfl, rfl, rfl, rfl, by decide, rfl, by decide⟩

/-- C9 as amended. The trip condition is consulted only when a call fails: a failure recorded
in the Closed state that brings the counters to `Requests ≥ 3` with `5 * TotalFailures ≥
3 * Requests` opens the breaker, the cooldown of 2 s starting at that failure; and while a
breaker is Open and its cooldown has not elapsed, a loop iteration on its provider is skipped:
the adapter is not run, the breaker (its counters included) is unchanged, no time passes and
no error is recorded. With one resolvable provider as the only routing entry and no breaker
registered for it, three failed deposits started at `t1 ≤ t2 ≤ t3` whose calls last at most `L`
with `t3 + L` inside the 500 ms window opened by the first, followed by a fourth deposit no
later than 2 s after the third returned: each of the first three runs the adapter once and
fails, the breaker is then Open, and the fourth returns exactly the error
`Deposit operation failed` without running the adapter or touching the breaker. -/
theorem breaker_opens_on_failure_then_skips (M : Model) (net : Net) (p : PaymentProcessor)
    (e : PgRoutingMaster) (pg : PaymentGateway) (t1 t2 t3 t4 L : Nat)
    (id1 id2 id3 id4 : String) (r1 r2 r3 r4 : PaymentRequest) (o1 o2 o3 o4 : Outcome)
    (hroute : p.PgRoutingMasters = [e])
    (hfresh : p.CircuitBreakers e.PaymentGateway = none)
    (hg : GetPaymentGatewayInstance e.PaymentGateway = Except.ok pg)
    (hv1 : validateRequest M r1 = none) (hv2 : validateRequest M r2 = none)
    (hv3 : validateRequest M r3 = none) (hv4 : validateRequest M r4 = none)
    (hfail : ∀ r t, ∃ err, (pg.Deposit M net t r).1 = Except.error err)
    (hL : ∀ r t, (pg.Deposit M net t r).2 ≤ L)
    (ho1 : o1 = p.Deposit M net t1 id1 r1)
    (ho2 : o2 = o1.processor.Deposit M net t2 id2 r2)
    (ho3 : o3 = o2.processor.Deposit M net t3 id3 r3)
    (ho4 : o4 = o3.processor.Deposit M net t4 id4 r4)
    (h12 : t1 ≤ t2) (h23 : t2 ≤ t3) (hwin : t3 + L ≤ t1 + cbInterval)
    (hcool : t4 ≤ o3.now + cbTimeout) :
    (o1.invoked = [e.PaymentGateway] ∧ o2.invoked = [e.PaymentGateway] ∧
        o3.invoked = [e.PaymentGateway] ∧
        (∃ e1 e2 e3, o1.result = Except.error e1 ∧ o2.result = Except.error e2 ∧
          o3.result = Except.error e3) ∧
        (∃ cb, o3.processor.CircuitBreakers e.PaymentGateway = some cb ∧
          cb.state = CBState.StateOpen ∧ cb.expiry = some (o3.now + cbTimeout)) ∧
        o4.result = Except.error (Err.plain "Deposit operation failed") ∧
        o4.attempts = [⟨e.PaymentGateway, t4, Disposition.skipped⟩] ∧
        o4.invoked = [] ∧
        o4.processor.CircuitBreakers = o3.processor.CircuitBreakers ∧
        o4.processor.WalletRepo = p.WalletRepo) ∧
      (∀ (cb : CircuitBreaker) (t : Nat), cb.state = CBState.StateClosed →
        cb.counts.onFailure.TotalFailures ≤ cb.counts.onFailure.Requests →
        cb.counts.onFailure.Requests < 2 ^ 32 →
        3 ≤ cb.counts.onFailure.Requests →
        3 * cb.counts.onFailure.Requests ≤ 5 * cb.counts.onFailure.TotalFailures →
        (cb.onFailure t).state = CBState.StateOpen ∧
          (cb.onFailure t).expiry = some (t + cbTimeout)) ∧
      (∀ (q : PaymentProcessor) (pgm : PgRoutingMaster) (now e1 : Nat) (cb : CircuitBreaker)
        (action : String) (r : PaymentRequest),
        q.CircuitBreakers pgm.PaymentGateway = some cb → cb.state = CBState.StateOpen →
        cb.expiry = some e1 → now ≤ e1 →
        attemptEntry M net action r pgm q now = (cb, now, Disposition.skipped)) := by
  refine ⟨three_failures_then_skip M net p e pg t1 t2 t3 t4 L id1 id2 id3 id4 r1 r2 r3 r4
    o1 o2 o3 o4 hroute hfresh hg hv1 hv2 hv3 hv4 hfail hL ho1 ho2 ho3 ho4 h12 h23 hwin hcool,
    ?_, ?_⟩
  · intro cb t hs hle hR h3 h5
    have ht : tripLogic cb.counts.onFailure = true :=
      (tripLogic_iff _ hle hR).mpr ⟨h3, h5⟩
    rw [onFailure_closed cb t hs, ht]
    exact ⟨rfl, rfl⟩
  · intro q pgm now e1 cb action r hb hs he hn
    exact attemptEntry_open M net action r pgm q now e1 cb hb hs he hn

/-- C9 as amended, on `TestPaymentProcessor_Resilience_CircuitBreakerAndFallback`: provider A
answers 500 to the deposits at 0, 1 and 2 ms; the deposit at 3 ms returns
`Deposit operation failed` and does not reach the provider. -/
theorem breaker_opens_on_failure_then_skips_witness :
    (demoRun netDown 3).result = Except.error (Err.plain "Deposit operation failed") ∧
      (demoRun netDown 3).invoked = [] :=
  have h := (breaker_opens_on_failure_then_skips demoModel netDown demoSingle
    ⟨"USD", "US", "PGA", true, 3, 0⟩ PaymentGateway.PGSA 0 1000000 2000000 3000000 1000000
    "t1" "t2" "t3" "t4" demoRequest demoRequest demoRequest demoRequest
    (demoRun netDown 0) (demoRun netDown 1) (demoRun netDown 2) (demoRun netDown 3)
    rfl rfl rfl (by decide) (by decide) (by decide) (by decide)
    (fun r t => ⟨_, rfl⟩) (fun r t => Nat.le_refl _)
    rfl rfl rfl rfl (by decide) (by decide) (by decide) (by decide)).1
  ⟨h.2.2.2.2.2.1, h.2.2.2.2.2.2.2.1⟩

/-! ## The trial call after the cooldown -/

/-- Reading the state of an Open breaker after its cooldown: it becomes Half-Open in a new
generation with cleared counters and no expiry. -/
theorem currentState_open_elapsed (cb : CircuitBreaker) (now e : Nat)
    (hs : cb.state = CBState.StateOpen) (he : cb.expiry = some e) (hn : e < now) :
    cb.currentState now
      = ⟨cb.name, CBState.StateHalfOpen, wrapU64 (cb.generation + 1), Counts.clear, none⟩ := by
  unfold CircuitBreaker.currentState
  rw [hs]
  simp only [he, expiryBefore, hn, decide_True, if_true]
  simp [CircuitBreaker.setState, hs, CircuitBreaker.toNewGeneration]

/-- The trial call through a Half-Open breaker that has admitted no request yet: the
operation is run; a success closes the breaker in a new generation, a failure re-opens it
with the cooldown counted from the end of the call. -/
theorem Execute_halfOpen {α : Type} (name : String) (gen now : Nat)
    (req : Nat → Except Err α × Nat) :
    CircuitBreaker.Execute ⟨name, CBState.StateHalfOpen, gen, Counts.clear, none⟩ now req
      = match (req now).1 with
        | Except.ok a =>
            (⟨name, CBState.StateClosed, wrapU64 (gen + 1), Counts.clear,
                some (now + (req now).2 + cbInterval)⟩, Except.ok a, now + (req now).2, true)
        | Except.error err =>
            (⟨name, CBState.StateOpen, wrapU64 (gen + 1), Counts.clear,
                some (now + (req now).2 + cbTimeout)⟩, Except.error err, now + (req now).2,
              true) := by
  rcases hr : req now with ⟨r, d⟩
  cases r with
  | ok a =>
      simp [CircuitBreaker.Execute, CircuitBreaker.beforeRequest, CircuitBreaker.currentState,
        CircuitBreaker.afterRequest, CircuitBreaker.onSuccess, CircuitBreaker.setState,
        CircuitBreaker.toNewGeneration, Counts.clear, Counts.onRequest, Counts.onSuccess,
        cbMaxRequests, wrapU32, hr]
  | error err =>
      simp [CircuitBreaker.Execute, CircuitBreaker.beforeRequest, CircuitBreaker.currentState,
        CircuitBreaker.afterRequest, CircuitBreaker.onFailure, CircuitBreaker.setState,
        CircuitBreaker.toNewGeneration, Counts.clear, Counts.onRequest,
        cbMaxRequests, wrapU32, hr]

/-- A loop iteration on an entry whose breaker is Open with the cooldown elapsed: it is not
skipped, the adapter is run once as the trial call, and the breaker ends Closed or Open
according to the result. -/
theorem attemptEntry_trial (M : Model) (net : Net) (action : String) (request : PaymentRequest)
    (pgm : PgRoutingMaster) (p : PaymentProcessor) (now e : Nat) (cb : CircuitBreaker)
    (pg : PaymentGateway)
    (hb : p.CircuitBreakers pgm.PaymentGateway = some cb)
    (hs : cb.state = CBState.StateOpen) (he : cb.expiry = some e) (hn : e < now)
    (hg : GetPaymentGatewayInstance pgm.PaymentGateway = Except.ok pg) :
    attemptEntry M net action request pgm p now
      = match (operation M net pg action request now).1 with
        | Except.ok resp =>
            (⟨cb.name, CBState.StateClosed, wrapU64 (wrapU64 (cb.generation + 1) + 1),
                Counts.clear,
                some (now + (operation M net pg action request now).2 + cbInterval)⟩,
              now + (operation M net pg action request now).2, Disposition.succeeded resp)
        | Except.error err =>
            (⟨cb.name, CBState.StateOpen, wrapU64 (wrapU64 (cb.generation + 1) + 1),
                Counts.clear,
                some (now + (operation M net pg action request now).2 + cbTimeout)⟩,
              now + (operation M net pg action request now).2, Disposition.failed err) := by
  have h1 := currentState_open_elapsed cb now e hs he hn
  have hx := Execute_halfOpen cb.name (wrapU64 (cb.generation + 1)) now
    (operation M net pg action request)
  unfold attemptEntry
  simp only [hb, CircuitBreaker.State, h1, hg, hx]
  cases (operation M net pg action request now).1 <;> simp

/-- C11: let the first routing entry be a resolvable provider whose breaker is Open with its
cooldown elapsed at the time of a valid payment attempt. The entry is not skipped: its adapter
is run, once, as the trial call. If the trial succeeds the attempt returns its response, no
other iteration takes place, and the breaker is Closed with cleared counters in a new
evaluation window. If the trial fails the breaker is Open again, in a new generation with
cleared counters and the cooldown counted from the end of the trial, and the loop goes on
with the remaining entries; with no other entry the attempt fails with the aggregate error
and the provider was called exactly once. -/
theorem trial_call_after_cooldown (M : Model) (net : Net) (p : PaymentProcessor) (now : Nat)
    (id : String) (r : PaymentRequest) (action : String) (pgm : PgRoutingMaster)
    (rest : List PgRoutingMaster) (cb : CircuitBreaker) (e : Nat) (pg : PaymentGateway)
    (hroute : p.PgRoutingMasters = pgm :: rest)
    (hv : validateRequest M r = none)
    (hb : p.CircuitBreakers pgm.PaymentGateway = some cb)
    (hs : cb.state = CBState.StateOpen) (he : cb.expiry = some e) (hn : e < now)
    (hg : GetPaymentGatewayInstance pgm.PaymentGateway = Except.ok pg) :
    (∀ resp, (operation M net pg action { r with TransactionID := id } now).1 = Except.ok resp →
        (p.processPayment M net now id r action).result = Except.ok resp ∧
        (p.processPayment M net now id r action).attempts
          = [⟨pgm.PaymentGateway, now, Disposition.succeeded resp⟩] ∧
        (p.processPayment M net now id r action).invoked = [pgm.PaymentGateway] ∧
        (p.processPayment M net now id r action).processor.CircuitBreakers pgm.PaymentGateway
          = some ⟨cb.name, CBState.StateClosed, wrapU64 (wrapU64 (cb.generation + 1) + 1),
              Counts.clear,
              some (now + (operation M net pg action { r with TransactionID := id } now).2
                + cbInterval)⟩) ∧
      (∀ err,
        (operation M net pg action { r with TransactionID := id } now).1 = Except.error err →
        p.processPayment M net now id r action
          = attemptLoop M net action { r with TransactionID := id }
              ⟨id, r.UserID, r.Amount, r.Currency, action, M.StateAuthorized⟩ rest
              (p.setBreaker pgm.PaymentGateway
                ⟨cb.name, CBState.StateOpen, wrapU64 (wrapU64 (cb.generation + 1) + 1),
                  Counts.clear,
                  some (now + (operation M net pg action { r with TransactionID := id } now).2
                    + cbTimeout)⟩)
              (now + (operation M net pg action { r with TransactionID := id } now).2)
              (some err) [⟨pgm.PaymentGateway, now, Disposition.failed err⟩] ∧
        (rest = [] →
          (p.processPayment M net now id r action).result
            = Except.error (operationFailed M action (some err)) ∧
          (p.processPayment M net now id r action).invoked = [pgm.PaymentGateway] ∧
          (p.processPayment M net now id r action).processor.CircuitBreakers
              pgm.PaymentGateway
            = some ⟨cb.name, CBState.StateOpen, wrapU64 (wrapU64 (cb.generation + 1) + 1),
                Counts.clear,
                some (now + (operation M net pg action { r with TransactionID := id } now).2
                  + cbTimeout)⟩)) := by
  have ht := attemptEntry_trial M net action { r with TransactionID := id } pgm p now e cb pg
    hb hs he hn hg
  have hp := processPayment_valid M net p now id r action hv
  rw [hroute, attemptLoop_cons] at hp
  constructor
  · intro resp hok
    rw [hok] at ht
    simp only [] at ht
    rw [ht] at hp
    simp only [] at hp
    rw [hp]
    exact ⟨rfl, rfl, rfl, setBreaker_get _ _ _⟩
  · intro err herr
    rw [herr] at ht
    simp only [] at ht
    rw [ht] at hp
    simp only [] at hp
    refine ⟨hp, ?_⟩
    intro hrest
    rw [hp, hrest, attemptLoop_nil]
    exact ⟨rfl, rfl, setBreaker_get _ _ _⟩

/-- C11 on the last step of `TestPaymentProcessor_Resilience_CircuitBreakerAndFallback`: four
seconds after the breaker opened, provider A answers 200; the deposit reaches it once and
succeeds, and the breaker is Closed with cleared counters. -/
theorem trial_call_after_cooldown_witness :
    (demoOpen.Deposit demoModel netUp 4003000000 "t5" demoRequest).result
        = Except.ok ⟨"success", "done", "t5"⟩ ∧
      (demoOpen.Deposit demoModel netUp 4003000000 "t5" demoRequest).invoked = ["PGA"] ∧
      (demoOpen.Deposit demoModel netUp 4003000000 "t5"
          demoRequest).processor.CircuitBreakers "PGA"
        = some ⟨"PGA", CBState.StateClosed, 4, Counts.clear, some 4504000000⟩ :=
  have h := (trial_call_after_cooldown demoModel netUp demoOpen 4003000000 "t5" demoRequest
    ActionDeposit ⟨"USD", "US", "PGA", true, 3, 0⟩ []
    ⟨"PGA", CBState.StateOpen, 2, Counts.clear, some 2003000000⟩ 2003000000
    PaymentGateway.PGSA rfl (by decide) rfl rfl rfl (by decide) rfl).1
      ⟨"success", "done", "t5"⟩ rfl
  ⟨h.1, h.2.2.1, h.2.2.2⟩

/-! ## Callbacks: unknown ids and states other than Approved -/

theorem GetTransaction_error_iff (r : UserWalletRepo) (k : String) :
    (∃ err, r.GetTransaction k = Except.error err) ↔ r.transactions k = none := by
  unfold UserWalletRepo.GetTransaction
  cases r.transactions k <;> simp

theorem HandleCallback_absent (M : Model) (p : PaymentProcessor) (cb : CallbackRequest)
    (h : p.WalletRepo.transactions cb.TransactionID = none) :
    p.HandleCallback M cb = (p, some (Err.plain "transaction not found")) := by
  unfold PaymentProcessor.HandleCallback UserWalletRepo.GetTransaction
  simp only [h]

/-- With the transaction present, the only error `HandleCallback` can return is
`insufficient funds`. -/
theorem HandleCallback_present_error (M : Model) (p : PaymentProcessor) (cb : CallbackRequest)
    (txn0 : Transaction) (h : p.WalletRepo.transactions cb.TransactionID = some txn0) :
    (p.HandleCallback M cb).2 = none ∨
      (p.HandleCallback M cb).2 = some (Err.plain "insufficient funds") := by
  unfold PaymentProcessor.HandleCallback UserWalletRepo.GetTransaction
  simp only [h]
  split_ifs <;> simp

/-- C12: `HandleCallback` returns the not-found error (`transaction not found`) exactly when
the transaction map holds nothing under the callback's transaction id at the time of the
call, and then the processor, wallets and transactions included, is unchanged; when the
transaction is present the result is nil or the error `insufficient funds`. `GetTransaction`
returns an error exactly when the id is absent, and that error is `transaction not found`. -/
theorem callback_not_found_iff_absent (M : Model) (p : PaymentProcessor)
    (callback : CallbackRequest) :
    ((p.HandleCallback M callback).2 = some (Err.plain "transaction not found") ↔
        p.WalletRepo.transactions callback.TransactionID = none) ∧
      (p.WalletRepo.transactions callback.TransactionID = none →
        (p.HandleCallback M callback).1 = p) ∧
      (p.WalletRepo.transactions callback.TransactionID ≠ none →
        (p.HandleCallback M callback).2 = none ∨
          (p.HandleCallback M callback).2 = some (Err.plain "insufficient funds")) ∧
      (∀ (r : UserWalletRepo) (k : String),
        ((∃ err, r.GetTransaction k = Except.error err) ↔ r.transactions k = none) ∧
        (r.transactions k = none →
          r.GetTransaction k = Except.error (Err.plain "transaction not found")) ∧
        (∀ t, r.transactions k = some t → r.GetTransaction k = Except.ok t)) := by
  refine ⟨?_, ?_, ?_, ?_⟩
  · constructor
    · intro h
      cases ht : p.WalletRepo.transactions callback.TransactionID with
      | none => rfl
      | some txn0 =>
          rcases HandleCallback_present_error M p callback txn0 ht with h1 | h1
          · rw [h1] at h
            cases h
          · rw [h1] at h
            exact absurd (Err.plain.inj (Option.some.inj h)) (by decide)
    · intro h
      rw [HandleCallback_absent M p callback h]
  · intro h
    rw [HandleCallback_absent M p callback h]
  · intro h
    cases ht : p.WalletRepo.transactions callback.TransactionID with
    | none => exact absurd ht h
    | some txn0 => exact HandleCallback_present_error M p callback txn0 ht
  · intro r k
    refine ⟨GetTransaction_error_iff r k, ?_, ?_⟩
    · intro h
      unfold UserWalletRepo.GetTransaction
      rw [h]
    · intro t h
      unfold UserWalletRepo.GetTransaction
      rw [h]

/-- C12 on a fresh processor: a callback for an id that was never issued. -/
theorem callback_not_found_iff_absent_witness :
    ((NewPaymentProcessor demoRouting).HandleCallback demoModel ⟨"nope", "APPROVED"⟩).2
      = some (Err.plain "transaction not found") :=
  (callback_not_found_iff_absent demoModel (NewPaymentProcessor demoRouting)
    ⟨"nope", "APPROVED"⟩).1.mpr rfl

/-- C13: a callback whose state is not Approved, on a transaction present in the ledger,
succeeds and leaves the wallet map as it was (no balance changes, no wallet is created). The
transaction stored under the callback's id has its state set to Failed when the callback
state is Failed and is unchanged for any other state value; the other entries of the
transaction map are unchanged (the entry under the transaction's own `ID` is the same entry
for every transaction stored by `processPayment`). -/
theorem non_approved_callback_leaves_wallets (M : Model) (p : PaymentProcessor)
    (callback : CallbackRequest) (txn0 : Transaction)
    (hk : p.WalletRepo.transactions callback.TransactionID = some txn0)
    (hst : callback.State ≠ M.StateApproved) :
    (p.HandleCallback M callback).2 = none ∧
      (p.HandleCallback M callback).1.WalletRepo.data = p.WalletRepo.data ∧
      (callback.State = M.StateFailed →
        (p.HandleCallback M callback).1.WalletRepo.transactions callback.TransactionID
          = some { txn0 with State := M.StateFailed }) ∧
      (callback.State ≠ M.StateFailed →
        (p.HandleCallback M callback).1.WalletRepo.transactions callback.TransactionID
          = some txn0) ∧
      (∀ j, j ≠ callback.TransactionID → j ≠ txn0.ID →
        (p.HandleCallback M callback).1.WalletRepo.transactions j
          = p.WalletRepo.transactions j) ∧
      (callback.State ≠ M.StateFailed → txn0.ID = callback.TransactionID →
        (p.HandleCallback M callback).1.WalletRepo.transactions = p.WalletRepo.transactions) := by
  obtain ⟨k, st⟩ := callback
  simp only at hk hst ⊢
  obtain ⟨h1, h2, h3, h4⟩ := HandleCallback_not_approved M p k txn0 st hk hst
  refine ⟨h1, h2, ?_, ?_, h4, ?_⟩
  · intro hf
    rw [h3, if_pos hf]
  · intro hf
    rw [h3, if_neg hf]
  · intro hf hid
    funext j
    by_cases hj : j = k
    · rw [hj, h3, if_neg hf, hk]
    · exact h4 j hj (by rw [hid]; exact hj)

/-- C13 after the deposit of `handler_test.go`: a Failed callback marks the transaction Failed
and the wallet map is still empty. -/
theorem non_approved_callback_leaves_wallets_witness :
    (((NewPaymentProcessor demoRouting).Deposit demoModel netUp 0 "t1"
        demoRequest).processor.HandleCallback demoModel ⟨"t1", "FAILED"⟩).2 = none ∧
      (((NewPaymentProcessor demoRouting).Deposit demoModel netUp 0 "t1"
        demoRequest).processor.HandleCallback demoModel ⟨"t1", "FAILED"⟩).1.WalletRepo.data
        = ((NewPaymentProcessor demoRouting).Deposit demoModel netUp 0 "t1"
            demoRequest).processor.WalletRepo.data ∧
      (((NewPaymentProcessor demoRouting).Deposit demoModel netUp 0 "t1"
        demoRequest).processor.HandleCallback demoModel
          ⟨"t1", "FAILED"⟩).1.WalletRepo.transactions "t1"
        = some ⟨"t1", "123", 100, "USD", "Deposit", "FAILED"⟩ :=
  have h := non_approved_callback_leaves_wallets demoModel
    ((NewPaymentProcessor demoRouting).Deposit demoModel netUp 0 "t1" demoRequest).processor
    ⟨"t1", "FAILED"⟩ ⟨"t1", "123", 100, "USD", "Deposit", "AUTHORIZED"⟩ rfl (by decide)
  ⟨h.1, h.2.1, h.2.2.1 rfl⟩

/-! ## Balances are changed by settlement only -/

theorem attemptLoop_data (M : Model) (net : Net) (action : String) (request : PaymentRequest)
    (txn : Transaction) (l : List PgRoutingMaster) (p : PaymentProcessor) (now : Nat)
    (lastError : Option Err) (done : List Attempt) :
    (attemptLoop M net action request txn l p now lastError done).processor.WalletRepo.data
      = p.WalletRepo.data := by
  obtain ⟨new, -, -, -, -, h5⟩ := attemptLoop_spec M net action request txn l p now lastError done
  rcases h5 with ⟨resp, pre, prov, t, -, -, -, -, e5⟩ | ⟨-, -, -, e4⟩
  · rw [e5]
    rfl
  · rw [e4]

theorem processPayment_data (M : Model) (net : Net) (p : PaymentProcessor) (now : Nat)
    (id : String) (r : PaymentRequest) (action : String) :
    (p.processPayment M net now id r action).processor.WalletRepo.data = p.WalletRepo.data := by
  cases hv : validateRequest M r with
  | some e => rw [processPayment_invalid M net p now id r action e hv]
  | none =>
      rw [processPayment_valid M net p now id r action hv]
      exact attemptLoop_data M net action _ _ _ p now none []

theorem GetWallet_balanceOf (p : PaymentProcessor) (u v : String) :
    balanceOf { p with WalletRepo := (p.WalletRepo.GetWallet u).1 } v = balanceOf p v := by
  rw [balanceOf_eq, balanceOf_eq]
  simp only [UserWalletRepo.GetWallet]
  cases hd : p.WalletRepo.data u with
  | some w => rfl
  | none =>
      simp only []
      by_cases hv : v = u
      · rw [hv, hd]
        simp
      · simp [hv]

theorem Withdraw_balanceOf (M : Model) (net : Net) (p : PaymentProcessor) (now : Nat)
    (id : String) (r : PaymentRequest) (u : String) :
    balanceOf (p.Withdraw M net now id r).processor u = balanceOf p u := by
  by_cases hb : (p.WalletRepo.GetWallet r.UserID).2.Balance < r.Amount
  · rw [Withdraw_unfunded M net p now id r hb]
    exact GetWallet_balanceOf p r.UserID u
  · rw [Withdraw_funded M net p now id r hb]
    exact (balanceOf_congr { p with WalletRepo := (p.WalletRepo.GetWallet r.UserID).1 } _ u
      (by rw [processPayment_data])).trans (GetWallet_balanceOf p r.UserID u)

/-- A callback whose state is not Approved changes no balance, whether or not the
transaction exists. -/
theorem HandleCallback_balanceOf_of_not_approved (M : Model) (p : PaymentProcessor)
    (cb : CallbackRequest) (hst : cb.State ≠ M.StateApproved) (u : String) :
    balanceOf (p.HandleCallback M cb).1 u = balanceOf p u := by
  cases ht : p.WalletRepo.transactions cb.TransactionID with
  | none => rw [HandleCallback_absent M p cb ht]
  | some txn0 =>
      obtain ⟨k, st⟩ := cb
      obtain ⟨-, h2, -, -⟩ := HandleCallback_not_approved M p k txn0 st ht hst
      exact balanceOf_congr _ _ _ (by rw [h2])

/-- C14: `Deposit` and `Withdraw`, whatever their result, leave the balance of every user, as
`GetWallet` reports it, as it was. `Deposit` does not touch the wallet map at all; `Withdraw`
at most stores a zero wallet for its user when none existed. Among the three entry points
only `HandleCallback` with state Approved can change a balance: a callback with any other
state leaves every balance as it was. -/
theorem payments_never_change_balances (M : Model) (net : Net) (p : PaymentProcessor)
    (now : Nat) (id : String) (request : PaymentRequest) (u : String) :
    balanceOf (p.Deposit M net now id request).processor u = balanceOf p u ∧
      (p.Deposit M net now id request).processor.WalletRepo.data = p.WalletRepo.data ∧
      balanceOf (p.Withdraw M net now id request).processor u = balanceOf p u ∧
      (∀ v w, p.WalletRepo.data v = some w →
        (p.Withdraw M net now id request).processor.WalletRepo.data v = some w) ∧
      (∀ v w, (p.Withdraw M net now id request).processor.WalletRepo.data v = some w →
        p.WalletRepo.data v = some w ∨ (v = request.UserID ∧ w = ⟨0⟩)) ∧
      (∀ callback : CallbackRequest, callback.State ≠ M.StateApproved →
        balanceOf (p.HandleCallback M callback).1 u = balanceOf p u) := by
  have hD := processPayment_data M net p now id request ActionDeposit
  have hW : (p.Withdraw M net now id request).processor.WalletRepo.data
      = (p.WalletRepo.GetWallet request.UserID).1.data := by
    by_cases hb : (p.WalletRepo.GetWallet request.UserID).2.Balance < request.Amount
    · rw [Withdraw_unfunded M net p now id request hb]
    · rw [Withdraw_funded M net p now id request hb, processPayment_data]
  refine ⟨balanceOf_congr _ _ _ (by rw [PaymentProcessor.Deposit, hD]), hD,
    Withdraw_balanceOf M net p now id request u, ?_, ?_,
    fun cb hst => HandleCallback_balanceOf_of_not_approved M p cb hst u⟩
  · intro v w hv
    rw [hW]
    unfold UserWalletRepo.GetWallet
    cases hd : p.WalletRepo.data request.UserID with
    | some w0 => exact hv
    | none =>
        simp only []
        have hne : v ≠ request.UserID := by
          intro h
          rw [h, hd] at hv
          cases hv
        simp [hne, hv]
  · intro v w hv
    rw [hW] at hv
    unfold UserWalletRepo.GetWallet at hv
    cases hd : p.WalletRepo.data request.UserID with
    | some w0 =>
        rw [hd] at hv
        exact Or.inl hv
    | none =>
        rw [hd] at hv
        simp only [] at hv
        by_cases hne : v = request.UserID
        · right
          rw [if_pos hne] at hv
          exact ⟨hne, (Option.some.inj hv).symm⟩
        · rw [if_neg hne] at hv
          exact Or.inl hv

/-! ## The factory, the wallet store and the transport helper -/

theorem GetPaymentGatewayInstance_unknown (provider : String) (h1 : provider ≠ "PGA")
    (h2 : provider ≠ "PGB") :
    GetPaymentGatewayInstance provider
      = Except.error (Err.plain "payment gateway not implemented") := by
  unfold GetPaymentGatewayInstance
  rw [if_neg h1, if_neg h2]

theorem GetPaymentGatewayInstance_ok_iff (provider : String) :
    (∃ pg, GetPaymentGatewayInstance provider = Except.ok pg) ↔
      provider = "PGA" ∨ provider = "PGB" := by
  constructor
  · rintro ⟨pg, h⟩
    by_contra hne
    rw [not_or] at hne
    rw [GetPaymentGatewayInstance_unknown provider hne.1 hne.2] at h
    cases h
  · rintro (h | h)
    · exact ⟨PaymentGateway.PGSA, by rw [h]; rfl⟩
    · exact ⟨PaymentGateway.PGSB, by rw [h]; rfl⟩

/-- A loop iteration on an entry the factory does not know: the adapter is not run and the
clock does not move; the entry is skipped if its breaker is Open and unresolved otherwise. -/
theorem attemptEntry_unknown (M : Model) (net : Net) (action : String) (request : PaymentRequest)
    (pgm : PgRoutingMaster) (p : PaymentProcessor) (now : Nat)
    (h1 : pgm.PaymentGateway ≠ "PGA") (h2 : pgm.PaymentGateway ≠ "PGB") :
    (attemptEntry M net action request pgm p now).2.1 = now ∧
      ((attemptEntry M net action request pgm p now).2.2 = Disposition.skipped ∨
        (attemptEntry M net action request pgm p now).2.2
          = Disposition.unresolved (Err.plain "payment gateway not implemented")) ∧
      ((∀ cb, p.CircuitBreakers pgm.PaymentGateway = some cb →
          cb.state = CBState.StateClosed) →
        (attemptEntry M net action request pgm p now).2.2
          = Disposition.unresolved (Err.plain "payment gateway not implemented")) := by
  have hg := GetPaymentGatewayInstance_unknown pgm.PaymentGateway h1 h2
  unfold attemptEntry
  simp only [hg]
  refine ⟨?_, ?_, ?_⟩
  · split_ifs <;> rfl
  · split_ifs
    · exact Or.inl rfl
    · exact Or.inr rfl
  · intro hc
    cases hb : p.CircuitBreakers pgm.PaymentGateway with
    | none =>
        have h3 := currentState_closed (NewCircuitBreaker pgm.PaymentGateway now) now rfl
        simp only [CircuitBreaker.State, h3]
        simp
    | some cb =>
        have h3 := currentState_closed cb now (hc cb hb)
        simp only [CircuitBreaker.State, h3]
        simp

/-- C15: the factory returns an adapter exactly for the identifiers `"PGA"` (the JSON
adapter) and `"PGB"` (the SOAP adapter), compared case-sensitively; every other identifier,
the empty string included, gets no adapter and the error `payment gateway not implemented`.
In the loop an entry with such an identifier runs no adapter and takes no time; the error is
recorded as last cause (unless the entry's breaker is Open, in which case the entry is
skipped) and the loop goes on with the next entry. -/
theorem factory_knows_PGA_and_PGB (M : Model) (net : Net) (action : String)
    (request : PaymentRequest) (txn : Transaction) (provider : String) :
    ((∃ pg, GetPaymentGatewayInstance provider = Except.ok pg) ↔
        provider = "PGA" ∨ provider = "PGB") ∧
      GetPaymentGatewayInstance "PGA" = Except.ok PaymentGateway.PGSA ∧
      GetPaymentGatewayInstance "PGB" = Except.ok PaymentGateway.PGSB ∧
      (provider ≠ "PGA" → provider ≠ "PGB" →
        GetPaymentGatewayInstance provider
          = Except.error (Err.plain "payment gateway not implemented")) ∧
      GetPaymentGatewayInstance ""
        = Except.error (Err.plain "payment gateway not implemented") ∧
      GetPaymentGatewayInstance "pga"
        = Except.error (Err.plain "payment gateway not implemented") ∧
      (∀ (pgm : PgRoutingMaster) (rest : List PgRoutingMaster) (p : PaymentProcessor)
        (now : Nat) (lastError : Option Err) (done : List Attempt),
        pgm.PaymentGateway = provider → provider ≠ "PGA" → provider ≠ "PGB" →
        ∃ (cb : CircuitBreaker) (d : Disposition),
          (d = Disposition.skipped ∨
            d = Disposition.unresolved (Err.plain "payment gateway not implemented")) ∧
          ((∀ cb0, p.CircuitBreakers provider = some cb0 → cb0.state = CBState.StateClosed) →
            d = Disposition.unresolved (Err.plain "payment gateway not implemented")) ∧
          attemptLoop M net action request txn (pgm :: rest) p now lastError done
            = attemptLoop M net action request txn rest (p.setBreaker provider cb) now
                (nextError lastError d) (done ++ [⟨provider, now, d⟩])) := by
  refine ⟨GetPaymentGatewayInstance_ok_iff provider, rfl, rfl,
    GetPaymentGatewayInstance_unknown provider, rfl, rfl, ?_⟩
  intro pgm rest p now lastError done hp h1 h2
  subst hp
  obtain ⟨e1, e2, e3⟩ := attemptEntry_unknown M net action request pgm p now h1 h2
  refine ⟨(attemptEntry M net action request pgm p now).1,
    (attemptEntry M net action request pgm p now).2.2, e2, e3, ?_⟩
  rw [attemptLoop_cons]
  rcases e2 with h | h
  · rw [h, e1]
  · rw [h, e1]

/-- C16: `GetWallet` (whose error result is always nil) on a user with a wallet returns that
wallet and leaves the ledger as it is; on a user without one it returns a wallet with balance
0 that is then stored for the user, every other wallet and every transaction being unchanged.
A second `GetWallet` for the same user returns the same wallet and changes nothing, and
`GetWallet` after `UpdateWallet u w` returns `w`. -/
theorem GetWallet_get_or_create (r : UserWalletRepo) (u : String) :
    (∀ w, r.data u = some w → r.GetWallet u = (r, w)) ∧
      (r.data u = none →
        (r.GetWallet u).2 = ⟨0⟩ ∧ (r.GetWallet u).1.data u = some ⟨0⟩ ∧
        (∀ v, v ≠ u → (r.GetWallet u).1.data v = r.data v) ∧
        (r.GetWallet u).1.transactions = r.transactions) ∧
      (r.GetWallet u).1.data u = some (r.GetWallet u).2 ∧
      (r.GetWallet u).1.GetWallet u = ((r.GetWallet u).1, (r.GetWallet u).2) ∧
      (∀ w, (r.UpdateWallet u w).GetWallet u = (r.UpdateWallet u w, w)) := by
  refine ⟨?_, ?_, ?_, ?_, ?_⟩
  · intro w h
    unfold UserWalletRepo.GetWallet
    rw [h]
  · intro h
    unfold UserWalletRepo.GetWallet
    rw [h]
    refine ⟨rfl, by simp, ?_, rfl⟩
    intro v hv
    simp [hv]
  · unfold UserWalletRepo.GetWallet
    cases h : r.data u with
    | some w => exact h
    | none => simp
  · cases h : r.data u with
    | some w =>
        have h1 : r.GetWallet u = (r, w) := by
          unfold UserWalletRepo.GetWallet
          rw [h]
        rw [h1]
        exact h1
    | none =>
        unfold UserWalletRepo.GetWallet
        simp [h]
  · intro w
    unfold UserWalletRepo.GetWallet UserWalletRepo.UpdateWallet
    simp

theorem IsSuccessStatus_iff (c : Int) : IsSuccessStatus c = true ↔ 200 ≤ c ∧ c < 300 := by
  unfold IsSuccessStatus
  simp

/-- C17 fails on the code for one network-level error: when the body cannot be read
(`ioutil.ReadAll` fails, gateway.go:62-65) `makeHTTPRequest` returns an
`ErrHttpResponseFailure` error carrying the text of the read error, not an
`ErrHttpRequestFailure` error. -/
theorem body_read_failure_is_response_error :
    (netReset 0 ("http://pgsa.com" ++ "/" ++ "deposit") "application/json" "123").1
        = HttpOutcome.readError "unexpected EOF" ∧
      (makeHTTPRequest netReset 0 "http://pgsa.com" "deposit" "application/json" "123").1
        = Except.error (Err.wrapped ErrKind.ErrHttpResponseFailure "unexpected EOF") ∧
      (makeHTTPRequest netReset 0 "http://pgsa.com" "deposit" "application/json" "123").1
        ≠ Except.error (Err.wrapped ErrKind.ErrHttpRequestFailure "unexpected EOF") := by
  refine ⟨rfl, rfl, ?_⟩
  intro h
  have h2 : (Except.error (Err.wrapped ErrKind.ErrHttpResponseFailure "unexpected EOF") :
      Except Err String)
      = Except.error (Err.wrapped ErrKind.ErrHttpRequestFailure "unexpected EOF") := h
  injection h2 with h3
  injection h3 with h4
  cases h4

/-- C17 as amended: `makeHTTPRequest` returns a body without error exactly when the request
was built and executed, the body was read, and the status code `c` satisfies `200 ≤ c < 300`,
and the body returned is the response body. A failure to build or to execute the request gives
an `ErrHttpRequestFailure` error carrying the text of that failure; a status outside `200..299`
gives `ErrHttpResponseFailure` with the response body as detail; a failure to read the body
gives `ErrHttpResponseFailure` with the text of the read error. `IsSuccessStatus c` holds
exactly for `200 ≤ c < 300`. -/
theorem makeHTTPRequest_classifies (net : Net) (now : Nat)
    (url action contentType requestBody : String) :
    (∀ b, (makeHTTPRequest net now url action contentType requestBody).1 = Except.ok b ↔
        ∃ c, (net now (url ++ "/" ++ action) contentType requestBody).1
          = HttpOutcome.response c b ∧ 200 ≤ c ∧ c < 300) ∧
      (∀ msg, ((net now (url ++ "/" ++ action) contentType requestBody).1
            = HttpOutcome.requestError msg ∨
          (net now (url ++ "/" ++ action) contentType requestBody).1
            = HttpOutcome.doError msg) →
        (makeHTTPRequest net now url action contentType requestBody).1
          = Except.error (Err.wrapped ErrKind.ErrHttpRequestFailure msg)) ∧
      (∀ c body, (net now (url ++ "/" ++ action) contentType requestBody).1
          = HttpOutcome.response c body → ¬ (200 ≤ c ∧ c < 300) →
        (makeHTTPRequest net now url action contentType requestBody).1
          = Except.error (Err.wrapped ErrKind.ErrHttpResponseFailure body)) ∧
      (∀ msg, (net now (url ++ "/" ++ action) contentType requestBody).1
          = HttpOutcome.readError msg →
        (makeHTTPRequest net now url action contentType requestBody).1
          = Except.error (Err.wrapped ErrKind.ErrHttpResponseFailure msg)) ∧
      (∀ c : Int, IsSuccessStatus c = true ↔ 200 ≤ c ∧ c < 300) := by
  unfold makeHTTPRequest
  rcases net now (url ++ "/" ++ action) contentType requestBody with ⟨o, d⟩
  refine ⟨?_, ?_, ?_, ?_, IsSuccessStatus_iff⟩
  · intro b
    cases o with
    | requestError msg => simp
    | doError msg => simp
    | readError msg => simp
    | response c body =>
        by_cases hc : IsSuccessStatus c = true
        · have hc2 := (IsSuccessStatus_iff c).mp hc
          simp only [hc, Bool.not_true, Bool.false_eq_true, if_false, Except.ok.injEq,
            HttpOutcome.response.injEq]
          constructor
          · intro h
            exact ⟨c, ⟨rfl, h⟩, hc2⟩
          · rintro ⟨c1, ⟨-, h⟩, -⟩
            exact h
        · have hc2 : ¬ (200 ≤ c ∧ c < 300) := fun h => hc ((IsSuccessStatus_iff c).mpr h)
          simp only [hc, Bool.not_false, if_true, HttpOutcome.response.injEq]
          constructor
          · intro h
            cases h
          · rintro ⟨c1, ⟨h1, -⟩, h2⟩
            rw [← h1] at h2
            exact absurd h2 hc2
  · intro msg h
    rcases h with h | h
    · simp only at h
      subst h
      rfl
    · simp only at h
      subst h
      rfl
  · intro c body h hc
    simp only at h
    subst h
    have : ¬ IsSuccessStatus c = true := fun h => hc ((IsSuccessStatus_iff c).mp h)
    simp [this]
  · intro msg h
    simp only at h
    subst h
    rfl

/-! ## Routing entries are read for their provider only -/

theorem attemptEntry_congr (M : Model) (net : Net) (action : String) (request : PaymentRequest)
    (pgm1 pgm2 : PgRoutingMaster) (p1 p2 : PaymentProcessor) (now : Nat)
    (hid : pgm1.PaymentGateway = pgm2.PaymentGateway)
    (hcb : p1.CircuitBreakers = p2.CircuitBreakers) :
    attemptEntry M net action request pgm1 p1 now
      = attemptEntry M net action request pgm2 p2 now := by
  unfold attemptEntry
  rw [hid, hcb]

/-- Two runs of the loop from processors with the same ledger and the same breakers, over
routing lists with the same sequence of provider identifiers, agree on everything but the
routing list carried along. -/
theorem attemptLoop_congr (M : Model) (net : Net) (action : String) (request : PaymentRequest)
    (txn : Transaction) :
    ∀ (l1 l2 : List PgRoutingMaster),
      l1.map PgRoutingMaster.PaymentGateway = l2.map PgRoutingMaster.PaymentGateway →
      ∀ (p1 p2 : PaymentProcessor) (now : Nat) (lastError : Option Err) (done : List Attempt),
        p1.WalletRepo = p2.WalletRepo → p1.CircuitBreakers = p2.CircuitBreakers →
        (attemptLoop M net action request txn l1 p1 now lastError done).result
            = (attemptLoop M net action request txn l2 p2 now lastError done).result ∧
          (attemptLoop M net action request txn l1 p1 now lastError done).attempts
            = (attemptLoop M net action request txn l2 p2 now lastError done).attempts ∧
          (attemptLoop M net action request txn l1 p1 now lastError done).request
            = (attemptLoop M net action request txn l2 p2 now lastError done).request ∧
          (attemptLoop M net action request txn l1 p1 now lastError done).now
            = (attemptLoop M net action request txn l2 p2 now lastError done).now ∧
          (attemptLoop M net action request txn l1 p1 now lastError done).processor.WalletRepo
            = (attemptLoop M net action request txn l2 p2 now lastError
                done).processor.WalletRepo ∧
          (attemptLoop M net action request txn l1 p1 now lastError
              done).processor.CircuitBreakers
            = (attemptLoop M net action request txn l2 p2 now lastError
                done).processor.CircuitBreakers := by
  intro l1
  induction l1 with
  | nil =>
      intro l2 hmap p1 p2 now lastError done hrepo hcb
      have : l2 = [] := by
        cases l2 with
        | nil => rfl
        | cons a l => simp at hmap
      subst this
      rw [attemptLoop_nil, attemptLoop_nil]
      exact ⟨rfl, rfl, rfl, rfl, hrepo, hcb⟩
  | cons a l1 ih =>
      intro l2 hmap p1 p2 now lastError done hrepo hcb
      cases l2 with
      | nil => simp at hmap
      | cons b l2 =>
          simp only [List.map_cons, List.cons.injEq] at hmap
          obtain ⟨hab, hmap⟩ := hmap
          have he := attemptEntry_congr M net action request a b p1 p2 now hab hcb
          rw [attemptLoop_cons, attemptLoop_cons, he, hab, hrepo]
          have hset : ∀ cb, (p1.setBreaker b.PaymentGateway cb).CircuitBreakers
              = (p2.setBreaker b.PaymentGateway cb).CircuitBreakers := by
            intro cb
            unfold PaymentProcessor.setBreaker
            simp only [hcb]
          cases hd : (attemptEntry M net action request b p2 now).2.2 with
          | succeeded resp => exact ⟨rfl, rfl, rfl, rfl, rfl, hset _⟩
          | skipped => exact ih l2 hmap _ _ _ _ _ hrepo (hset _)
          | unresolved err => exact ih l2 hmap _ _ _ _ _ hrepo (hset _)
          | rejected err => exact ih l2 hmap _ _ _ _ _ hrepo (hset _)
          | failed err => exact ih l2 hmap _ _ _ _ _ hrepo (hset _)

theorem processPayment_congr (M : Model) (net : Net) (p1 p2 : PaymentProcessor) (now : Nat)
    (id : String) (r : PaymentRequest) (action : String)
    (hrepo : p1.WalletRepo = p2.WalletRepo) (hcb : p1.CircuitBreakers = p2.CircuitBreakers)
    (hids : p1.PgRoutingMasters.map PgRoutingMaster.PaymentGateway
      = p2.PgRoutingMasters.map PgRoutingMaster.PaymentGateway) :
    (p1.processPayment M net now id r action).result
        = (p2.processPayment M net now id r action).result ∧
      (p1.processPayment M net now id r action).attempts
        = (p2.processPayment M net now id r action).attempts ∧
      (p1.processPayment M net now id r action).request
        = (p2.processPayment M net now id r action).request ∧
      (p1.processPayment M net now id r action).now
        = (p2.processPayment M net now id r action).now ∧
      (p1.processPayment M net now id r action).processor.WalletRepo
        = (p2.processPayment M net now id r action).processor.WalletRepo ∧
      (p1.processPayment M net now id r action).processor.CircuitBreakers
        = (p2.processPayment M net now id r action).processor.CircuitBreakers := by
  cases hv : validateRequest M r with
  | some e =>
      rw [processPayment_invalid M net p1 now id r action e hv,
        processPayment_invalid M net p2 now id r action e hv]
      exact ⟨rfl, rfl, rfl, rfl, hrepo, hcb⟩
  | none =>
      rw [processPayment_valid M net p1 now id r action hv,
        processPayment_valid M net p2 now id r action hv]
      exact attemptLoop_congr M net action _ _ _ _ hids p1 p2 now none [] hrepo hcb

/-- The loop iterations follow the routing list in its order, entry by entry from the first. -/
theorem processPayment_walks_in_order (M : Model) (net : Net) (p : PaymentProcessor) (now : Nat)
    (id : String) (r : PaymentRequest) (action : String) :
    (p.processPayment M net now id r action).attempts.map Attempt.provider
      = (p.PgRoutingMasters.take
          (p.processPayment M net now id r action).attempts.length).map
            PgRoutingMaster.PaymentGateway := by
  cases hv : validateRequest M r with
  | some e =>
      rw [processPayment_invalid M net p now id r action e hv]
      simp
  | none =>
      rw [processPayment_valid M net p now id r action hv]
      obtain ⟨new, h1, -, -, h4, -⟩ := attemptLoop_spec M net action
        { r with TransactionID := id }
        ⟨id, r.UserID, r.Amount, r.Currency, action, M.StateAuthorized⟩
        p.PgRoutingMasters p now none []
      rw [List.nil_append] at h1
      rw [h1]
      exact h4

/-- C18: the loop reads nothing of a routing entry but its provider identifier. For two
processors with the same ledger and the same breakers whose routing lists carry the same
sequence of `PaymentGateway` values, whatever their `Currency`, `CountryCode`, `Active`,
`MaxRetryCount` and `Priority` fields, the same `Deposit` or `Withdraw` at the same time
gives the same result, the same loop iterations (the same providers run in the same order),
the same time at return, and the same ledger and breakers afterwards. The iterations follow
the routing list in declaration order from its first entry, with no entry filtered out or
moved. -/
theorem routing_fields_are_ignored (M : Model) (net : Net) (p1 p2 : PaymentProcessor)
    (now : Nat) (id : String) (request : PaymentRequest)
    (hrepo : p1.WalletRepo = p2.WalletRepo) (hcb : p1.CircuitBreakers = p2.CircuitBreakers)
    (hids : p1.PgRoutingMasters.map PgRoutingMaster.PaymentGateway
      = p2.PgRoutingMasters.map PgRoutingMaster.PaymentGateway) :
    ((p1.Deposit M net now id request).result = (p2.Deposit M net now id request).result ∧
        (p1.Deposit M net now id request).attempts
          = (p2.Deposit M net now id request).attempts ∧
        (p1.Deposit M net now id request).invoked = (p2.Deposit M net now id request).invoked ∧
        (p1.Deposit M net now id request).now = (p2.Deposit M net now id request).now ∧
        (p1.Deposit M net now id request).processor.WalletRepo
          = (p2.Deposit M net now id request).processor.WalletRepo ∧
        (p1.Deposit M net now id request).processor.CircuitBreakers
          = (p2.Deposit M net now id request).processor.CircuitBreakers) ∧
      ((p1.Withdraw M net now id request).result = (p2.Withdraw M net now id request).result ∧
        (p1.Withdraw M net now id request).attempts
          = (p2.Withdraw M net now id request).attempts ∧
        (p1.Withdraw M net now id request).invoked
          = (p2.Withdraw M net now id request).invoked ∧
        (p1.Withdraw M net now id request).now = (p2.Withdraw M net now id request).now ∧
        (p1.Withdraw M net now id request).processor.WalletRepo
          = (p2.Withdraw M net now id request).processor.WalletRepo ∧
        (p1.Withdraw M net now id request).processor.CircuitBreakers
          = (p2.Withdraw M net now id request).processor.CircuitBreakers) ∧
      (p1.Deposit M net now id request).attempts.map Attempt.provider
        = (p1.PgRoutingMasters.take (p1.Deposit M net now id request).attempts.length).map
            PgRoutingMaster.PaymentGateway := by
  refine ⟨?_, ?_, processPayment_walks_in_order M net p1 now id request ActionDeposit⟩
  · obtain ⟨h1, h2, -, h4, h5, h6⟩ :=
      processPayment_congr M net p1 p2 now id request ActionDeposit hrepo hcb hids
    exact ⟨h1, h2, by unfold Outcome.invoked; rw [show (p1.Deposit M net now id request).attempts
      = (p2.Deposit M net now id request).attempts from h2], h4, h5, h6⟩
  · by_cases hb : (p1.WalletRepo.GetWallet request.UserID).2.Balance < request.Amount
    · have hb2 : (p2.WalletRepo.GetWallet request.UserID).2.Balance < request.Amount := by
        rw [← hrepo]
        exact hb
      rw [Withdraw_unfunded M net p1 now id request hb,
        Withdraw_unfunded M net p2 now id request hb2]
      refine ⟨rfl, rfl, rfl, rfl, ?_, hcb⟩
      show (p1.WalletRepo.GetWallet request.UserID).1 = (p2.WalletRepo.GetWallet request.UserID).1
      rw [hrepo]
    · have hb2 : ¬ (p2.WalletRepo.GetWallet request.UserID).2.Balance < request.Amount := by
        rw [← hrepo]
        exact hb
      rw [Withdraw_funded M net p1 now id request hb,
        Withdraw_funded M net p2 now id request hb2]
      obtain ⟨h1, h2, -, h4, h5, h6⟩ := processPayment_congr M net
        { p1 with WalletRepo := (p1.WalletRepo.GetWallet request.UserID).1 }
        { p2 with WalletRepo := (p2.WalletRepo.GetWallet request.UserID).1 }
        now id request gateway.ActionWithdraw
        (by show (p1.WalletRepo.GetWallet request.UserID).1
              = (p2.WalletRepo.GetWallet request.UserID).1
            rw [hrepo])
        hcb hids
      exact ⟨h1, h2, by unfold Outcome.invoked; rw [h2], h4, h5, h6⟩

/-- C18 on the routing list of the tests against a list with the same providers but inactive
entries, foreign currencies and descending priorities: with provider A down, both runs call A
then B and return the same response. -/
theorem routing_fields_are_ignored_witness :
    ((NewPaymentProcessor demoRouting).Deposit demoModel netAdown 0 "t1" demoRequest).result
        = ((NewPaymentProcessor demoRoutingOther).Deposit demoModel netAdown 0 "t1"
            demoRequest).result ∧
      ((NewPaymentProcessor demoRoutingOther).Deposit demoModel netAdown 0 "t1"
          demoRequest).invoked = ["PGA", "PGB"] :=
  have h := (routing_fields_are_ignored demoModel netAdown (NewPaymentProcessor demoRouting)
    (NewPaymentProcessor demoRoutingOther) 0 "t1" demoRequest rfl rfl rfl).1
  ⟨h.1, rfl⟩

/-! ## Non-negative balances -/

/-- C19 fails on the code: on a fresh processor (no wallet, so no negative balance) user 123
deposits the largest `int64` and then 1, each deposit being settled by an Approved callback.
The second settlement wraps around: the balance ends at the smallest `int64`. -/
theorem negative_balance_by_overflow :
    (∀ u w, (NewPaymentProcessor demoRouting).WalletRepo.data u = some w → 0 ≤ w.Balance) ∧
      balanceOf ((NewPaymentProcessor demoRouting).run demoModel demoOverflow) "123"
        = -9223372036854775808 ∧
      ¬ (0 ≤ balanceOf ((NewPaymentProcessor demoRouting).run demoModel demoOverflow) "123") := by
  refine ⟨?_, ?_, ?_⟩
  · intro u w h
    cases h
  · rfl
  · have : balanceOf ((NewPaymentProcessor demoRouting).run demoModel demoOverflow) "123"
        = -9223372036854775808 := rfl
    rw [this]
    decide

theorem LedgerOK_pokeTransaction (r : UserWalletRepo) (k : String) (t : Transaction)
    (h : LedgerOK r) (ht : 0 ≤ t.Amount) : LedgerOK (pokeTransaction r k t) := by
  refine ⟨h.1, ?_⟩
  intro j t1 hj
  simp only [pokeTransaction] at hj
  split_ifs at hj
  · rw [← Option.some.inj hj]
    exact ht
  · exact h.2 j t1 hj

theorem LedgerOK_UpdateTransaction (r : UserWalletRepo) (t : Transaction)
    (h : LedgerOK r) (ht : 0 ≤ t.Amount) : LedgerOK (r.UpdateTransaction t) :=
  LedgerOK_pokeTransaction r t.ID t h ht

theorem LedgerOK_pokeWallet (r : UserWalletRepo) (u : String) (w : Wallet)
    (h : LedgerOK r) (hw : 0 ≤ w.Balance ∧ w.Balance < 2 ^ 63) : LedgerOK (pokeWallet r u w) := by
  refine ⟨?_, h.2⟩
  intro v w1 hv
  simp only [pokeWallet] at hv
  split_ifs at hv
  · rw [← Option.some.inj hv]
    exact hw
  · exact h.1 v w1 hv

theorem LedgerOK_UpdateWallet (r : UserWalletRepo) (u : String) (w : Wallet)
    (h : LedgerOK r) (hw : 0 ≤ w.Balance ∧ w.Balance < 2 ^ 63) :
    LedgerOK (r.UpdateWallet u w) :=
  LedgerOK_pokeWallet r u w h hw

theorem LedgerOK_GetWallet (r : UserWalletRepo) (u : String) (h : LedgerOK r) :
    LedgerOK (r.GetWallet u).1 ∧
      0 ≤ (r.GetWallet u).2.Balance ∧ (r.GetWallet u).2.Balance < 2 ^ 63 := by
  unfold UserWalletRepo.GetWallet
  cases hd : r.data u with
  | some w => exact ⟨h, h.1 u w hd⟩
  | none =>
      exact ⟨LedgerOK_pokeWallet r u ⟨0⟩ h (by decide),
        (by decide : (0 : Int) ≤ 0 ∧ (0 : Int) < 2 ^ 63)⟩

/-- A callback that does not overflow keeps the ledger invariant. -/
theorem HandleCallback_LedgerOK (M : Model) (p : PaymentProcessor) (cb : CallbackRequest)
    (hok : LedgerOK p.WalletRepo) (hno : (Call.callback cb).noOverflow M p) :
    LedgerOK (p.HandleCallback M cb).1.WalletRepo := by
  cases ht : p.WalletRepo.transactions cb.TransactionID with
  | none =>
      rw [HandleCallback_absent M p cb ht]
      exact hok
  | some txn0 =>
      have hA : 0 ≤ txn0.Amount := hok.2 _ _ ht
      have hover := hno txn0 ht
      unfold PaymentProcessor.HandleCallback UserWalletRepo.GetTransaction
      simp only [ht]
      by_cases hApp : cb.State = M.StateApproved
      · simp only [if_pos hApp]
        have h1 : LedgerOK (pokeTransaction p.WalletRepo cb.TransactionID
            { txn0 with State := M.StateApproved }) :=
          LedgerOK_pokeTransaction _ _ _ hok hA
        obtain ⟨h2, h3, h4⟩ := LedgerOK_GetWallet _ txn0.UserID h1
        have hbal : ((pokeTransaction p.WalletRepo cb.TransactionID
            { txn0 with State := M.StateApproved }).GetWallet txn0.UserID).2.Balance
              = balanceOf p txn0.UserID := by
          unfold balanceOf UserWalletRepo.GetWallet pokeTransaction
          cases p.WalletRepo.data txn0.UserID <;> rfl
        by_cases hDep : txn0.Type_ = ActionDeposit
        · simp only [if_pos hDep]
          have hlt := hover hApp hDep
          have hw : wrap64 (((pokeTransaction p.WalletRepo cb.TransactionID
              { txn0 with State := M.StateApproved }).GetWallet txn0.UserID).2.Balance
                + txn0.Amount)
              = ((pokeTransaction p.WalletRepo cb.TransactionID
                { txn0 with State := M.StateApproved }).GetWallet txn0.UserID).2.Balance
                  + txn0.Amount :=
            wrap64_of_range _ (by omega) (by rw [hbal]; exact hlt)
          rw [hw]
          exact LedgerOK_UpdateTransaction _ _
            (LedgerOK_UpdateWallet _ _ _
              (LedgerOK_pokeWallet _ _ _ h2 ⟨by show (0 : Int) ≤ _ + _; omega,
                by show _ + _ < (2 : Int) ^ 63; rw [hbal]; exact hlt⟩)
              ⟨by show (0 : Int) ≤ _ + _; omega,
                by show _ + _ < (2 : Int) ^ 63; rw [hbal]; exact hlt⟩) hA
        · simp only [if_neg hDep]
          by_cases hWd : txn0.Type_ = ActionWithdraw
          · simp only [if_pos hWd]
            by_cases hlt : ((pokeTransaction p.WalletRepo cb.TransactionID
                { txn0 with State := M.StateApproved }).GetWallet txn0.UserID).2.Balance
                  < txn0.Amount
            · simp only [if_pos hlt]
              exact h2
            · simp only [if_neg hlt]
              have hw : wrap64 (((pokeTransaction p.WalletRepo cb.TransactionID
                  { txn0 with State := M.StateApproved }).GetWallet txn0.UserID).2.Balance
                    - txn0.Amount)
                  = ((pokeTransaction p.WalletRepo cb.TransactionID
                    { txn0 with State := M.StateApproved }).GetWallet txn0.UserID).2.Balance
                      - txn0.Amount :=
                wrap64_of_range _ (by omega) (by omega)
              rw [hw]
              exact LedgerOK_UpdateTransaction _ _
                (LedgerOK_UpdateWallet _ _ _
                  (LedgerOK_pokeWallet _ _ _ h2 ⟨by show (0 : Int) ≤ _ - _; omega,
                    by show _ - _ < (2 : Int) ^ 63; omega⟩)
                  ⟨by show (0 : Int) ≤ _ - _; omega,
                    by show _ - _ < (2 : Int) ^ 63; omega⟩) hA
          · simp only [if_neg hWd]
            exact LedgerOK_UpdateTransaction _ _
              (LedgerOK_UpdateWallet _ _ _ h2 ⟨h3, h4⟩) hA
      · simp only [if_neg hApp]
        by_cases hF : cb.State = M.StateFailed
        · simp only [if_pos hF]
          exact LedgerOK_UpdateTransaction _ _ (LedgerOK_pokeTransaction _ _ _ hok hA) hA
        · simp only [if_neg hF]
          exact LedgerOK_UpdateTransaction _ _ hok hA

theorem processPayment_LedgerOK (M : Model) (net : Net) (p : PaymentProcessor) (now : Nat)
    (id : String) (r : PaymentRequest) (action : String) (hok : LedgerOK p.WalletRepo) :
    LedgerOK (p.processPayment M net now id r action).processor.WalletRepo := by
  cases hv : validateRequest M r with
  | some e =>
      rw [processPayment_invalid M net p now id r action e hv]
      exact hok
  | none =>
      have hpos : 0 < r.Amount := ((validateRequest_eq_none_iff M r).mp hv).2.2
      rw [processPayment_valid M net p now id r action hv]
      obtain ⟨new, -, -, -, -, h5⟩ := attemptLoop_spec M net action
        { r with TransactionID := id }
        ⟨id, r.UserID, r.Amount, r.Currency, action, M.StateAuthorized⟩
        p.PgRoutingMasters p now none []
      rcases h5 with ⟨resp, pre, prov, t, -, -, -, -, e5⟩ | ⟨-, -, -, e4⟩
      · rw [e5]
        exact LedgerOK_UpdateTransaction _ _ hok (le_of_lt hpos)
      · rw [e4]
        exact hok

theorem call_LedgerOK (M : Model) (p : PaymentProcessor) (c : Call)
    (hok : LedgerOK p.WalletRepo) (hno : c.noOverflow M p) :
    LedgerOK (p.call M c).WalletRepo := by
  cases c with
  | deposit net now id r => exact processPayment_LedgerOK M net p now id r ActionDeposit hok
  | withdraw net now id r =>
      show LedgerOK (p.Withdraw M net now id r).processor.WalletRepo
      by_cases hb : (p.WalletRepo.GetWallet r.UserID).2.Balance < r.Amount
      · rw [Withdraw_unfunded M net p now id r hb]
        exact (LedgerOK_GetWallet _ _ hok).1
      · rw [Withdraw_funded M net p now id r hb]
        exact processPayment_LedgerOK M net _ now id r _ (LedgerOK_GetWallet _ _ hok).1
  | callback cb => exact HandleCallback_LedgerOK M p cb hok hno

theorem run_LedgerOK (M : Model) (calls : List Call) :
    ∀ p : PaymentProcessor, LedgerOK p.WalletRepo → runNoOverflow M p calls →
      LedgerOK (p.run M calls).WalletRepo := by
  induction calls with
  | nil =>
      intro p hok _
      exact hok
  | cons c rest ih =>
      intro p hok hno
      exact ih (p.call M c) (call_LedgerOK M p c hok hno.1) hno.2

/-- C19 as amended: start from a ledger in which every balance is a non-negative `int64` and
every stored transaction has a non-negative amount (the empty ledger of a new processor, for
one). After any finite sequence of `Deposit`, `Withdraw` and `HandleCallback` calls, with any
network, times, identifiers, requests and callback states, in which no Approved callback on a
`Deposit` transaction pushes balance plus amount beyond the largest `int64`, every balance is
still non-negative. -/
theorem balances_nonnegative_without_overflow (M : Model) (p : PaymentProcessor)
    (calls : List Call) (h0 : LedgerOK p.WalletRepo) (hno : runNoOverflow M p calls) :
    (∀ u w, (p.run M calls).WalletRepo.data u = some w → 0 ≤ w.Balance) ∧
      (∀ u, 0 ≤ balanceOf (p.run M calls) u) := by
  have h := run_LedgerOK M calls p h0 hno
  refine ⟨fun u w hw => (h.1 u w hw).1, ?_⟩
  intro u
  rw [balanceOf_eq]
  cases hd : (p.run M calls).WalletRepo.data u with
  | none => exact le_refl _
  | some w => exact (h.1 u w hd).1

/-- C19 as amended, on the deposit of 100 of `handler_test.go` followed by its Approved
callback: the balance is 100. -/
theorem balances_nonnegative_without_overflow_witness :
    0 ≤ balanceOf ((NewPaymentProcessor demoRouting).run demoModel
      [Call.deposit netUp 0 "t1" demoRequest, Call.callback ⟨"t1", "APPROVED"⟩]) "123" :=
  (balances_nonnegative_without_overflow demoModel (NewPaymentProcessor demoRouting)
    [Call.deposit netUp 0 "t1" demoRequest, Call.callback ⟨"t1", "APPROVED"⟩]
    ⟨fun u w h => (by cases h), fun k t h => (by cases h)⟩
    ⟨trivial, fun txn h _ _ => (by
      have h1 : some (⟨"t1", "123", 100, "USD", "Deposit", "AUTHORIZED"⟩ : Transaction)
          = some txn := h
      rw [← Option.some.inj h1]
      decide), trivial⟩).2 "123"

/-! ## Callbacks that return an error -/

theorem NoWithdrawType_pokeTransaction (r : UserWalletRepo) (k : String) (t : Transaction)
    (h : NoWithdrawType r) (ht : t.Type_ ≠ ActionWithdraw) :
    NoWithdrawType (pokeTransaction r k t) := by
  intro j t1 hj
  simp only [pokeTransaction] at hj
  by_cases hjk : j = k
  · rw [if_pos hjk] at hj
    cases hj
    exact ht
  · rw [if_neg hjk] at hj
    exact h j t1 hj

theorem NoWithdrawType_UpdateTransaction (r : UserWalletRepo) (t : Transaction)
    (h : NoWithdrawType r) (ht : t.Type_ ≠ ActionWithdraw) :
    NoWithdrawType (r.UpdateTransaction t) :=
  NoWithdrawType_pokeTransaction r t.ID t h ht

theorem NoWithdrawType_of_transactions (r r1 : UserWalletRepo)
    (h : NoWithdrawType r) (he : r1.transactions = r.transactions) : NoWithdrawType r1 := by
  intro j t hj
  rw [he] at hj
  exact h j t hj

/-- The entry point `processPayment` with an action other than `"Withdraw"` keeps the type
invariant: the only transaction it stores has the action as its type. -/
theorem processPayment_NoWithdrawType (M : Model) (net : Net) (p : PaymentProcessor) (now : Nat)
    (id : String) (r : PaymentRequest) (action : String) (ha : action ≠ ActionWithdraw)
    (hok : NoWithdrawType p.WalletRepo) :
    NoWithdrawType (p.processPayment M net now id r action).processor.WalletRepo := by
  cases hv : validateRequest M r with
  | some e =>
      rw [processPayment_invalid M net p now id r action e hv]
      exact hok
  | none =>
      rw [processPayment_valid M net p now id r action hv]
      obtain ⟨new, -, -, -, -, h5⟩ := attemptLoop_spec M net action
        { r with TransactionID := id }
        ⟨id, r.UserID, r.Amount, r.Currency, action, M.StateAuthorized⟩
        p.PgRoutingMasters p now none []
      rcases h5 with ⟨resp, pre, prov, t, -, -, -, -, e5⟩ | ⟨-, -, -, e4⟩
      · rw [e5]
        exact NoWithdrawType_UpdateTransaction _ _ hok ha
      · rw [e4]
        exact hok

/-- On a ledger with the type invariant, `HandleCallback` returns an error only for an id that
is not stored, and it keeps the invariant. -/
theorem HandleCallback_NoWithdrawType (M : Model) (p : PaymentProcessor) (cb : CallbackRequest)
    (hok : NoWithdrawType p.WalletRepo) :
    NoWithdrawType (p.HandleCallback M cb).1.WalletRepo ∧
      (∀ e, (p.HandleCallback M cb).2 = some e →
        p.WalletRepo.transactions cb.TransactionID = none) := by
  cases ht : p.WalletRepo.transactions cb.TransactionID with
  | none =>
      rw [HandleCallback_absent M p cb ht]
      exact ⟨hok, fun _ _ => rfl⟩
  | some txn0 =>
      have hty : txn0.Type_ ≠ ActionWithdraw := hok _ _ ht
      unfold PaymentProcessor.HandleCallback UserWalletRepo.GetTransaction
      simp only [ht]
      by_cases hApp : cb.State = M.StateApproved
      · simp only [if_pos hApp, if_neg hty]
        have h1 : NoWithdrawType (pokeTransaction p.WalletRepo cb.TransactionID
            { txn0 with State := M.StateApproved }) :=
          NoWithdrawType_pokeTransaction _ _ _ hok hty
        have h2 : NoWithdrawType ((pokeTransaction p.WalletRepo cb.TransactionID
            { txn0 with State := M.StateApproved }).GetWallet txn0.UserID).1 :=
          NoWithdrawType_of_transactions _ _ h1 (GetWallet_transactions _ _)
        by_cases hd : txn0.Type_ = ActionDeposit
        · simp only [if_pos hd]
          refine ⟨?_, fun e he => by cases he⟩
          exact NoWithdrawType_UpdateTransaction _ _
            (NoWithdrawType_of_transactions _ _ h2 rfl) hty
        · simp only [if_neg hd]
          refine ⟨?_, fun e he => by cases he⟩
          exact NoWithdrawType_UpdateTransaction _ _
            (NoWithdrawType_of_transactions _ _ h2 rfl) hty
      · simp only [if_neg hApp]
        by_cases hf : cb.State = M.StateFailed
        · simp only [if_pos hf]
          refine ⟨?_, fun e he => by cases he⟩
          exact NoWithdrawType_UpdateTransaction _ _
            (NoWithdrawType_pokeTransaction _ _ _ hok hty) hty
        · simp only [if_neg hf]
          refine ⟨?_, fun e he => by cases he⟩
          exact NoWithdrawType_UpdateTransaction _ _ hok hty

theorem call_NoWithdrawType (M : Model) (p : PaymentProcessor) (c : Call)
    (hok : NoWithdrawType p.WalletRepo) : NoWithdrawType (p.call M c).WalletRepo := by
  cases c with
  | deposit net now id r =>
      exact processPayment_NoWithdrawType M net p now id r ActionDeposit (by decide) hok
  | withdraw net now id r =>
      show NoWithdrawType (p.Withdraw M net now id r).processor.WalletRepo
      have hg : NoWithdrawType (p.WalletRepo.GetWallet r.UserID).1 :=
        NoWithdrawType_of_transactions _ _ hok (GetWallet_transactions _ _)
      by_cases hb : (p.WalletRepo.GetWallet r.UserID).2.Balance < r.Amount
      · rw [Withdraw_unfunded M net p now id r hb]
        exact hg
      · rw [Withdraw_funded M net p now id r hb]
        exact processPayment_NoWithdrawType M net _ now id r _ (by decide) hg
  | callback cb => exact (HandleCallback_NoWithdrawType M p cb hok).1

theorem run_NoWithdrawType (M : Model) (calls : List Call) :
    ∀ p : PaymentProcessor, NoWithdrawType p.WalletRepo →
      NoWithdrawType (p.run M calls).WalletRepo := by
  induction calls with
  | nil =>
      intro p hok
      exact hok
  | cons c rest ih =>
      intro p hok
      exact ih (p.call M c) (call_NoWithdrawType M p c hok)

/-- Whatever the ledger, a call of `HandleCallback` that returns an error leaves every balance
as it was. -/
theorem HandleCallback_error_balanceOf (M : Model) (p : PaymentProcessor) (cb : CallbackRequest)
    (e : Err) (he : (p.HandleCallback M cb).2 = some e) (u : String) :
    balanceOf (p.HandleCallback M cb).1 u = balanceOf p u := by
  cases ht : p.WalletRepo.transactions cb.TransactionID with
  | none => rw [HandleCallback_absent M p cb ht]
  | some txn0 =>
      revert he
      unfold PaymentProcessor.HandleCallback UserWalletRepo.GetTransaction
      simp only [ht]
      split_ifs <;> intro he
      all_goals first
        | (exfalso; revert he; simp; done)
        | exact (GetWallet_balanceOf
            ⟨pokeTransaction p.WalletRepo cb.TransactionID
              ⟨txn0.ID, txn0.UserID, txn0.Amount, txn0.Currency, txn0.Type_, M.StateApproved⟩,
              p.CircuitBreakers, p.PgRoutingMasters⟩ txn0.UserID u).trans
            (balanceOf_congr p _ u rfl)

/-- C20: start from a ledger in which no stored transaction has type `"Withdraw"` (the empty
ledger of a new processor, or one whose wallets were funded, as in the tests) and make any
finite sequence of `Deposit`, `Withdraw` and `HandleCallback` calls; `Deposit` stores type
`"Deposit"` and `Withdraw` stores type `"withdraw"`. Whenever `HandleCallback` then returns an
error, the error is `transaction not found`, the id is not stored, the processor is exactly what
it was, every balance is unchanged and `GetTransaction` returns for every id what it returned
before. The insufficient-funds return cannot be reached on such a ledger. On any ledger at
all, a call that returns an error leaves every balance unchanged. -/
theorem callback_error_changes_nothing (M : Model) (p0 : PaymentProcessor) (calls : List Call)
    (callback : CallbackRequest) (e : Err)
    (h0 : NoWithdrawType p0.WalletRepo)
    (herr : ((p0.run M calls).HandleCallback M callback).2 = some e) :
    (e = Err.plain "transaction not found" ∧
        (p0.run M calls).WalletRepo.transactions callback.TransactionID = none ∧
        ((p0.run M calls).HandleCallback M callback).1 = p0.run M calls ∧
        (∀ u, balanceOf ((p0.run M calls).HandleCallback M callback).1 u
          = balanceOf (p0.run M calls) u) ∧
        (∀ k, ((p0.run M calls).HandleCallback M callback).1.WalletRepo.GetTransaction k
          = (p0.run M calls).WalletRepo.GetTransaction k)) ∧
      (∀ (q : PaymentProcessor) (cb : CallbackRequest) (e1 : Err),
        (q.HandleCallback M cb).2 = some e1 →
          ∀ u, balanceOf (q.HandleCallback M cb).1 u = balanceOf q u) := by
  have hinv := run_NoWithdrawType M calls p0 h0
  have habs := (HandleCallback_NoWithdrawType M (p0.run M calls) callback hinv).2 e herr
  have hc := HandleCallback_absent M (p0.run M calls) callback habs
  refine ⟨⟨?_, habs, ?_, ?_, ?_⟩, fun q cb e1 h u => HandleCallback_error_balanceOf M q cb e1 h u⟩
  · rw [hc] at herr
    exact (Option.some.inj herr).symm
  · rw [hc]
  · intro u
    rw [hc]
  · intro k
    rw [hc]

/-- C20 on the ledger of the tests (user 123 holds 200) after a withdrawal of 100 and its
Approved callback: a callback on the unknown id `t9` returns `transaction not found` and the
balance is what it was. -/
theorem callback_error_changes_nothing_witness :
    (((demoFunded demoRouting).run demoModel
        [Call.withdraw netUp 0 "t1" demoRequest, Call.callback ⟨"t1", "APPROVED"⟩]).HandleCallback
          demoModel ⟨"t9", "APPROVED"⟩).2 = some (Err.plain "transaction not found") ∧
      balanceOf (((demoFunded demoRouting).run demoModel
        [Call.withdraw netUp 0 "t1" demoRequest, Call.callback ⟨"t1", "APPROVED"⟩]).HandleCallback
          demoModel ⟨"t9", "APPROVED"⟩).1 "123"
        = balanceOf ((demoFunded demoRouting).run demoModel
          [Call.withdraw netUp 0 "t1" demoRequest, Call.callback ⟨"t1", "APPROVED"⟩]) "123" :=
  ⟨rfl, (callback_error_changes_nothing demoModel (demoFunded demoRouting)
    [Call.withdraw netUp 0 "t1" demoRequest, Call.callback ⟨"t1", "APPROVED"⟩]
    ⟨"t9", "APPROVED"⟩ (Err.plain "transaction not found")
    (fun k t h => by cases h) rfl).1.2.2.2.1 "123"⟩

/-- The type invariant is needed. On a ledger that holds a transaction of type `"Withdraw"`,
which no entry point stores, the Approved callback on the withdrawal `t1` of 100 against a
balance of 50 returns `insufficient funds` and leaves the balance at 50, but the transaction
read back afterwards is Approved: `txn.State` was assigned through the pointer held by the
ledger before the funds check returned. -/
theorem failed_callback_leaves_transaction_approved :
    demoUnderfunded.WalletRepo.GetTransaction "t1"
        = Except.ok ⟨"t1", "123", 100, "USD", "Withdraw", "AUTHORIZED"⟩ ∧
      (demoUnderfunded.HandleCallback demoModel ⟨"t1", "APPROVED"⟩).2
        = some (Err.plain "insufficient funds") ∧
      balanceOf (demoUnderfunded.HandleCallback demoModel ⟨"t1", "APPROVED"⟩).1 "123" = 50 ∧
      (demoUnderfunded.HandleCallback demoModel ⟨"t1", "APPROVED"⟩).1.WalletRepo.GetTransaction
          "t1"
        = Except.ok ⟨"t1", "123", 100, "USD", "Withdraw", "APPROVED"⟩ :=
  ⟨rfl, rfl, rfl, rfl⟩

/-! ## A provider listed several times -/

theorem attemptLoop_step_failed (M : Model) (net : Net) (action : String)
    (request : PaymentRequest) (txn : Transaction) (pgm : PgRoutingMaster)
    (rest : List PgRoutingMaster) (p : PaymentProcessor) (now : Nat) (lastError : Option Err)
    (done : List Attempt) (cb : CircuitBreaker) (now1 : Nat) (err : Err)
    (h : attemptEntry M net action request pgm p now = (cb, now1, Disposition.failed err)) :
    attemptLoop M net action request txn (pgm :: rest) p now lastError done
      = attemptLoop M net action request txn rest (p.setBreaker pgm.PaymentGateway cb) now1
          (some err) (done ++ [⟨pgm.PaymentGateway, now, Disposition.failed err⟩]) := by
  rw [attemptLoop_cons, h]
  rfl

theorem attemptLoop_step_skipped (M : Model) (net : Net) (action : String)
    (request : PaymentRequest) (txn : Transaction) (pgm : PgRoutingMaster)
    (rest : List PgRoutingMaster) (p : PaymentProcessor) (now : Nat) (lastError : Option Err)
    (done : List Attempt) (cb : CircuitBreaker) (now1 : Nat)
    (h : attemptEntry M net action request pgm p now = (cb, now1, Disposition.skipped)) :
    attemptLoop M net action request txn (pgm :: rest) p now lastError done
      = attemptLoop M net action request txn rest (p.setBreaker pgm.PaymentGateway cb) now1
          lastError (done ++ [⟨pgm.PaymentGateway, now, Disposition.skipped⟩]) := by
  rw [attemptLoop_cons, h]
  rfl

theorem attemptLoop_step_succeeded (M : Model) (net : Net) (action : String)
    (request : PaymentRequest) (txn : Transaction) (pgm : PgRoutingMaster)
    (rest : List PgRoutingMaster) (p : PaymentProcessor) (now : Nat) (lastError : Option Err)
    (done : List Attempt) (resp : PaymentResponse)
    (h : (attemptEntry M net action request pgm p now).2.2 = Disposition.succeeded resp) :
    (attemptLoop M net action request txn (pgm :: rest) p now lastError done).result
        = Except.ok resp ∧
      (attemptLoop M net action request txn (pgm :: rest) p now lastError done).attempts
        = done ++ [⟨pgm.PaymentGateway, now, Disposition.succeeded resp⟩] := by
  rw [attemptLoop_cons, h]
  exact ⟨rfl, rfl⟩

/-- A failing call through a Closed breaker in its window, with the breaker afterwards spelled
out: the counters grow by one request and one failure, and the breaker opens if they then
satisfy the trip condition. -/
theorem attemptEntry_fail_counts (M : Model) (net : Net) (action : String)
    (request : PaymentRequest) (pgm : PgRoutingMaster) (p : PaymentProcessor) (now e d : Nat)
    (name : String) (gen : Nat) (c : Counts) (pg : PaymentGateway) (err : Err)
    (hb : p.CircuitBreakers pgm.PaymentGateway
        = some ⟨name, CBState.StateClosed, gen, c, some e⟩ ∨
      (p.CircuitBreakers pgm.PaymentGateway = none ∧
        (⟨name, CBState.StateClosed, gen, c, some e⟩ : CircuitBreaker)
          = NewCircuitBreaker pgm.PaymentGateway now))
    (hg : GetPaymentGatewayInstance pgm.PaymentGateway = Except.ok pg)
    (hr : operation M net pg action request now = (Except.error err, d))
    (hn : now + d ≤ e) :
    attemptEntry M net action request pgm p now
      = (if tripLogic c.onRequest.onFailure then
            ⟨name, CBState.StateOpen, wrapU64 (gen + 1), Counts.clear,
              some (now + d + cbTimeout)⟩
          else ⟨name, CBState.StateClosed, gen, c.onRequest.onFailure, some e⟩,
          now + d, Disposition.failed err) := by
  rw [attemptEntry_fail M net action request pgm p now e d
    ⟨name, CBState.StateClosed, gen, c, some e⟩ pg err hb rfl rfl hg hr hn,
    onFailure_closed _ _ rfl]

/-- C3 fails on the code when a provider is listed more than three times. Provider A, listed
four times ahead of provider B, answers 500; B answers 200. On a fresh processor the first
three entries run A and fail, the third failure opens A's breaker, the fourth entry is skipped
without running A, and B succeeds: the providers run are A, A, A, B, not the five entries of
the routing list up to the first success. -/
theorem repeated_provider_is_skipped_mid_walk :
    ((NewPaymentProcessor demoRoutingRepeated).Deposit demoModel netAdown 0 "t1"
        demoRequest).result = Except.ok ⟨"success", "done", "t1"⟩ ∧
      ((NewPaymentProcessor demoRoutingRepeated).Deposit demoModel netAdown 0 "t1"
        demoRequest).attempts.map (fun a => (a.provider, a.ran))
        = [("PGA", true), ("PGA", true), ("PGA", true), ("PGA", false), ("PGB", true)] ∧
      ((NewPaymentProcessor demoRoutingRepeated).Deposit demoModel netAdown 0 "t1"
        demoRequest).invoked = ["PGA", "PGA", "PGA", "PGB"] ∧
      ((NewPaymentProcessor demoRoutingRepeated).Deposit demoModel netAdown 0 "t1"
        demoRequest).invoked ≠ demoRoutingRepeated.map PgRoutingMaster.PaymentGateway := by
  obtain ⟨ht1, ht2, ht3⟩ := tripLogic_after_failures
  have hD : (NewPaymentProcessor demoRoutingRepeated).Deposit demoModel netAdown 0 "t1"
      demoRequest
      = attemptLoop demoModel netAdown ActionDeposit { demoRequest with TransactionID := "t1" }
          ⟨"t1", "123", 100, "USD", ActionDeposit, "AUTHORIZED"⟩
          [⟨"USD", "US", "PGA", true, 3, 0⟩, ⟨"USD", "US", "PGA", true, 3, 1⟩,
            ⟨"USD", "US", "PGA", true, 3, 2⟩, ⟨"USD", "US", "PGA", true, 3, 3⟩,
            ⟨"USD", "US", "PGB", true, 3, 4⟩]
          (NewPaymentProcessor demoRoutingRepeated) 0 none [] :=
    processPayment_valid demoModel netAdown _ 0 "t1" demoRequest ActionDeposit (by decide)
  have h1 := attemptEntry_fail_counts demoModel netAdown ActionDeposit
    { demoRequest with TransactionID := "t1" } ⟨"USD", "US", "PGA", true, 3, 0⟩
    (NewPaymentProcessor demoRoutingRepeated) 0 500000000 1000000 "PGA" 1 Counts.clear
    PaymentGateway.PGSA (Err.wrapped ErrKind.ErrHttpResponseFailure "Internal Server Error")
    (Or.inr ⟨rfl, rfl⟩) rfl rfl (by decide)
  have c1 : Counts.clear.onRequest.onFailure = ⟨1, 0, 1, 0, 1⟩ := rfl
  rw [c1, ht1] at h1
  have h2 := attemptEntry_fail_counts demoModel netAdown ActionDeposit
    { demoRequest with TransactionID := "t1" } ⟨"USD", "US", "PGA", true, 3, 1⟩
    ((NewPaymentProcessor demoRoutingRepeated).setBreaker "PGA"
      ⟨"PGA", CBState.StateClosed, 1, ⟨1, 0, 1, 0, 1⟩, some 500000000⟩)
    1000000 500000000 1000000 "PGA" 1 ⟨1, 0, 1, 0, 1⟩
    PaymentGateway.PGSA (Err.wrapped ErrKind.ErrHttpResponseFailure "Internal Server Error")
    (Or.inl (setBreaker_get _ _ _)) rfl rfl (by decide)
  have c2 : (⟨1, 0, 1, 0, 1⟩ : Counts).onRequest.onFailure = ⟨2, 0, 2, 0, 2⟩ := rfl
  rw [c2, ht2] at h2
  have h3 := attemptEntry_fail_counts demoModel netAdown ActionDeposit
    { demoRequest with TransactionID := "t1" } ⟨"USD", "US", "PGA", true, 3, 2⟩
    (((NewPaymentProcessor demoRoutingRepeated).setBreaker "PGA"
      ⟨"PGA", CBState.StateClosed, 1, ⟨1, 0, 1, 0, 1⟩, some 500000000⟩).setBreaker "PGA"
      ⟨"PGA", CBState.StateClosed, 1, ⟨2, 0, 2, 0, 2⟩, some 500000000⟩)
    2000000 500000000 1000000 "PGA" 1 ⟨2, 0, 2, 0, 2⟩
    PaymentGateway.PGSA (Err.wrapped ErrKind.ErrHttpResponseFailure "Internal Server Error")
    (Or.inl (setBreaker_get _ _ _)) rfl rfl (by decide)
  have c3 : (⟨2, 0, 2, 0, 2⟩ : Counts).onRequest.onFailure = ⟨3, 0, 3, 0, 3⟩ := rfl
  rw [c3, ht3] at h3
  have h4 := attemptEntry_open demoModel netAdown ActionDeposit
    { demoRequest with TransactionID := "t1" } ⟨"USD", "US", "PGA", true, 3, 3⟩
    ((((NewPaymentProcessor demoRoutingRepeated).setBreaker "PGA"
      ⟨"PGA", CBState.StateClosed, 1, ⟨1, 0, 1, 0, 1⟩, some 500000000⟩).setBreaker "PGA"
      ⟨"PGA", CBState.StateClosed, 1, ⟨2, 0, 2, 0, 2⟩, some 500000000⟩).setBreaker "PGA"
      ⟨"PGA", CBState.StateOpen, wrapU64 (1 + 1), Counts.clear,
        some (2000000 + 1000000 + cbTimeout)⟩)
    (2000000 + 1000000) (2000000 + 1000000 + cbTimeout) _ (setBreaker_get _ _ _) rfl rfl
    (by decide)
  have h5 := attemptEntry_of_closed demoModel netAdown ActionDeposit
    { demoRequest with TransactionID := "t1" } ⟨"USD", "US", "PGB", true, 3, 4⟩
    (((((NewPaymentProcessor demoRoutingRepeated).setBreaker "PGA"
      ⟨"PGA", CBState.StateClosed, 1, ⟨1, 0, 1, 0, 1⟩, some 500000000⟩).setBreaker "PGA"
      ⟨"PGA", CBState.StateClosed, 1, ⟨2, 0, 2, 0, 2⟩, some 500000000⟩).setBreaker "PGA"
      ⟨"PGA", CBState.StateOpen, wrapU64 (1 + 1), Counts.clear,
        some (2000000 + 1000000 + cbTimeout)⟩).setBreaker "PGA"
      ⟨"PGA", CBState.StateOpen, wrapU64 (1 + 1), Counts.clear,
        some (2000000 + 1000000 + cbTimeout)⟩)
    (2000000 + 1000000) PaymentGateway.PGSB (fun cb hcb => by cases hcb) rfl
  have hres : (operation demoModel netAdown PaymentGateway.PGSB ActionDeposit
      { demoRequest with TransactionID := "t1" } (2000000 + 1000000)).1
      = Except.ok ⟨"success", "done", "t1"⟩ := rfl
  rw [hres] at h5
  simp only [] at h5
  have hloop := attemptLoop_step_succeeded demoModel netAdown ActionDeposit
    { demoRequest with TransactionID := "t1" }
    ⟨"t1", "123", 100, "USD", ActionDeposit, "AUTHORIZED"⟩ ⟨"USD", "US", "PGB", true, 3, 4⟩ []
    _ _ (some (Err.wrapped ErrKind.ErrHttpResponseFailure "Internal Server Error"))
    (((([] ++ [⟨"PGA", 0, Disposition.failed
        (Err.wrapped ErrKind.ErrHttpResponseFailure "Internal Server Error")⟩])
      ++ [⟨"PGA", 1000000, Disposition.failed
        (Err.wrapped ErrKind.ErrHttpResponseFailure "Internal Server Error")⟩])
      ++ [⟨"PGA", 2000000, Disposition.failed
        (Err.wrapped ErrKind.ErrHttpResponseFailure "Internal Server Error")⟩])
      ++ [⟨"PGA", 2000000 + 1000000, Disposition.skipped⟩]) _ h5
  have hwalk :=
    (attemptLoop_step_failed demoModel netAdown ActionDeposit
      { demoRequest with TransactionID := "t1" }
      ⟨"t1", "123", 100, "USD", ActionDeposit, "AUTHORIZED"⟩ _
      [⟨"USD", "US", "PGA", true, 3, 1⟩, ⟨"USD", "US", "PGA", true, 3, 2⟩,
        ⟨"USD", "US", "PGA", true, 3, 3⟩, ⟨"USD", "US", "PGB", true, 3, 4⟩]
      _ _ none [] _ _ _ h1).trans
    ((attemptLoop_step_failed _ _ _ _ _ _ _ _ _ _ _ _ _ _ h2).trans
    ((attemptLoop_step_failed _ _ _ _ _ _ _ _ _ _ _ _ _ _ h3).trans
    (attemptLoop_step_skipped _ _ _ _ _ _ _ _ _ _ _ _ _ h4)))
  have hres : ((NewPaymentProcessor demoRoutingRepeated).Deposit demoModel netAdown 0 "t1"
      demoRequest).result = Except.ok ⟨"success", "done", "t1"⟩ := by
    rw [hD, hwalk]
    exact hloop.1
  have hatt : ((NewPaymentProcessor demoRoutingRepeated).Deposit demoModel netAdown 0 "t1"
      demoRequest).attempts
      = [⟨"PGA", 0, Disposition.failed
            (Err.wrapped ErrKind.ErrHttpResponseFailure "Internal Server Error")⟩,
          ⟨"PGA", 1000000, Disposition.failed
            (Err.wrapped ErrKind.ErrHttpResponseFailure "Internal Server Error")⟩,
          ⟨"PGA", 2000000, Disposition.failed
            (Err.wrapped ErrKind.ErrHttpResponseFailure "Internal Server Error")⟩,
          ⟨"PGA", 3000000, Disposition.skipped⟩,
          ⟨"PGB", 3000000, Disposition.succeeded ⟨"success", "done", "t1"⟩⟩] := by
    rw [hD, hwalk]
    exact hloop.2
  refine ⟨hres, ?_, ?_, ?_⟩
  · rw [hatt]
    rfl
  · unfold Outcome.invoked
    rw [hatt]
    rfl
  · unfold Outcome.invoked
    rw [hatt]
    decide

end MicroPaymentGateway
